import Mathlib

/-!
The AI route module of code-AI (`src/routes/ai.js`) and the token deduction of
`src/routes/payment.js`.

A shallow embedding of the response parser (`parseMultiFileResponse`), the provider
fallback loop (`callAI`), the colour and theme helpers, and the handlers
`/generate-project`, `/explain` and `/analyze-url` of `src/routes/ai.js`, and of
`deductTokens` of `src/routes/payment.js`, with the properties the specification states
about them.

JavaScript strings are modelled as `List Char` (a sequence of Unicode scalar
values; lone UTF-16 surrogates are not representable).  Every function is
computable and structurally recursive, so that it can be evaluated on concrete
inputs.
-/

set_option autoImplicit false

namespace CodeAI

/-! ## JavaScript string primitives -/

/-- The backtick character (U+0060), the unit of a markdown code fence. -/
def backtick : Char := Char.ofNat 96

/-- The characters matched by `\s` in a JavaScript regular expression, which are
also the characters removed by `String.prototype.trim` (WhiteSpace and
LineTerminator of ECMA-262). -/
def isJsSpace (c : Char) : Bool :=
  let n := c.toNat
  n == 0x09 || n == 0x0A || n == 0x0B || n == 0x0C || n == 0x0D || n == 0x20 ||
  n == 0xA0 || n == 0x1680 || (0x2000 ≤ n && n ≤ 0x200A) ||
  n == 0x2028 || n == 0x2029 || n == 0x202F || n == 0x205F || n == 0x3000 || n == 0xFEFF

/-- `String.prototype.trimStart`. -/
def trimStart (s : List Char) : List Char := s.dropWhile isJsSpace

/-- `String.prototype.trimEnd`. -/
def trimEnd (s : List Char) : List Char := (s.reverse.dropWhile isJsSpace).reverse

/-- `String.prototype.trim`. -/
def trim (s : List Char) : List Char := trimEnd (trimStart s)

/-- Lower-casing of one character as far as ASCII is concerned
(`A`..`Z` become `a`..`z`, every other character is kept). -/
def asciiLower (c : Char) : Char :=
  if 65 ≤ c.toNat ∧ c.toNat ≤ 90 then Char.ofNat (c.toNat + 32) else c

/-- Case-insensitive comparison of a subject character with a pattern character under
the `i` flag without the `u` flag: ECMA-262 canonicalises with `toUpperCase` but never
maps a non-ASCII character to an ASCII one, so for an ASCII letter of the pattern the
subject character matches exactly when it is that letter in either case. -/
def eqIgnoreCase (c p : Char) : Bool := asciiLower c == asciiLower p

/-- When `s` starts with `pat` (compared case-insensitively if `ci`), the number of
characters of `pat`. -/
def matchLiteral (ci : Bool) : List Char → List Char → Option Nat
  | [], _ => some 0
  | _ :: _, [] => none
  | p :: ps, c :: cs =>
    if (if ci then eqIgnoreCase c p else c == p) then
      (matchLiteral ci ps cs).map (· + 1)
    else none

/-- Length of the match of the regular expression ``/```TAG\n?/`` (with the `i` flag)
anchored at the start of `s`: three backticks, the tag in any letter case, and greedily
one line feed if it follows. -/
def matchFence (tag : List Char) (s : List Char) : Option Nat :=
  match matchLiteral true (backtick :: backtick :: backtick :: tag) s with
  | none => none
  | some n =>
    match s.drop n with
    | c :: _ => if c = '\n' then some (n + 1) else some n
    | [] => some n

/-- The scan of `replace` with a global regular expression and the empty replacement.
`skip` is the number of characters of a match still to be dropped. -/
def stripFenceAux (tag : List Char) : Nat → List Char → List Char
  | _, [] => []
  | skip + 1, _ :: cs => stripFenceAux tag skip cs
  | 0, c :: cs =>
    match matchFence tag (c :: cs) with
    | some n => stripFenceAux tag (n - 1) cs
    | none => c :: stripFenceAux tag 0 cs

/-- Models ``s.replace(/```TAG\n?/gi, '')``: every match, found left to right without
overlap, is removed.  With the empty tag this is ``s.replace(/```\n?/g, '')``. -/
def stripFence (tag : List Char) (s : List Char) : List Char := stripFenceAux tag 0 s

/-- Models `s.replace(/\\X/g, R)` for a two-character pattern: a backslash followed by
the character `x`; every occurrence, found left to right, becomes `r`. -/
def replaceEscape (x r : Char) : List Char → List Char
  | [] => []
  | [c] => [c]
  | c :: d :: rest =>
    if c = '\\' ∧ d = x then r :: replaceEscape x r rest
    else c :: replaceEscape x r (d :: rest)

/-! ## JSON values and `JSON.parse` -/

/-- A JSON number, kept exactly: the value is `± digits * 10 ^ exponent`. -/
structure JsonNumber where
  negative : Bool
  digits : Nat
  exponent : Int
deriving DecidableEq, Repr

/-- The values `JSON.parse` produces.  An object is the list of its own properties in
creation order (the special enumeration order of integer-like keys is not modelled). -/
inductive Json where
  | null
  | bool (b : Bool)
  | num (n : JsonNumber)
  | str (s : List Char)
  | arr (items : List Json)
  | obj (members : List (List Char × Json))
deriving Repr

instance : Inhabited Json := ⟨.null⟩

/-- The exceptions the parser code can meet. -/
inductive JsError where
  | syntaxError
  | typeError
deriving DecidableEq, Repr

/-- Insignificant whitespace of the JSON grammar. -/
def isJsonWs (c : Char) : Bool := c = ' ' || c = '\t' || c = '\n' || c = '\r'

/-- Skips JSON whitespace. -/
def skipWs (s : List Char) : List Char := s.dropWhile isJsonWs

/-- Decimal digit test. -/
def isDigit (c : Char) : Bool := 48 ≤ c.toNat && c.toNat ≤ 57

/-- Value of a hexadecimal digit. -/
def hexVal (c : Char) : Option Nat :=
  let n := c.toNat
  if 48 ≤ n ∧ n ≤ 57 then some (n - 48)
  else if 97 ≤ n ∧ n ≤ 102 then some (n - 87)
  else if 65 ≤ n ∧ n ≤ 70 then some (n - 55)
  else none

/-- Value of four hexadecimal digits. -/
def hex4 (a b c d : Char) : Option Nat :=
  match hexVal a, hexVal b, hexVal c, hexVal d with
  | some x, some y, some z, some w => some (((x * 16 + y) * 16 + z) * 16 + w)
  | _, _, _, _ => none

/-- The character a single-letter escape stands for. -/
def simpleEscape (e : Char) : Option Char :=
  if e = '"' then some '"'
  else if e = '\\' then some '\\'
  else if e = '/' then some '/'
  else if e = 'b' then some (Char.ofNat 8)
  else if e = 'f' then some (Char.ofNat 12)
  else if e = 'n' then some '\n'
  else if e = 'r' then some '\r'
  else if e = 't' then some '\t'
  else none

/-- Whether a UTF-16 code unit is a high (leading) surrogate. -/
def isHighSurrogate (n : Nat) : Bool := 0xD800 ≤ n && n ≤ 0xDBFF

/-- Whether a UTF-16 code unit is a low (trailing) surrogate. -/
def isLowSurrogate (n : Nat) : Bool := 0xDC00 ≤ n && n ≤ 0xDFFF

/-- The character for a code unit that is not part of a surrogate pair: itself, or
U+FFFD for a lone surrogate, which `List Char` cannot hold. -/
def unitToChar (n : Nat) : Char :=
  if isHighSurrogate n || isLowSurrogate n then Char.ofNat 0xFFFD else Char.ofNat n

/-- Turns the code points and escaped code units of a string literal into characters:
a high surrogate directly followed by a low surrogate is one code point. -/
def combineSurrogates : List Nat → List Char
  | [] => []
  | [n] => [unitToChar n]
  | hi :: lo :: rest =>
    if isHighSurrogate hi ∧ isLowSurrogate lo then
      Char.ofNat (0x10000 + (hi - 0xD800) * 0x400 + (lo - 0xDC00)) :: combineSurrogates rest
    else unitToChar hi :: combineSurrogates (lo :: rest)

/-- The content of a JSON string literal after its opening quote, up to the closing
quote, together with the input that follows.  The content is given as code points, a
`\uXXXX` escape contributing the code unit it names. -/
def parseStringUnits : List Char → Option (List Nat × List Char)
  | [] => none
  | c :: rest =>
    if c = '"' then some ([], rest)
    else if c = '\\' then
      match rest with
      | [] => none
      | e :: rest1 =>
        if e = 'u' then
          match rest1 with
          | h1 :: h2 :: h3 :: h4 :: rest2 =>
            match hex4 h1 h2 h3 h4 with
            | none => none
            | some u => (parseStringUnits rest2).map fun r => (u :: r.1, r.2)
          | _ => none
        else
          match simpleEscape e with
          | some ch => (parseStringUnits rest1).map fun r => (ch.toNat :: r.1, r.2)
          | none => none
    else if c.toNat < 0x20 then none
    else (parseStringUnits rest).map fun r => (c.toNat :: r.1, r.2)

/-- The characters of a JSON string literal after its opening quote, and the input
after its closing quote. -/
def parseStringBody (s : List Char) : Option (List Char × List Char) :=
  (parseStringUnits s).map fun r => (combineSurrogates r.1, r.2)

/-- Reads a run of decimal digits as a numeral: the value read so far, the number of
digits read, and the rest of the input. -/
def readDigits : Nat → Nat → List Char → Nat × Nat × List Char
  | acc, cnt, [] => (acc, cnt, [])
  | acc, cnt, c :: cs =>
    if isDigit c then readDigits (acc * 10 + (c.toNat - 48)) (cnt + 1) cs
    else (acc, cnt, c :: cs)

/-- The exponent part of a JSON number (`e` or `E`, an optional sign, one or more
digits), or exponent zero when there is none. -/
def parseExponent (s : List Char) : Option (Int × List Char) :=
  match s with
  | c :: cs =>
    if c = 'e' ∨ c = 'E' then
      let signed : Bool × List Char :=
        match cs with
        | d :: ds => if d = '-' then (true, ds) else if d = '+' then (false, ds) else (false, cs)
        | [] => (false, cs)
      match readDigits 0 0 signed.2 with
      | (_, 0, _) => none
      | (v, _ + 1, rest) => some (if signed.1 then - (v : Int) else (v : Int), rest)
    else some (0, s)
  | [] => some (0, s)

/-- The fraction part of a JSON number (a dot and one or more digits) appended to the
integer digits `intPart`: the combined numeral, the number of fraction digits and the
rest of the input. -/
def parseFraction (intPart : Nat) (s : List Char) : Option (Nat × Nat × List Char) :=
  match s with
  | c :: cs =>
    if c = '.' then
      match readDigits intPart 0 cs with
      | (_, 0, _) => none
      | (v, k + 1, rest) => some (v, k + 1, rest)
    else some (intPart, 0, s)
  | [] => some (intPart, 0, s)

/-- The digits of a JSON number after its optional minus sign. -/
def parseUnsigned (neg : Bool) (s : List Char) : Option (JsonNumber × List Char) :=
  match s with
  | [] => none
  | c :: cs =>
    if ¬ isDigit c then none
    else
      let intPart : Nat × List Char :=
        if c = '0' then (0, cs)
        else let r := readDigits (c.toNat - 48) 1 cs; (r.1, r.2.2)
      match parseFraction intPart.1 intPart.2 with
      | none => none
      | some (v, fracLen, rest) =>
        match parseExponent rest with
        | none => none
        | some (e, rest1) => some (⟨neg, v, e - (fracLen : Int)⟩, rest1)

/-- A JSON number at the start of `s`. -/
def parseNumber (s : List Char) : Option (JsonNumber × List Char) :=
  match s with
  | c :: cs => if c = '-' then parseUnsigned true cs else parseUnsigned false s
  | [] => none

/-- `CreateDataProperty` on the object under construction: a repeated key keeps its place
and takes the new value. -/
def setMember (k : List Char) (v : Json) : List (List Char × Json) → List (List Char × Json)
  | [] => [(k, v)]
  | (k1, v1) :: rest =>
    if k1 = k then (k1, v) :: rest else (k1, v1) :: setMember k v rest

mutual
/-- A JSON value at the start of the input (no leading whitespace), with the rest of
the input.  `fuel` bounds the chain of nested calls. -/
def parseValue : Nat → List Char → Option (Json × List Char)
  | 0, _ => none
  | _, [] => none
  | fuel + 1, c :: cs =>
    if c = '{' then
      match skipWs cs with
      | d :: ds => if d = '}' then some (Json.obj [], ds) else parseMembers fuel (d :: ds) []
      | [] => none
    else if c = '[' then
      match skipWs cs with
      | d :: ds => if d = ']' then some (Json.arr [], ds) else parseElements fuel (d :: ds) []
      | [] => none
    else if c = '"' then
      (parseStringBody cs).map fun r => (Json.str r.1, r.2)
    else if c = 't' then
      (matchLiteral false "rue".toList cs).map fun n => (Json.bool true, cs.drop n)
    else if c = 'f' then
      (matchLiteral false "alse".toList cs).map fun n => (Json.bool false, cs.drop n)
    else if c = 'n' then
      (matchLiteral false "ull".toList cs).map fun n => (Json.null, cs.drop n)
    else (parseNumber (c :: cs)).map fun r => (Json.num r.1, r.2)
/-- The elements of an array after its opening bracket (at least one element), `acc`
being the elements read so far. -/
def parseElements : Nat → List Char → List Json → Option (Json × List Char)
  | 0, _, _ => none
  | fuel + 1, s, acc =>
    match parseValue fuel s with
    | none => none
    | some (v, rest) =>
      match skipWs rest with
      | d :: ds =>
        if d = ',' then parseElements fuel (skipWs ds) (acc ++ [v])
        else if d = ']' then some (Json.arr (acc ++ [v]), ds)
        else none
      | [] => none
/-- The members of an object after its opening brace (at least one member), `acc`
being the members read so far. -/
def parseMembers : Nat → List Char → List (List Char × Json) → Option (Json × List Char)
  | 0, _, _ => none
  | _, [], _ => none
  | fuel + 1, q :: s, acc =>
    if q = '"' then
      match parseStringBody s with
      | none => none
      | some (k, rest) =>
        match skipWs rest with
        | colon :: rest1 =>
          if colon = ':' then
            match parseValue fuel (skipWs rest1) with
            | none => none
            | some (v, rest2) =>
              match skipWs rest2 with
              | d :: ds =>
                if d = ',' then parseMembers fuel (skipWs ds) (setMember k v acc)
                else if d = '}' then some (Json.obj (setMember k v acc), ds)
                else none
              | [] => none
          else none
        | [] => none
    else none
end

/-- Models `JSON.parse(text)`: one value surrounded by optional whitespace and nothing
else; anything else is a `SyntaxError`. -/
def jsonParse (text : List Char) : Except JsError Json :=
  match parseValue (2 * text.length + 2) (skipWs text) with
  | some (v, rest) =>
    match skipWs rest with
    | [] => .ok v
    | _ :: _ => .error .syntaxError
  | none => .error .syntaxError

/-! ## Reading parsed values the way the JavaScript code does -/

/-- Whether the number converts to the Number value zero: its digits are all zero, or
it is so small that rounding to the nearest double gives zero (at most `2 ^ (-1075)`). -/
def JsonNumber.isZero (n : JsonNumber) : Bool :=
  n.digits == 0 || (n.exponent < 0 && n.digits * 2 ^ 1075 ≤ 10 ^ n.exponent.natAbs)

/-- JavaScript truthiness (`ToBoolean`) of a property value; `none` is `undefined`. -/
def truthy : Option Json → Bool
  | none => false
  | some .null => false
  | some (.bool b) => b
  | some (.num n) => !n.isZero
  | some (.str s) => !s.isEmpty
  | some (.arr _) => true
  | some (.obj _) => true

/-- The test `typeof v === 'object'` on a truthy value: arrays and objects. -/
def isObjectType : Option Json → Bool
  | some (.arr _) => true
  | some (.obj _) => true
  | _ => false

/-- The property read `v.key` for a key that no prototype defines (such as `files` and
`summary`): a `TypeError` on `null`, the own property of an object, `undefined` on every
other value. -/
def getProperty (v : Json) (key : List Char) : Except JsError (Option Json) :=
  match v with
  | .null => .error .typeError
  | .obj members => .ok (members.lookup key)
  | _ => .ok none

/-- The number of entries `Object.keys(v).length` of a file set. -/
def entryCount : Json → Nat
  | .obj members => members.length
  | .arr items => items.length
  | _ => 0

/-! ## The regular expressions of the pattern extraction -/

/-- The character class `["']`. -/
def isQuote2 (c : Char) : Bool := c = '"' || c = '\''

/-- The character class of a double quote, a single quote or a backtick. -/
def isQuote3 (c : Char) : Bool := c = '"' || c = '\'' || c = backtick

/-- The greedy `["']?`: drops one leading quote when there is one.  In the patterns
below the optional quote is followed by something that cannot start with a quote, so
backtracking into the other alternative never succeeds. -/
def dropOptQuote : List Char → List Char
  | [] => []
  | c :: cs => if isQuote2 c then cs else c :: cs

/-- The tail of the pattern anchored at the start of `s`: a closing quote character,
`\s*`, then a comma or a closing brace.  The whitespace run is followed by a
non-whitespace character, so only the longest run can succeed. -/
def closesAt : List Char → Bool
  | [] => false
  | c :: cs =>
    isQuote3 c &&
      match cs.dropWhile isJsSpace with
      | d :: _ => d = ',' || d = '}'
      | [] => false

/-- The lazy group `([\s\S]*?)` followed by the tail of the pattern: the shortest prefix
of `s` after which the tail matches. -/
def lazyCapture : List Char → Option (List Char)
  | [] => none
  | c :: cs => if closesAt (c :: cs) then some [] else (lazyCapture cs).map (c :: ·)

/-- The match of the regular expression `["']?NAME["']?\s*:\s*[quote]([\s\S]*?)[quote]\s*[,}]`
anchored at the start of `s` (`[quote]` being the class of the three quote characters);
the result is the text of the capture group. -/
def matchKeyAt (name : List Char) (s : List Char) : Option (List Char) :=
  let s1 := dropOptQuote s
  match matchLiteral false name s1 with
  | none => none
  | some n =>
    match (dropOptQuote (s1.drop n)).dropWhile isJsSpace with
    | [] => none
    | colon :: s2 =>
      if colon = ':' then
        match s2.dropWhile isJsSpace with
        | [] => none
        | q :: s3 => if isQuote3 q then lazyCapture s3 else none
      else none

/-- Models `response.match(/["']?NAME["']?\s*:\s*[quote]([\s\S]*?)[quote]\s*[,}]/)`: the
capture group of the leftmost match, `none` when the pattern matches nowhere. -/
def matchKey (name : List Char) : List Char → Option (List Char)
  | [] => matchKeyAt name []
  | c :: cs =>
    match matchKeyAt name (c :: cs) with
    | some cap => some cap
    | none => matchKey name cs

/-- Models `m.replace(/\\n/g, '\n').replace(/\\"/g, '"')`. -/
def unescapeContent (m : List Char) : List Char :=
  replaceEscape '"' '"' (replaceEscape 'n' '\n' m)

/-! ## `parseMultiFileResponse` -/

/-- The object `parseMultiFileResponse` returns. -/
structure ParseResult where
  files : Json
  summary : Json
deriving Repr

/-- The default summary. -/
def defaultSummary : List Char := "Website generated successfully".toList

/-- The key of the HTML file. -/
def indexHtml : List Char := "index.html".toList

/-- The key of the style sheet. -/
def styleCss : List Char := "style.css".toList

/-- The key of the script. -/
def scriptJs : List Char := "script.js".toList

/-- The cleaning at the head of the `try` block:
``response.replace(/```json\n?/gi, '').replace(/```\n?/g, '').trim()``. -/
def cleanJsonResponse (response : List Char) : List Char :=
  trim (stripFence [] (stripFence "json".toList response))

/-- The cleaning of the single-file fallback: the fences tagged `html`, `css`,
`javascript` and `js` are removed in this order, then the bare fences, then the text
is trimmed. -/
def cleanCode (response : List Char) : List Char :=
  trim (stripFence [] (stripFence "js".toList (stripFence "javascript".toList
    (stripFence "css".toList (stripFence "html".toList response)))))

/-- The body of the `try` block of `parseMultiFileResponse`: `.error` when a statement
throws, `.ok none` when the block ends without returning, `.ok (some r)` when it
returns `r`. -/
def structuredParse (response : List Char) : Except JsError (Option ParseResult) :=
  match jsonParse (cleanJsonResponse response) with
  | .error e => .error e
  | .ok parsed =>
    match getProperty parsed "files".toList with
    | .error e => .error e
    | .ok files =>
      if truthy files && isObjectType files then
        match files, getProperty parsed "summary".toList with
        | some f, .ok summary =>
          .ok (some ⟨f, if truthy summary then summary.getD (.str defaultSummary)
                        else .str defaultSummary⟩)
        | _, .error e => .error e
        | none, .ok _ => .ok none
      else .ok none

/-- The statement `if (m) files[NAME] = m[1].replace(...).replace(...)` for the match
`m` of the pattern of `name` in `response`. -/
def extractInto (name : List Char) (response : List Char)
    (files : List (List Char × Json)) : List (List Char × Json) :=
  match matchKey name response with
  | some cap => setMember name (.str (unescapeContent cap)) files
  | none => files

/-- The statements of `parseMultiFileResponse` after the `try` block. -/
def fallbackParse (response : List Char) : ParseResult :=
  let files := extractInto scriptJs response
    (extractInto styleCss response (extractInto indexHtml response []))
  if files.length = 0 then
    ⟨.obj (setMember indexHtml (.str (cleanCode response)) files), .str defaultSummary⟩
  else ⟨.obj files, .str defaultSummary⟩

/-- Models `parseMultiFileResponse(response)` for a string argument.  The result is in
`Except` so that an exception leaving the function would show: the `catch` clause takes
every exception of the `try` block. -/
def parseMultiFileResponse (response : List Char) : Except JsError ParseResult :=
  match structuredParse response with
  | .ok (some r) => .ok r
  | .ok none => .ok (fallbackParse response)
  | .error _ => .ok (fallbackParse response)

/-! ## Provider configuration -/

/-- The API keys read from the environment when the module is loaded; `none` is an
unset variable. -/
structure Env where
  GEMINI_API_KEY : Option String
  GROQ_API_KEY : Option String
  OPENAI_API_KEY : Option String
  OPENROUTER_API_KEY : Option String
  PERPLEXITY_API_KEY : Option String
deriving Repr

/-- The test `KEY && KEY !== placeholder`: the key is set, not empty, and not the
placeholder of the sample configuration. -/
def keyUsable (key : Option String) (placeholder : String) : Bool :=
  match key with
  | none => false
  | some k => k != "" && k != placeholder

/-- Models `isGeminiConfigured()`. -/
def isGeminiConfigured (env : Env) : Bool :=
  keyUsable env.GEMINI_API_KEY "your_gemini_api_key_here"

/-- Models `isGroqConfigured()`. -/
def isGroqConfigured (env : Env) : Bool :=
  keyUsable env.GROQ_API_KEY "your_groq_api_key_here"

/-- Models `isOpenAIConfigured()`. -/
def isOpenAIConfigured (env : Env) : Bool :=
  keyUsable env.OPENAI_API_KEY "your_openai_api_key_here"

/-- Models `isOpenRouterConfigured()`. -/
def isOpenRouterConfigured (env : Env) : Bool :=
  keyUsable env.OPENROUTER_API_KEY "your_openrouter_api_key_here"

/-- Models `isPerplexityConfigured()`. -/
def isPerplexityConfigured (env : Env) : Bool :=
  keyUsable env.PERPLEXITY_API_KEY "your_perplexity_api_key_here"

/-- Models `isApiKeyConfigured(provider)`: every identifier other than the four named
ones is answered for Gemini. -/
def isApiKeyConfigured (env : Env) (provider : String) : Bool :=
  if provider = "groq" then isGroqConfigured env
  else if provider = "openai" then isOpenAIConfigured env
  else if provider = "openrouter" then isOpenRouterConfigured env
  else if provider = "perplexity" then isPerplexityConfigured env
  else isGeminiConfigured env

/-! ## Provider adapters -/

/-- The upstream services. -/
inductive Adapter where
  | groq
  | openai
  | perplexity
  | openrouter
  | gemini
deriving DecidableEq, Repr

/-- What one HTTP exchange with an upstream service yields. -/
inductive Reply where
  /-- A success status; `text` is the value found at the response path, if any. -/
  | ok (text : Option String)
  /-- Another status; `message` is `error.error?.message` of the body, if any. -/
  | httpError (message : Option String)
  /-- The request, or the reading of the body, raised an exception with this message. -/
  | threw (message : String)
deriving DecidableEq, Repr

/-- The JavaScript expression `v || fallback` on an optional string. -/
def orElse (v : Option String) (fallback : String) : String :=
  match v with
  | some x => if x = "" then fallback else x
  | none => fallback

/-- The part shared by the five adapters: the configuration check, one HTTP exchange,
and the reading of the reply.  The second component tells whether the request was sent. -/
def adapterCall (configured : Bool) (notConfigured requestFailed : String) (reply : Reply) :
    Except String String × Bool :=
  if !configured then (.error notConfigured, false)
  else
    match reply with
    | .threw m => (.error m, true)
    | .httpError m => (.error (orElse m requestFailed), true)
    | .ok text => (.ok (orElse text ""), true)

/-- Models `callGemini`. -/
def callGemini (env : Env) (reply : Reply) : Except String String × Bool :=
  adapterCall (isGeminiConfigured env)
    "Gemini API key not configured. Please add GEMINI_API_KEY to your .env file."
    "Gemini API request failed" reply

/-- Models `callGroq`. -/
def callGroq (env : Env) (reply : Reply) : Except String String × Bool :=
  adapterCall (isGroqConfigured env)
    "Groq API key not configured. Please add GROQ_API_KEY to your .env file."
    "Groq API request failed" reply

/-- Models `callOpenAI`. -/
def callOpenAI (env : Env) (reply : Reply) : Except String String × Bool :=
  adapterCall (isOpenAIConfigured env)
    "OpenAI API key not configured. Please add OPENAI_API_KEY to your .env file."
    "OpenAI API request failed" reply

/-- Models `callOpenRouter`. -/
def callOpenRouter (env : Env) (reply : Reply) : Except String String × Bool :=
  adapterCall (isOpenRouterConfigured env)
    "OpenRouter API key not configured. Please add OPENROUTER_API_KEY to your .env file."
    "OpenRouter API request failed" reply

/-- Models `callPerplexity`. -/
def callPerplexity (env : Env) (reply : Reply) : Except String String × Bool :=
  adapterCall (isPerplexityConfigured env)
    "Perplexity API key not configured. Please add PERPLEXITY_API_KEY to your .env file."
    "Perplexity API request failed" reply

/-- The `switch` of `callProvider`: the adapter an identifier is dispatched to. -/
def adapterOf (provider : String) : Adapter :=
  if provider = "groq" then .groq
  else if provider = "openai" then .openai
  else if provider = "perplexity" then .perplexity
  else if provider = "openrouter" then .openrouter
  else .gemini

/-- The upstream side of one invocation: `net n a` is the reply the service of adapter
`a` gives when the request number `n` (counted from zero) of the invocation goes to it. -/
abbrev Network := Nat → Adapter → Reply

/-- Models `callProvider(provider, prompt, systemInstruction)` when `n` requests have
been sent before. -/
def callProvider (env : Env) (net : Network) (n : Nat) (provider : String) :
    Except String String × Bool :=
  match adapterOf provider with
  | .groq => callGroq env (net n .groq)
  | .openai => callOpenAI env (net n .openai)
  | .perplexity => callPerplexity env (net n .perplexity)
  | .openrouter => callOpenRouter env (net n .openrouter)
  | .gemini => callGemini env (net n .gemini)

/-! ## `isQuotaError` -/

/-- `String.prototype.toLowerCase` on one character, as far as it can produce ASCII:
`A`..`Z`, U+0130 (which becomes `i` followed by U+0307) and U+212A (the Kelvin sign,
which becomes `k`).  Every other character is kept; its lower-case form is not ASCII. -/
def toLowerChar (c : Char) : List Char :=
  if c.toNat = 0x130 then ['i', Char.ofNat 0x307]
  else if c.toNat = 0x212A then ['k']
  else [asciiLower c]

/-- Models `String.prototype.toLowerCase` (see `toLowerChar`). -/
def toLowerCase (s : List Char) : List Char := s.flatMap toLowerChar

/-- Models `String.prototype.includes`: `pattern` starts at some position of `s`. -/
def includes : List Char → List Char → Bool
  | [], pattern => pattern.isPrefixOf []
  | c :: cs, pattern => pattern.isPrefixOf (c :: cs) || includes cs pattern

/-- The patterns of `isQuotaError`. -/
def quotaPatterns : List String :=
  ["quota", "rate limit", "rate_limit", "exceeded", "too many requests", "429", "limit"]

/-- Models `isQuotaError(errorMessage)`. -/
def isQuotaError (errorMessage : String) : Bool :=
  let lowerError := toLowerCase errorMessage.toList
  quotaPatterns.any fun pattern => includes lowerError pattern.toList

/-! ## `callAI` -/

/-- One pass through the body of the loop of `callAI`. -/
structure Attempt where
  /-- The identifier given to `callProvider`. -/
  provider : String
  /-- The adapter it was dispatched to. -/
  adapter : Adapter
  /-- Whether the adapter sent its request. -/
  fetched : Bool
deriving DecidableEq, Repr

/-- The outcome of `callAI`: the returned text or the message of the error thrown, and
the attempts made, in order. -/
structure Run where
  result : Except String String
  attempts : List Attempt

/-- The constant `allProviders` of `callAI`. -/
def allProviders : List String := ["groq", "openai", "perplexity", "gemini"]

/-- The constant `providerOrder` of `callAI`. -/
def providerOrder (provider : String) : List String :=
  provider :: allProviders.filter fun p => p != provider

/-- The constant `availableProviders` of `callAI`: the try-order. -/
def availableProviders (env : Env) (provider : String) : List String :=
  (providerOrder provider).filter fun p => isApiKeyConfigured env p

/-- The `for` loop of `callAI` and the `throw` after it.  `n` is the number of requests
sent so far, `lastError` the message of the variable `lastError` (`none` for `null`). -/
def callAILoop (env : Env) (net : Network) :
    List String → Nat → Option String → Run
  | [], _, lastError =>
    ⟨.error ("All AI providers failed. Last error: " ++ orElse lastError "Unknown error"), []⟩
  | currentProvider :: rest, n, _ =>
    match callProvider env net n currentProvider with
    | (.ok result, fetched) =>
      ⟨.ok result, [⟨currentProvider, adapterOf currentProvider, fetched⟩]⟩
    | (.error message, fetched) =>
      let next := if fetched then n + 1 else n
      let run :=
        if isQuotaError message then callAILoop env net rest next (some message)
        else callAILoop env net rest next (some message)
      ⟨run.result, ⟨currentProvider, adapterOf currentProvider, fetched⟩ :: run.attempts⟩

/-- Models `callAI(prompt, systemInstruction, provider)`; the prompt and the system
instruction only travel to the upstream service and are part of `net`. -/
def callAI (env : Env) (net : Network) (provider : String) : Run :=
  let available := availableProviders env provider
  if available.length = 0 then
    ⟨.error "No AI providers configured. Please add at least one API key to your .env file.", []⟩
  else callAILoop env net available 0 none

/-! ## JSON serialisation of a generated project -/

/-- The lower-case hexadecimal digit of a value below sixteen. -/
def hexDigit (d : Nat) : Char :=
  if d < 10 then Char.ofNat (48 + d) else Char.ofNat (87 + d)

/-- The operation `QuoteJSONString` of `JSON.stringify` on one character: the quote, the
backslash and the control characters are escaped, every other character is copied. -/
def quoteChar (c : Char) : List Char :=
  if c = '"' then ['\\', '"']
  else if c = '\\' then ['\\', '\\']
  else if c.toNat = 8 then ['\\', 'b']
  else if c.toNat = 12 then ['\\', 'f']
  else if c = '\n' then ['\\', 'n']
  else if c = '\r' then ['\\', 'r']
  else if c = '\t' then ['\\', 't']
  else if c.toNat < 0x20 then
    ['\\', 'u', '0', '0', hexDigit (c.toNat / 16), hexDigit (c.toNat % 16)]
  else [c]

/-- The characters `JSON.stringify` writes between the quotes of a string. -/
def quoteBody (s : List Char) : List Char := s.flatMap quoteChar

/-- Models `JSON.stringify` on a string. -/
def quoteJson (s : List Char) : List Char := '"' :: (quoteBody s ++ ['"'])

/-- The members of an object whose values are strings, as `JSON.stringify` writes them:
`"key":"value"` separated by commas. -/
def serialiseMembers : List (List Char × List Char) → List Char
  | [] => []
  | [(k, v)] => quoteJson k ++ ':' :: quoteJson v
  | (k, v) :: m :: rest =>
    quoteJson k ++ ':' :: (quoteJson v ++ ',' :: serialiseMembers (m :: rest))

/-- Models `JSON.stringify({files: F, summary: s})` for a mapping `F` from file names to
text contents, given as the list of its entries, and a string `s`. -/
def serialiseProject (files : List (List Char × List Char)) (summary : List Char) :
    List Char :=
  '{' :: (quoteJson "files".toList ++ ':' :: '{' :: (serialiseMembers files ++
    '}' :: ',' :: (quoteJson "summary".toList ++ ':' :: (quoteJson summary ++ ['}']))))

/-- The closing fence with the line feed before it. -/
def fenceTail : List Char := ['\n', backtick, backtick, backtick]

/-- The text wrapped in a markdown fence: three backticks, the language tag, a line feed,
the text, a line feed, three backticks. -/
def fenced (tag text : List Char) : List Char :=
  backtick :: backtick :: backtick :: (tag ++ '\n' :: (text ++ fenceTail))

/-- The text wrapped in a markdown fence tagged `json`. -/
def jsonFenced (text : List Char) : List Char := fenced "json".toList text

/-- The language tags the single-file fallback removes together with the backticks. -/
def knownFenceTags : List (List Char) :=
  ["html".toList, "css".toList, "javascript".toList, "js".toList]

/-- The file set a mapping of file names to contents stands for. -/
def filesObject (files : List (List Char × List Char)) : Json :=
  .obj (files.map fun kv => (kv.1, Json.str kv.2))

/-- Whether three backticks in a row occur in the text. -/
def hasFence : List Char → Bool
  | a :: b :: c :: rest =>
    (a == backtick && b == backtick && c == backtick) || hasFence (b :: c :: rest)
  | _ => false

/-! ## Reading a result -/

/-- The text stored under `key` in a file set, when there is one. -/
def fileContent (files : Json) (key : List Char) : Option (List Char) :=
  match files with
  | .obj members =>
    match members.lookup key with
    | some (.str s) => some s
    | _ => none
  | _ => none

/-- The keys of a file set. -/
def fileKeys : Json → List (List Char)
  | .obj members => members.map Prod.fst
  | _ => []

/-- The number of entries of the file set returned for a response. -/
def returnedEntryCount (response : List Char) : Except JsError Nat :=
  (parseMultiFileResponse response).map fun r => entryCount r.files

/-- The content returned under `key` for a response. -/
def returnedContent (response : List Char) (key : List Char) : Option (List Char) :=
  match parseMultiFileResponse response with
  | .ok r => fileContent r.files key
  | .error _ => none

/-- Whether the key of the service behind an adapter is usable. -/
def isConfigured (env : Env) : Adapter → Bool
  | .groq => isGroqConfigured env
  | .openai => isOpenAIConfigured env
  | .perplexity => isPerplexityConfigured env
  | .openrouter => isOpenRouterConfigured env
  | .gemini => isGeminiConfigured env

/-- The record of an attempt that sent its request. -/
def sentAttempt (provider : String) : Attempt := ⟨provider, adapterOf provider, true⟩

/-! ## Concrete scenarios -/

/-- Groq and OpenAI have keys; Perplexity, OpenRouter and Gemini have none. -/
def envGroqOpenAI : Env :=
  { GEMINI_API_KEY := none, GROQ_API_KEY := some "gsk-1", OPENAI_API_KEY := some "sk-2",
    OPENROUTER_API_KEY := none, PERPLEXITY_API_KEY := none }

/-- Groq answers with a quota message, OpenAI answers with a text. -/
def netQuotaThenText : Network := fun _ a =>
  match a with
  | .groq => .httpError (some "Quota exceeded for this key")
  | .openai => .ok (some "<h1>B</h1>")
  | _ => .threw "unreachable"

/-- Only Gemini has a key. -/
def envGeminiOnly : Env :=
  { GEMINI_API_KEY := some "AIza-1", GROQ_API_KEY := none, OPENAI_API_KEY := none,
    OPENROUTER_API_KEY := none, PERPLEXITY_API_KEY := none }

/-- No key is set, or only placeholders. -/
def envNoKeys : Env :=
  { GEMINI_API_KEY := some "your_gemini_api_key_here", GROQ_API_KEY := none,
    OPENAI_API_KEY := some "", OPENROUTER_API_KEY := none, PERPLEXITY_API_KEY := none }

/-- Groq and Gemini have keys. -/
def envGroqGemini : Env :=
  { GEMINI_API_KEY := some "AIza-1", GROQ_API_KEY := some "gsk-1", OPENAI_API_KEY := none,
    OPENROUTER_API_KEY := none, PERPLEXITY_API_KEY := none }

/-- Every service is down: each request fails with the same message. -/
def netDown : Network := fun _ _ => .httpError (some "Service unavailable")

/-- Groq is rate limited, every other service is unreachable. -/
def netQuotaThenDown : Network := fun _ a =>
  match a with
  | .groq => .httpError (some "Rate limit reached")
  | _ => .threw "fetch failed"

/-- The text a reply makes the adapter return, `none` when the adapter throws. -/
def Reply.success : Reply → Option String
  | .ok text => some (orElse text "")
  | .httpError _ => none
  | .threw _ => none

/-- Gemini and Groq both fail, with messages that `isQuotaError` classifies as quota. -/
def netQuotaEverywhere : Network := fun _ _ => .httpError (some "Quota exceeded")

/-- Gemini and Groq both fail, with a message that `isQuotaError` does not classify. -/
def netBadRequest : Network := fun _ _ => .httpError (some "Bad request")

/-! ## Colour validation -/

/-- The constant `invalidPatterns` of `isValidColor`. -/
def invalidPatterns : List (List Char) :=
  ["rgba(0, 0, 0, 0)".toList, "rgba(0,0,0,0)".toList, "transparent".toList,
    "inherit".toList, "initial".toList, "unset".toList, "".toList]

/-- The tail `,\s*0\s*\)` of the regular expression of `isValidColor`, anchored at the
start of `s`.  Each whitespace run is followed by a character that is no whitespace, so
only the longest run can succeed. -/
def zeroTail : List Char → Bool
  | [] => false
  | c :: cs =>
    c == ',' &&
      match cs.dropWhile isJsSpace with
      | [] => false
      | z :: rest =>
        z == '0' &&
          match rest.dropWhile isJsSpace with
          | [] => false
          | p :: _ => p == ')'

/-- The part `[^)]*,\s*0\s*\)` anchored at the start of `s`: some run of characters other
than the closing parenthesis, after which the tail matches. -/
def argsThenZero : List Char → Bool
  | [] => false
  | c :: cs => zeroTail (c :: cs) || (c != ')' && argsThenZero cs)

/-- The regular expression `rgba?\([^)]*,\s*0\s*\)` anchored at the start of `s`. -/
def matchRgbaAt (s : List Char) : Bool :=
  match matchLiteral false "rgb".toList s with
  | none => false
  | some n =>
    match s.drop n with
    | c :: rest =>
      if c = 'a' then
        match rest with
        | p :: rest1 => p == '(' && argsThenZero rest1
        | [] => false
      else c == '(' && argsThenZero rest
    | [] => false

/-- Whether `s.match(/rgba?\([^)]*,\s*0\s*\)/)` finds a match: the expression matches at
some position. -/
def searchRgba : List Char → Bool
  | [] => false
  | c :: cs => matchRgbaAt (c :: cs) || searchRgba cs

/-- Models `isValidColor(color)`; `none` stands for every value that is not a string
(`undefined`, `null`, a number). -/
def isValidColor (color : Option (List Char)) : Bool :=
  match color with
  | none => false
  | some s =>
    if s.isEmpty then false
    else
      let trimmed := toLowerCase (trim s)
      if invalidPatterns.contains trimmed then false
      else if searchRgba trimmed then false
      else true

/-- Models `filterValidColors(colors)`. -/
def filterValidColors (colors : List (Option (List Char))) : List (Option (List Char)) :=
  colors.filter fun c => isValidColor c

/-! ## Colour themes -/

/-- An entry of `COLOR_THEME_CONFIG`. -/
structure ThemeConfig where
  name : List Char
  background : List Char
  surface : List Char
  primary : List Char
  secondary : List Char
  accent : List Char
  text : List Char
  textMuted : List Char
  gradient : List Char
  description : List Char
deriving DecidableEq, Repr, Inhabited

/-- The theme `dark-blue-purple`. -/
def themeDarkBluePurple : ThemeConfig :=
  { name := "Dark with Blue & Purple".toList, background := "#0f172a".toList,
    surface := "#1e293b".toList, primary := "#3b82f6".toList, secondary := "#8b5cf6".toList,
    accent := "#06b6d4".toList, text := "#f8fafc".toList, textMuted := "#94a3b8".toList,
    gradient := "linear-gradient(135deg, #3b82f6, #8b5cf6)".toList,
    description :=
      "Dark navy background with vibrant blue (#3b82f6) and purple (#8b5cf6) accents".toList }

/-- The theme `dark-green-cyan`. -/
def themeDarkGreenCyan : ThemeConfig :=
  { name := "Dark with Green & Cyan".toList, background := "#0a0f0d".toList,
    surface := "#1a2420".toList, primary := "#10b981".toList, secondary := "#06b6d4".toList,
    accent := "#22d3ee".toList, text := "#f0fdf4".toList, textMuted := "#86efac".toList,
    gradient := "linear-gradient(135deg, #10b981, #06b6d4)".toList,
    description :=
      "Dark forest background with emerald green (#10b981) and cyan (#06b6d4) accents".toList }

/-- The theme `light-blue`. -/
def themeLightBlue : ThemeConfig :=
  { name := "Light with Blue".toList, background := "#f8fafc".toList,
    surface := "#ffffff".toList, primary := "#2563eb".toList, secondary := "#3b82f6".toList,
    accent := "#0ea5e9".toList, text := "#0f172a".toList, textMuted := "#64748b".toList,
    gradient := "linear-gradient(135deg, #2563eb, #0ea5e9)".toList,
    description := "Clean white background with professional blue (#2563eb) accents".toList }

/-- The theme `light-purple`. -/
def themeLightPurple : ThemeConfig :=
  { name := "Light with Purple".toList, background := "#faf5ff".toList,
    surface := "#ffffff".toList, primary := "#7c3aed".toList, secondary := "#a855f7".toList,
    accent := "#c084fc".toList, text := "#1e1b4b".toList, textMuted := "#6b7280".toList,
    gradient := "linear-gradient(135deg, #7c3aed, #a855f7)".toList,
    description := "Soft lavender background with vibrant purple (#7c3aed) accents".toList }

/-- The theme `dark-orange-red`. -/
def themeDarkOrangeRed : ThemeConfig :=
  { name := "Dark with Orange & Red".toList, background := "#18181b".toList,
    surface := "#27272a".toList, primary := "#f97316".toList, secondary := "#ef4444".toList,
    accent := "#fbbf24".toList, text := "#fafafa".toList, textMuted := "#a1a1aa".toList,
    gradient := "linear-gradient(135deg, #f97316, #ef4444)".toList,
    description :=
      "Dark charcoal background with warm orange (#f97316) and red (#ef4444) accents".toList }

/-- The theme `dark-pink-rose`. -/
def themeDarkPinkRose : ThemeConfig :=
  { name := "Dark with Pink & Rose".toList, background := "#1a1a2e".toList,
    surface := "#16213e".toList, primary := "#ec4899".toList, secondary := "#f43f5e".toList,
    accent := "#fb7185".toList, text := "#fdf2f8".toList, textMuted := "#f9a8d4".toList,
    gradient := "linear-gradient(135deg, #ec4899, #f43f5e)".toList,
    description :=
      "Deep indigo background with vibrant pink (#ec4899) and rose (#f43f5e) accents".toList }

/-- The own properties of the object `COLOR_THEME_CONFIG`. -/
def COLOR_THEME_CONFIG : List (List Char × ThemeConfig) :=
  [("dark-blue-purple".toList, themeDarkBluePurple),
    ("dark-green-cyan".toList, themeDarkGreenCyan),
    ("light-blue".toList, themeLightBlue),
    ("light-purple".toList, themeLightPurple),
    ("dark-orange-red".toList, themeDarkOrangeRed),
    ("dark-pink-rose".toList, themeDarkPinkRose)]

/-- The keys of `COLOR_THEME_CONFIG`. -/
def themeKeys : List (List Char) := COLOR_THEME_CONFIG.map Prod.fst

/-- The property names every object literal inherits from `Object.prototype`; the value
under each of them is a function or an object, hence truthy. -/
def inheritedKeys : List (List Char) :=
  ["constructor".toList, "hasOwnProperty".toList, "isPrototypeOf".toList,
    "propertyIsEnumerable".toList, "toLocaleString".toList, "toString".toList,
    "valueOf".toList, "__proto__".toList, "__defineGetter__".toList,
    "__defineSetter__".toList, "__lookupGetter__".toList, "__lookupSetter__".toList]

/-- What a property read on `COLOR_THEME_CONFIG` can give. -/
inductive ThemeValue where
  /-- An entry of the table. -/
  | theme (t : ThemeConfig)
  /-- The value inherited from `Object.prototype` under the key (for `constructor`, the
  function `Object`); it has none of the colour fields of a theme. -/
  | inherited (key : List Char)
deriving DecidableEq, Repr

/-- The read of a colour, gradient or description field of a looked-up value; `none` is
`undefined`. -/
def ThemeValue.get (v : ThemeValue) (field : ThemeConfig → List Char) : Option (List Char) :=
  match v with
  | .theme t => some (field t)
  | .inherited _ => none

/-- The property read `COLOR_THEME_CONFIG[key]`: an own property, else a property of the
prototype, else `undefined`. -/
def themeProperty (key : List Char) : Option ThemeValue :=
  match COLOR_THEME_CONFIG.lookup key with
  | some t => some (.theme t)
  | none => if inheritedKeys.contains key then some (.inherited key) else none

/-- The character class `[a-z-]`. -/
def isKeyChar (c : Char) : Bool := (97 ≤ c.toNat && c.toNat ≤ 122) || c == '-'

/-- One character of the lower-cased key under `replace(/[^a-z-]/g, '-')`: a lower-case
letter or a hyphen stays, every other UTF-16 code unit becomes a hyphen (a character
outside the basic plane has two code units). -/
def keyChar (c : Char) : List Char :=
  if isKeyChar c then [c]
  else if 0x10000 ≤ c.toNat then ['-', '-']
  else ['-']

/-- The expression `key.toLowerCase().replace(/[^a-z-]/g, '-')`. -/
def hyphenateKey (key : List Char) : List Char := (toLowerCase key).flatMap keyChar

/-- The key of the default theme. -/
def defaultThemeKey : List Char := "dark-blue-purple".toList

/-- The constant `normalizedKey` of `getColorThemeConfig`:
`themeKey?.toLowerCase().replace(/[^a-z-]/g, '-') || 'dark-blue-purple'`; `none` is a
missing key. -/
def normalizedKey (themeKey : Option (List Char)) : List Char :=
  match themeKey with
  | none => defaultThemeKey
  | some k => if (hyphenateKey k).isEmpty then defaultThemeKey else hyphenateKey k

/-- Models `getColorThemeConfig(themeKey)`. -/
def getColorThemeConfig (themeKey : Option (List Char)) : ThemeValue :=
  match themeProperty (normalizedKey themeKey) with
  | some v => v
  | none => .theme themeDarkBluePurple

/-- The page colours of `analysis.colors`, and the argument `detectedColors` of
`generateColorPalette`; an absent field is `none`, an entry that is no string is `none`. -/
structure DetectedColors where
  background : Option (List Char)
  text : Option (List Char)
  accents : Option (List (Option (List Char)))
deriving DecidableEq, Repr

/-- The object `generateColorPalette` returns; `none` is a field that is absent or
`undefined`. -/
structure Palette where
  primary : Option (List Char)
  secondary : Option (List Char)
  accent : Option (List Char)
  background : Option (List Char)
  text : Option (List Char)
  gradient : Option (List Char)
deriving DecidableEq, Repr

/-- JavaScript truthiness of an optional string: a string that is not empty. -/
def truthyText : Option (List Char) → Bool
  | some s => !s.isEmpty
  | none => false

/-- The constant `validDetected` of `generateColorPalette`:
`filterValidColors(detectedColors?.accents || [])`. -/
def validDetected (detectedColors : Option DetectedColors) : List (Option (List Char)) :=
  filterValidColors ((detectedColors.bind fun d => d.accents).getD [])

/-- Models `generateColorPalette(detectedColors, themeKey)`. -/
def generateColorPalette (detectedColors : Option DetectedColors)
    (themeKey : Option (List Char)) : Palette :=
  let theme := getColorThemeConfig themeKey
  match validDetected detectedColors with
  | v0 :: v1 :: rest =>
    let background := detectedColors.bind fun d => d.background
    let text := detectedColors.bind fun d => d.text
    { primary := v0
      secondary := v1
      accent := match rest with
        | v2 :: _ => if truthyText v2 then v2 else theme.get (·.accent)
        | [] => theme.get (·.accent)
      background := if isValidColor background then background else theme.get (·.background)
      text := if isValidColor text then text else theme.get (·.text)
      gradient := none }
  | _ =>
    { primary := theme.get (·.primary)
      secondary := theme.get (·.secondary)
      accent := theme.get (·.accent)
      background := theme.get (·.background)
      text := theme.get (·.text)
      gradient := theme.get (·.gradient) }

/-- The constant `hasValidColors` of the analyze-url handler. -/
def hasValidColors (colors : DetectedColors) : Bool :=
  decide (2 ≤ (filterValidColors
    (colors.background :: colors.text :: colors.accents.getD [])).length)

/-- The detected colours the analysis prompt embeds under "Original Color Palette": the
background, the text colour and the joined accents when `hasValidColors`, none
otherwise. -/
def promptDetectedColors (colors : DetectedColors) : List (Option (List Char)) :=
  if hasValidColors colors then colors.background :: colors.text :: colors.accents.getD []
  else []

/-- A page whose body background is transparent, with a text colour and one accent. -/
def colorsTransparentBody : DetectedColors :=
  { background := some "rgba(0, 0, 0, 0)".toList, text := some "rgb(33, 37, 41)".toList,
    accents := some [some "rgb(13, 110, 253)".toList] }

/-- A page with a white background, black text and no accent. -/
def colorsNoAccent : DetectedColors :=
  { background := some "#ffffff".toList, text := some "#000000".toList, accents := some [] }

/-- A page with four accent candidates, the second and third of them invalid, and a
transparent text colour. -/
def colorsFourAccents : DetectedColors :=
  { background := some "#fefefe".toList, text := some "transparent".toList,
    accents := some [some "#111111".toList, none, some "transparent".toList,
      some "#222222".toList] }

/-! ## The generate-project handler -/

/-- Upper-casing of one character as far as ASCII is concerned (`a`..`z` become
`A`..`Z`, every other character is kept). -/
def asciiUpper (c : Char) : Char :=
  if 97 ≤ c.toNat ∧ c.toNat ≤ 122 then Char.ofNat (c.toNat - 32) else c

/-- The characters outside ASCII whose upper case is one character, in runs
`(first, last, step, upper case of first)`: the characters `first`, `first + step`, ...
up to `last` map to the character at the same offset from the upper case of `first`
(Unicode 14.0, `UnicodeData.txt`). -/
def upperRuns : List (Nat × Nat × Nat × Nat) :=
  [(181, 181, 1, 924), (224, 246, 1, 192), (248, 254, 1, 216), (255, 255, 1, 376),
   (257, 303, 2, 256), (305, 305, 1, 73), (307, 311, 2, 306), (314, 328, 2, 313),
   (331, 375, 2, 330), (378, 382, 2, 377), (383, 383, 1, 83), (384, 384, 1, 579),
   (387, 389, 2, 386), (392, 392, 1, 391), (396, 396, 1, 395), (402, 402, 1, 401),
   (405, 405, 1, 502), (409, 409, 1, 408), (410, 410, 1, 573), (414, 414, 1, 544),
   (417, 421, 2, 416), (424, 424, 1, 423), (429, 429, 1, 428), (432, 432, 1, 431),
   (436, 438, 2, 435), (441, 441, 1, 440), (445, 445, 1, 444), (447, 447, 1, 503),
   (453, 453, 1, 452), (454, 454, 1, 452), (456, 456, 1, 455), (457, 457, 1, 455),
   (459, 459, 1, 458), (460, 460, 1, 458), (462, 476, 2, 461), (477, 477, 1, 398),
   (479, 495, 2, 478), (498, 498, 1, 497), (499, 499, 1, 497), (501, 501, 1, 500),
   (505, 543, 2, 504), (547, 563, 2, 546), (572, 572, 1, 571), (575, 576, 1, 11390),
   (578, 578, 1, 577), (583, 591, 2, 582), (592, 592, 1, 11375), (593, 593, 1, 11373),
   (594, 594, 1, 11376), (595, 595, 1, 385), (596, 596, 1, 390), (598, 599, 1, 393),
   (601, 601, 1, 399), (603, 603, 1, 400), (604, 604, 1, 42923), (608, 608, 1, 403),
   (609, 609, 1, 42924), (611, 611, 1, 404), (613, 613, 1, 42893), (614, 614, 1, 42922),
   (616, 616, 1, 407), (617, 617, 1, 406), (618, 618, 1, 42926), (619, 619, 1, 11362),
   (620, 620, 1, 42925), (623, 623, 1, 412), (625, 625, 1, 11374), (626, 626, 1, 413),
   (629, 629, 1, 415), (637, 637, 1, 11364), (640, 640, 1, 422), (642, 642, 1, 42949),
   (643, 643, 1, 425), (647, 647, 1, 42929), (648, 648, 1, 430), (649, 649, 1, 580),
   (650, 651, 1, 433), (652, 652, 1, 581), (658, 658, 1, 439), (669, 669, 1, 42930),
   (670, 670, 1, 42928), (837, 837, 1, 921), (881, 883, 2, 880), (887, 887, 1, 886),
   (891, 893, 1, 1021), (940, 940, 1, 902), (941, 943, 1, 904), (945, 961, 1, 913),
   (962, 962, 1, 931), (963, 971, 1, 931), (972, 972, 1, 908), (973, 974, 1, 910),
   (976, 976, 1, 914), (977, 977, 1, 920), (981, 981, 1, 934), (982, 982, 1, 928),
   (983, 983, 1, 975), (985, 1007, 2, 984), (1008, 1008, 1, 922), (1009, 1009, 1, 929),
   (1010, 1010, 1, 1017), (1011, 1011, 1, 895), (1013, 1013, 1, 917), (1016, 1016, 1, 1015),
   (1019, 1019, 1, 1018), (1072, 1103, 1, 1040), (1104, 1119, 1, 1024), (1121, 1153, 2, 1120),
   (1163, 1215, 2, 1162), (1218, 1230, 2, 1217), (1231, 1231, 1, 1216), (1233, 1327, 2, 1232),
   (1377, 1414, 1, 1329), (4304, 4346, 1, 7312), (4349, 4351, 1, 7357), (5112, 5117, 1, 5104),
   (7296, 7296, 1, 1042), (7297, 7297, 1, 1044), (7298, 7298, 1, 1054), (7299, 7300, 1, 1057),
   (7301, 7301, 1, 1058), (7302, 7302, 1, 1066), (7303, 7303, 1, 1122),
   (7304, 7304, 1, 42570), (7545, 7545, 1, 42877), (7549, 7549, 1, 11363),
   (7566, 7566, 1, 42950), (7681, 7829, 2, 7680), (7835, 7835, 1, 7776),
   (7841, 7935, 2, 7840), (7936, 7943, 1, 7944), (7952, 7957, 1, 7960), (7968, 7975, 1, 7976),
   (7984, 7991, 1, 7992), (8000, 8005, 1, 8008), (8017, 8023, 2, 8025), (8032, 8039, 1, 8040),
   (8048, 8049, 1, 8122), (8050, 8053, 1, 8136), (8054, 8055, 1, 8154), (8056, 8057, 1, 8184),
   (8058, 8059, 1, 8170), (8060, 8061, 1, 8186), (8112, 8113, 1, 8120), (8126, 8126, 1, 921),
   (8144, 8145, 1, 8152), (8160, 8161, 1, 8168), (8165, 8165, 1, 8172), (8526, 8526, 1, 8498),
   (8560, 8575, 1, 8544), (8580, 8580, 1, 8579), (9424, 9449, 1, 9398),
   (11312, 11359, 1, 11264), (11361, 11361, 1, 11360), (11365, 11365, 1, 570),
   (11366, 11366, 1, 574), (11368, 11372, 2, 11367), (11379, 11379, 1, 11378),
   (11382, 11382, 1, 11381), (11393, 11491, 2, 11392), (11500, 11502, 2, 11499),
   (11507, 11507, 1, 11506), (11520, 11557, 1, 4256), (11559, 11559, 1, 4295),
   (11565, 11565, 1, 4301), (42561, 42605, 2, 42560), (42625, 42651, 2, 42624),
   (42787, 42799, 2, 42786), (42803, 42863, 2, 42802), (42874, 42876, 2, 42873),
   (42879, 42887, 2, 42878), (42892, 42892, 1, 42891), (42897, 42899, 2, 42896),
   (42900, 42900, 1, 42948), (42903, 42921, 2, 42902), (42933, 42947, 2, 42932),
   (42952, 42954, 2, 42951), (42961, 42961, 1, 42960), (42967, 42969, 2, 42966),
   (42998, 42998, 1, 42997), (43859, 43859, 1, 42931), (43888, 43967, 1, 5024),
   (65345, 65370, 1, 65313), (66600, 66639, 1, 66560), (66776, 66811, 1, 66736),
   (66967, 67003, 2, 66928), (66968, 66977, 1, 66929), (66980, 66993, 1, 66941),
   (66996, 67001, 1, 66957), (67004, 67004, 1, 66965), (68800, 68850, 1, 68736),
   (71872, 71903, 1, 71840), (93792, 93823, 1, 93760), (125218, 125251, 1, 125184)]

/-- The characters whose upper case is more than one character, with its code points
(Unicode 14.0, the unconditional entries of `SpecialCasing.txt`). -/
def upperSpecial : List (Nat × List Nat) :=
  [(223, [83, 83]), (329, [700, 78]), (496, [74, 780]), (912, [921, 776, 769]),
   (944, [933, 776, 769]), (1415, [1333, 1362]), (7830, [72, 817]), (7831, [84, 776]),
   (7832, [87, 778]), (7833, [89, 778]), (7834, [65, 702]), (8016, [933, 787]),
   (8018, [933, 787, 768]), (8020, [933, 787, 769]), (8022, [933, 787, 834]),
   (8064, [7944, 921]), (8065, [7945, 921]), (8066, [7946, 921]), (8067, [7947, 921]),
   (8068, [7948, 921]), (8069, [7949, 921]), (8070, [7950, 921]), (8071, [7951, 921]),
   (8072, [7944, 921]), (8073, [7945, 921]), (8074, [7946, 921]), (8075, [7947, 921]),
   (8076, [7948, 921]), (8077, [7949, 921]), (8078, [7950, 921]), (8079, [7951, 921]),
   (8080, [7976, 921]), (8081, [7977, 921]), (8082, [7978, 921]), (8083, [7979, 921]),
   (8084, [7980, 921]), (8085, [7981, 921]), (8086, [7982, 921]), (8087, [7983, 921]),
   (8088, [7976, 921]), (8089, [7977, 921]), (8090, [7978, 921]), (8091, [7979, 921]),
   (8092, [7980, 921]), (8093, [7981, 921]), (8094, [7982, 921]), (8095, [7983, 921]),
   (8096, [8040, 921]), (8097, [8041, 921]), (8098, [8042, 921]), (8099, [8043, 921]),
   (8100, [8044, 921]), (8101, [8045, 921]), (8102, [8046, 921]), (8103, [8047, 921]),
   (8104, [8040, 921]), (8105, [8041, 921]), (8106, [8042, 921]), (8107, [8043, 921]),
   (8108, [8044, 921]), (8109, [8045, 921]), (8110, [8046, 921]), (8111, [8047, 921]),
   (8114, [8122, 921]), (8115, [913, 921]), (8116, [902, 921]), (8118, [913, 834]),
   (8119, [913, 834, 921]), (8124, [913, 921]), (8130, [8138, 921]), (8131, [919, 921]),
   (8132, [905, 921]), (8134, [919, 834]), (8135, [919, 834, 921]), (8140, [919, 921]),
   (8146, [921, 776, 768]), (8147, [921, 776, 769]), (8150, [921, 834]),
   (8151, [921, 776, 834]), (8162, [933, 776, 768]), (8163, [933, 776, 769]),
   (8164, [929, 787]), (8166, [933, 834]), (8167, [933, 776, 834]), (8178, [8186, 921]),
   (8179, [937, 921]), (8180, [911, 921]), (8182, [937, 834]), (8183, [937, 834, 921]),
   (8188, [937, 921]), (64256, [70, 70]), (64257, [70, 73]), (64258, [70, 76]),
   (64259, [70, 70, 73]), (64260, [70, 70, 76]), (64261, [83, 84]), (64262, [83, 84]),
   (64275, [1348, 1350]), (64276, [1348, 1333]), (64277, [1348, 1339]), (64278, [1358, 1350]),
   (64279, [1348, 1341])]

/-- The upper case of one character: the result of `toUpperCase` on it. -/
def toUpperChar (c : Char) : List Char :=
  if c.toNat < 128 then [asciiUpper c]
  else
    match upperSpecial.lookup c.toNat with
    | some upper => upper.map Char.ofNat
    | none =>
      match upperRuns.find? fun r =>
          r.1 ≤ c.toNat && c.toNat ≤ r.2.1 && (c.toNat - r.1) % r.2.2.1 = 0 with
      | some r => [Char.ofNat (r.2.2.2 + (c.toNat - r.1))]
      | none => [c]

/-- Models `String.prototype.toUpperCase`: every character is replaced by its upper case,
which does not depend on the context or the locale. -/
def toUpperCase (s : String) : String := String.mk (s.toList.flatMap toUpperChar)

/-- The kind of an exception of the parser, used where its message would be reported. -/
def JsError.kind : JsError → String
  | .syntaxError => "SyntaxError"
  | .typeError => "TypeError"

/-- The response a handler sends. -/
inductive HttpResponse where
  /-- Models `res.status(status).json({ success: false, error })`. -/
  | failure (status : Nat) (error : String)
  /-- Models `res.json({ success: true, files, summary, filesCount })`. -/
  | project (files : Json) (summary : Json) (filesCount : Nat)

/-- What a request to a handler did: the response sent and the provider attempts made. -/
structure HandlerRun where
  response : HttpResponse
  attempts : List Attempt

/-- Models the handler of `POST /generate-project` on the fields `prompt` and `provider`
of the request body (`none` is a missing field).  The token deduction that follows a
successful generation catches its own exceptions and does not change the response; it is
left out. -/
def generateProject (env : Env) (net : Network) (prompt : Option String)
    (provider : Option String) : HandlerRun :=
  let provider := provider.getD "gemini"
  if !isApiKeyConfigured env provider then
    ⟨.failure 400 (toUpperCase provider ++
      " API key not configured. Please add your API key to the .env file."), []⟩
  else if orElse prompt "" = "" then
    ⟨.failure 400 "Prompt is required", []⟩
  else
    let run := callAI env net provider
    match run.result with
    | .error message => ⟨.failure 500 message, run.attempts⟩
    | .ok generatedResponse =>
      match parseMultiFileResponse generatedResponse.toList with
      | .ok result =>
        ⟨.project result.files result.summary (entryCount result.files), run.attempts⟩
      | .error e => ⟨.failure 500 e.kind, run.attempts⟩

/-- Gemini answers with a success status and a body without text. -/
def netEmptyBody : Network := fun _ _ => .ok none

/-! ## The explain handler -/

/-- The UTF-16 code units of a character. -/
def utf16Char (c : Char) : List Nat :=
  if c.toNat < 0x10000 then [c.toNat]
  else [0xD800 + (c.toNat - 0x10000) / 0x400, 0xDC00 + (c.toNat - 0x10000) % 0x400]

/-- The UTF-16 code units of a text: the elements `length` and `substring` count. -/
def utf16 (s : List Char) : List Nat := s.flatMap utf16Char

/-- The marker appended to truncated code. -/
def truncationMarker : List Nat := utf16 "\n... (code truncated)".toList

/-- The constant `truncatedCode` of the explain handler, on the code units of `code`:
`code.length > 3000 ? code.substring(0, 3000) + '\n... (code truncated)' : code`. -/
def truncatedCode (code : List Nat) : List Nat :=
  if code.length > 3000 then code.take 3000 ++ truncationMarker else code

/-- The value of `parsedExplanation` in the explain handler. -/
inductive Explanation where
  /-- The value `JSON.parse` gave. -/
  | parsed (value : Json)
  /-- The object `{ summary, highlights, isRawText }` of the `catch` clause; the summary
  is given by its code units, since `substring` may cut a surrogate pair. -/
  | rawText (summary : List Nat) (highlights : List (List Char)) (isRawText : Bool)

/-- The `try`/`catch` of the explain handler that reads the provider text. -/
def parseExplanation (explanation : List Char) : Explanation :=
  match jsonParse (cleanJsonResponse explanation) with
  | .ok value => .parsed value
  | .error _ => .rawText ((utf16 explanation).take 200) [explanation] true

/-! ## Counting backticks -/

/-- The number of backticks at the start of a text. -/
def leadingBackticks : List Char → Nat
  | [] => 0
  | c :: cs => if c = backtick then leadingBackticks cs + 1 else 0

/-! ## Token deduction (`src/routes/payment.js`) -/

/-- The columns of a row of `user_subscriptions` that the deduction reads and writes;
`tokens_used` may be `NULL`. -/
structure Subscription where
  id : Nat
  tokens_remaining : Int
  tokens_used : Option Int
deriving DecidableEq, Repr

/-- The responses of the route `POST /deduct-tokens`. -/
inductive DeductResponse where
  /-- Status 400, "userId and tokens are required". -/
  | badRequest
  /-- "No active subscription found". -/
  | noSubscription
  /-- "Insufficient tokens", with the balance. -/
  | insufficient (tokensRemaining : Int)
  /-- Success, with the amount deducted and the new balance. -/
  | deducted (tokensDeducted : Int) (tokensRemaining : Int)
deriving DecidableEq, Repr

/-- Models the handler of `POST /deduct-tokens` for a whole-number amount: `userIdGiven`
tells whether `userId` is truthy, `active` is the row the `SELECT` finds.  The result is
the response and the row as stored afterwards. -/
def deductTokensRoute (userIdGiven : Bool) (tokens : Int) (active : Option Subscription) :
    DeductResponse × Option Subscription :=
  if !userIdGiven || tokens == 0 then (.badRequest, active)
  else
    match active with
    | none => (.noSubscription, none)
    | some subscription =>
      if subscription.tokens_remaining < tokens then
        (.insufficient subscription.tokens_remaining, some subscription)
      else
        let newBalance := subscription.tokens_remaining - tokens
        (.deducted tokens newBalance, some { subscription with tokens_remaining := newBalance })

/-- The object the helper `deductTokens` returns. -/
structure DeductResult where
  success : Bool
  tokensRemaining : Int
  tokensUsed : Option Int
deriving DecidableEq, Repr

/-- Models the helper `deductTokens(userId, tokens, reason)` for a whole-number amount,
when the database calls succeed: the result and the row as stored afterwards. -/
def deductTokens (tokens : Int) (active : Option Subscription) :
    DeductResult × Option Subscription :=
  match active with
  | none => (⟨false, 0, none⟩, none)
  | some subscription =>
    if subscription.tokens_remaining < tokens then
      (⟨false, subscription.tokens_remaining, none⟩, some subscription)
    else
      let newBalance := subscription.tokens_remaining - tokens
      let newUsed := subscription.tokens_used.getD 0 + tokens
      (⟨true, newBalance, some newUsed⟩,
        some { subscription with tokens_remaining := newBalance, tokens_used := some newUsed })

/-- A subscription with a balance of 100 tokens. -/
def subscriptionHundred : Subscription := { id := 1, tokens_remaining := 100, tokens_used := some 20 }

/-! ## Image extraction of the analyze-url handler -/

/-- What the navigation to an image gives. -/
inductive FetchOutcome where
  /-- A response with a success status, and the bytes of its buffer. -/
  | ok (bytes : List Nat)
  /-- No response, or a response without a success status. -/
  | notOk
  /-- The navigation, or the reading of the buffer, raised an exception. -/
  | threw
deriving DecidableEq, Repr

/-- An entry of `imageUrls` before the `slice`: a qualifying image of the page.
`pathname` is `new URL(src).pathname`, `none` when the constructor throws; `fetch` is what
a navigation to `src` gives. -/
structure PageImage where
  src : List Char
  pathname : Option (List Char)
  fetch : FetchOutcome
deriving DecidableEq, Repr

/-- The content stored for an image: the media type and the bytes that the data URL
carries in base64. -/
structure ImageData where
  mimeType : List Char
  bytes : List Nat
deriving DecidableEq, Repr, Inhabited

/-- The extensions kept as they are. -/
def knownExtensions : List (List Char) :=
  ["jpg".toList, "jpeg".toList, "png".toList, "gif".toList, "webp".toList, "svg".toList]

/-- The expression `urlPath.split('.').pop()`: the text after the last dot, the whole
path when it has no dot. -/
def lastSegment (urlPath : List Char) : List Char :=
  (urlPath.reverse.takeWhile fun c => c != '.').reverse

/-- The variable `ext` of the loop body. -/
def imageExt (urlPath : List Char) : List Char :=
  let ext := toLowerCase (lastSegment urlPath)
  if knownExtensions.contains ext then ext else "jpg".toList

/-- The constant `filename` for the loop index `i`, which is the number `i + 1` in the
name. -/
def imageFilename (i : Nat) (ext : List Char) : List Char :=
  "images/image-".toList ++ (Nat.toDigits 10 (i + 1) ++ '.' :: ext)

/-- The constant `mimeType` of the loop body. -/
def imageMimeType (ext : List Char) : List Char :=
  if ext = "svg".toList then "image/svg+xml".toList
  else "image/".toList ++ (if ext = "jpg".toList then "jpeg".toList else ext)

/-- The assignment `extractedImages[filename] = value`. -/
def setImage (k : List Char) (v : ImageData) :
    List (List Char × ImageData) → List (List Char × ImageData)
  | [] => [(k, v)]
  | (k1, v1) :: rest =>
    if k1 = k then (k1, v) :: rest else (k1, v1) :: setImage k v rest

/-- The object `extractedImages` and the navigations made to images, in order. -/
structure Extraction where
  stored : List (List Char × ImageData)
  fetched : List (List Char)
deriving DecidableEq, Repr

/-- One pass through the body of the extraction loop, for the image at index `i`. -/
def extractStep (i : Nat) (img : PageImage) (state : Extraction) : Extraction :=
  match img.pathname with
  | none => state
  | some urlPath =>
    let ext := imageExt urlPath
    match img.fetch with
    | .ok bytes =>
      { stored := setImage (imageFilename i ext) ⟨imageMimeType ext, bytes⟩ state.stored
        fetched := state.fetched ++ [img.src] }
    | .notOk => { state with fetched := state.fetched ++ [img.src] }
    | .threw => { state with fetched := state.fetched ++ [img.src] }

/-- The extraction loop from index `i` on. -/
def extractLoop : List PageImage → Nat → Extraction → Extraction
  | [], _, state => state
  | img :: rest, i, state => extractLoop rest (i + 1) (extractStep i img state)

/-- The image extraction for the qualifying images of a page: `slice(0, 10)` and the
loop. -/
def extractImages (qualifying : List PageImage) : Extraction :=
  extractLoop (qualifying.take 10) 0 ⟨[], []⟩

/-- The entry the image at index `i` contributes, if its fetch succeeds. -/
def imageEntry (i : Nat) (img : PageImage) : Option (List Char × ImageData) :=
  match img.pathname, img.fetch with
  | some urlPath, .ok bytes =>
    some (imageFilename i (imageExt urlPath), ⟨imageMimeType (imageExt urlPath), bytes⟩)
  | _, _ => none

/-- The number written in a file name after `images/image-`. -/
def filenameIndex (filename : List Char) : Nat :=
  (readDigits 0 0 (filename.drop 13)).1

/-- A picture that is fetched. -/
def imageOk (n : Nat) : PageImage :=
  { src := "https://site.example/p".toList ++ Nat.toDigits 10 n ++ ".PNG".toList
    pathname := some ("/p".toList ++ Nat.toDigits 10 n ++ ".PNG".toList)
    fetch := .ok [n] }

/-! ## The analyze-url handler -/

/-- The part of the value of the first `page.evaluate` the handler reads afterwards. -/
structure PageAnalysis where
  title : List Char
  colors : DetectedColors

/-- What the headless browser does during one request.  A step with an `Option` is the
message of the error it throws (`none`: it completes); the two scripts evaluated in the
page give their value or the message of the error thrown. -/
structure PageScript where
  /-- The call `puppeteer.launch`. -/
  launch : Option String
  /-- The calls `browser.newPage`, `page.setViewport`, `page.setDefaultNavigationTimeout`,
  `page.setUserAgent` and `page.setExtraHTTPHeaders`, made before the inner `try`. -/
  setup : Option String
  /-- The navigation `page.goto(url, { waitUntil: 'networkidle2' })`. -/
  primaryNavigation : Option String
  /-- The navigation `page.goto(url, { waitUntil: 'domcontentloaded' })`. -/
  fallbackNavigation : Option String
  /-- The delay `page.waitForTimeout(2000)` after the fallback navigation (an error of
  `page.waitForSelector` before it is swallowed by its `.catch`). -/
  settle : Option String
  /-- The first `page.evaluate`. -/
  analysis : Except String PageAnalysis
  /-- The images that pass the filter of the second `page.evaluate`, before its
  `.slice(0, 10)`. -/
  images : Except String (List PageImage)

/-- What the handler does to the browser and to the providers, in order. -/
inductive Event where
  /-- The browser of `puppeteer.launch` exists. -/
  | launched
  | primaryNavigation
  | fallbackNavigation
  /-- A call of `page.evaluate`. -/
  | evaluate
  /-- The navigation `page.goto(img.src, ...)` of the image loop. -/
  | fetchImage (src : List Char)
  /-- The navigation back to the page after the image loop. -/
  | returnNavigation
  /-- A call of `browser.close()`. -/
  | close
  /-- A provider attempt of `callAI`. -/
  | attempt (a : Attempt)
deriving DecidableEq, Repr

/-- The response of the analyze-url handler. -/
inductive AnalyzeResponse where
  /-- Models `res.status(status).json({ success: false, error })`. -/
  | failure (status : Nat) (error : String)
  /-- Models the success response: `files` is the spread of `result.files` followed by
  the spread of `extractedImages`, given here as its two parts. -/
  | analyzed (files : Json) (extractedImages : List (List Char × ImageData))
      (originalTitle : List Char) (imageCount : Nat)

/-- What a request to the analyze-url handler did. -/
structure AnalyzeRun where
  response : AnalyzeResponse
  trace : List Event

/-- The statements of the inner `try` up to the first `page.evaluate`: the navigation to
the page.  Gives the message of the error thrown, if any, and the navigations made. -/
def loadPage (script : PageScript) : Option String × List Event :=
  match script.primaryNavigation with
  | none => (none, [.primaryNavigation])
  | some _ =>
    match script.fallbackNavigation with
    | some e => (some e, [.primaryNavigation, .fallbackNavigation])
    | none => (script.settle, [.primaryNavigation, .fallbackNavigation])

/-- The statements of the inner `try` from `callAI` on, after `browser.close()`. -/
def generateSimilar (env : Env) (net : Network) (provider : String) (analysis : PageAnalysis)
    (extractedImages : List (List Char × ImageData)) :
    Except String AnalyzeResponse × List Event :=
  let run := callAI env net provider
  match run.result with
  | .error message => (.error message, run.attempts.map .attempt)
  | .ok generatedResponse =>
    match parseMultiFileResponse generatedResponse.toList with
    | .error e => (.error e.kind, run.attempts.map .attempt)
    | .ok result =>
      (.ok (.analyzed result.files extractedImages analysis.title extractedImages.length),
        run.attempts.map .attempt)

/-- The body of the inner `try`: the response sent, or the message of the error that
reaches `catch (puppeteerError)`, and what was done. -/
def scrapeAndGenerate (env : Env) (net : Network) (script : PageScript) (provider : String) :
    Except String AnalyzeResponse × List Event :=
  match loadPage script with
  | (some e, navigations) => (.error e, navigations)
  | (none, navigations) =>
    match script.analysis with
    | .error e => (.error e, navigations ++ [.evaluate])
    | .ok analysis =>
      match script.images with
      | .error e => (.error e, navigations ++ [.evaluate, .evaluate])
      | .ok qualifying =>
        let extraction := extractImages qualifying
        let scraped := navigations ++ [.evaluate, .evaluate] ++
          extraction.fetched.map .fetchImage ++
          (if (qualifying.take 10).length > 0 then [.returnNavigation] else []) ++ [.close]
        let generated := generateSimilar env net provider analysis extraction.stored
        (generated.1, scraped ++ generated.2)

/-- Models the handler of `POST /analyze-url` on the fields `url` and `provider` of the
request body (`none` is a missing field).  The prompt travels to the upstream service and
is part of `net`; the token deduction after the response catches its own exceptions and is
left out. -/
def analyzeUrl (env : Env) (net : Network) (script : PageScript) (url : Option String)
    (provider : Option String) : AnalyzeRun :=
  let provider := provider.getD "gemini"
  if !isApiKeyConfigured env provider then
    ⟨.failure 400 (toUpperCase provider ++ " API key not configured"), []⟩
  else if orElse url "" = "" then
    ⟨.failure 400 "URL is required", []⟩
  else
    match script.launch with
    | some e => ⟨.failure 500 ("Failed to analyze URL: " ++ e), []⟩
    | none =>
      match script.setup with
      | some e => ⟨.failure 500 ("Failed to analyze URL: " ++ e), [.launched]⟩
      | none =>
        match scrapeAndGenerate env net script provider with
        | (.ok response, trace) => ⟨response, .launched :: trace⟩
        | (.error e, trace) =>
          ⟨.failure 500 ("Failed to analyze URL: " ++ e), .launched :: (trace ++ [.close])⟩

/-- The number of calls of `browser.close()` in a trace. -/
def closeCount (trace : List Event) : Nat := trace.count .close

/-- Whether the page was loaded and both evaluations returned. -/
def scraped (script : PageScript) : Bool :=
  (loadPage script).1.isNone && script.analysis.toBool && script.images.toBool

/-- Whether `callAI` returned a text and the parser returned a result. -/
def generated (env : Env) (net : Network) (provider : String) : Bool :=
  match (callAI env net provider).result with
  | .error _ => false
  | .ok generatedResponse => (parseMultiFileResponse generatedResponse.toList).toBool

/-- A page that loads and is scraped without error: a title, colours and two pictures. -/
def scriptFine : PageScript :=
  { launch := none, setup := none, primaryNavigation := none, fallbackNavigation := none,
    settle := none, analysis := .ok ⟨"Shop".toList, colorsFourAccents⟩,
    images := .ok [imageOk 0, imageOk 1] }

/-- Both navigations to the page fail. -/
def scriptUnreachable : PageScript :=
  { scriptFine with
    primaryNavigation := some "Navigation timeout of 60000 ms exceeded",
    fallbackNavigation := some "net::ERR_NAME_NOT_RESOLVED" }

/-- Only the network-idle navigation fails. -/
def scriptSlow : PageScript :=
  { scriptFine with primaryNavigation := some "Navigation timeout of 60000 ms exceeded" }

/-- Opening the page fails after the browser was launched. -/
def scriptNoPage : PageScript :=
  { scriptFine with setup := some "Protocol error (Target.createTarget): Target closed" }

/-! ## Properties of `callAI` -/

theorem isApiKeyConfigured_eq (env : Env) (provider : String) :
    isApiKeyConfigured env provider = isConfigured env (adapterOf provider) := by
  unfold isApiKeyConfigured adapterOf
  by_cases h1 : provider = "groq"
  · simp [h1, isConfigured]
  · by_cases h2 : provider = "openai"
    · simp [h2, isConfigured]
    · by_cases h3 : provider = "openrouter"
      · simp [h3, isConfigured]
      · by_cases h4 : provider = "perplexity"
        · simp [h4, isConfigured]
        · simp [h1, h2, h3, h4, isConfigured]

theorem callProvider_fetched (env : Env) (net : Network) (n : Nat) (provider : String)
    (h : isApiKeyConfigured env provider = true) :
    (callProvider env net n provider).2 = true := by
  rw [isApiKeyConfigured_eq] at h
  unfold callProvider
  cases ha : adapterOf provider <;> rw [ha] at h <;>
    simp only [isConfigured] at h <;>
    simp only [callGroq, callOpenAI, callPerplexity, callOpenRouter, callGemini, adapterCall, h] <;>
    cases net n _ <;> rfl

theorem callAILoop_ok (env : Env) (net : Network) (p : String) (rest : List String)
    (n : Nat) (last : Option String) (text : String)
    (hcfg : isApiKeyConfigured env p = true)
    (hok : (callProvider env net n p).1 = .ok text) :
    (callAILoop env net (p :: rest) n last).result = .ok text ∧
    (callAILoop env net (p :: rest) n last).attempts = [sentAttempt p] := by
  have hf := callProvider_fetched env net n p hcfg
  rcases hcp : callProvider env net n p with ⟨r, f⟩
  rw [hcp] at hok hf
  simp only at hok hf
  subst hok hf
  simp only [callAILoop, hcp]
  simp [sentAttempt]

theorem callAILoop_error (env : Env) (net : Network) (p : String) (rest : List String)
    (n : Nat) (last : Option String) (m : String)
    (hcfg : isApiKeyConfigured env p = true)
    (herr : (callProvider env net n p).1 = .error m) :
    (callAILoop env net (p :: rest) n last).result =
      (callAILoop env net rest (n + 1) (some m)).result ∧
    (callAILoop env net (p :: rest) n last).attempts =
      sentAttempt p :: (callAILoop env net rest (n + 1) (some m)).attempts := by
  have hf := callProvider_fetched env net n p hcfg
  rcases hcp : callProvider env net n p with ⟨r, f⟩
  rw [hcp] at herr hf
  simp only at herr hf
  subst herr hf
  simp only [callAILoop, hcp]
  simp [sentAttempt]

theorem callAILoop_skip (env : Env) (net : Network) :
    ∀ (pre rest : List String) (n : Nat) (last : Option String),
      (∀ q ∈ pre, isApiKeyConfigured env q = true) →
      (∀ i (hi : i < pre.length),
        ∃ m, (callProvider env net (n + i) (pre.get ⟨i, hi⟩)).1 = .error m) →
      ∃ last1,
        (callAILoop env net (pre ++ rest) n last).result =
          (callAILoop env net rest (n + pre.length) last1).result ∧
        (callAILoop env net (pre ++ rest) n last).attempts =
          pre.map sentAttempt ++ (callAILoop env net rest (n + pre.length) last1).attempts := by
  intro pre
  induction pre with
  | nil => intro rest n last _ _; exact ⟨last, by simp, by simp⟩
  | cons q pre ih =>
    intro rest n last hcfg hfail
    obtain ⟨m, hm⟩ := hfail 0 (by simp)
    simp only [Nat.add_zero, List.get_eq_getElem, List.getElem_cons_zero] at hm
    have hq := callAILoop_error env net q (pre ++ rest) n last m (hcfg q (by simp)) hm
    obtain ⟨last1, h1, h2⟩ := ih rest (n + 1) (some m)
      (fun x hx => hcfg x (by simp [hx]))
      (fun i hi => by
        have := hfail (i + 1) (by simpa using hi)
        simpa [Nat.add_assoc, Nat.add_comm 1 i] using this)
    refine ⟨last1, ?_, ?_⟩
    · rw [List.cons_append, hq.1, h1]
      simp [Nat.add_assoc, Nat.add_comm 1]
    · rw [List.cons_append, hq.2, h2]
      simp [Nat.add_assoc, Nat.add_comm 1]

theorem availableProviders_configured (env : Env) (provider q : String)
    (h : q ∈ availableProviders env provider) : isApiKeyConfigured env q = true := by
  unfold availableProviders at h
  exact (List.mem_filter.mp h).2

/-- C6 (short-circuit): when the try-order is `pre ++ p :: post`, every provider of `pre`
fails and `p` answers with `text`, `callAI` returns `text`, the providers attempted are
exactly `pre` followed by `p`, each of them is configured and sent one request; no
provider of `post` and no provider outside the try-order is attempted. -/
theorem callAI_returns_first_success (env : Env) (net : Network) (provider : String)
    (pre : List String) (p : String) (post : List String) (text : String)
    (horder : availableProviders env provider = pre ++ p :: post)
    (hfail : ∀ i (hi : i < pre.length),
      ∃ m, (callProvider env net i (pre.get ⟨i, hi⟩)).1 = .error m)
    (hok : (callProvider env net pre.length p).1 = .ok text) :
    (callAI env net provider).result = .ok text ∧
    (callAI env net provider).attempts.map (fun a => a.provider) = pre ++ [p] ∧
    (∀ a ∈ (callAI env net provider).attempts,
      isApiKeyConfigured env a.provider = true ∧ a.fetched = true ∧
      a.adapter = adapterOf a.provider) := by
  have hcfg : ∀ q ∈ pre ++ p :: post, isApiKeyConfigured env q = true := fun q hq =>
    availableProviders_configured env provider q (horder ▸ hq)
  obtain ⟨last1, h1, h2⟩ := callAILoop_skip env net pre (p :: post) 0 none
    (fun q hq => hcfg q (by simp [hq]))
    (fun i hi => by simpa using hfail i hi)
  have hp := callAILoop_ok env net p post (0 + pre.length) last1 text (hcfg p (by simp))
    (by simpa using hok)
  have hrun : callAI env net provider = callAILoop env net (pre ++ p :: post) 0 none := by
    unfold callAI
    simp [horder]
  rw [hrun, h1, h2, hp.1, hp.2]
  refine ⟨rfl, ?_, ?_⟩
  · simp [sentAttempt, Function.comp_def]
  · intro a ha
    simp only [List.mem_append, List.mem_map, List.mem_singleton] at ha
    rcases ha with ⟨q, hq, rfl⟩ | rfl
    · exact ⟨hcfg q (by simp [hq]), rfl, rfl⟩
    · exact ⟨hcfg p (by simp), rfl, rfl⟩

/-- C6, the scenario of the specification: Groq is preferred, configured and fails with
a quota message, OpenAI is configured and succeeds, the other services have no key.
Groq then OpenAI are attempted and the text of OpenAI is returned. -/
theorem callAI_returns_first_success_witness :
    (callAI envGroqOpenAI netQuotaThenText "groq").result = .ok "<h1>B</h1>" ∧
    (callAI envGroqOpenAI netQuotaThenText "groq").attempts.map (fun a => a.provider)
      = ["groq", "openai"] :=
  have h := callAI_returns_first_success envGroqOpenAI netQuotaThenText "groq"
    ["groq"] "openai" [] "<h1>B</h1>" (by decide)
    (fun i hi => by
      have hi0 : i = 0 := by simpa using hi
      subst hi0
      exact ⟨"Quota exceeded for this key", rfl⟩)
    rfl
  ⟨h.1, h.2.1⟩

/-- C7: for each of the five known provider identifiers and every configuration of keys,
the try-order is the preferred provider followed by the other members of
`[groq, openai, perplexity, gemini]` in that order, with the unconfigured ones removed;
it has no duplicates, and holds `openrouter` only when `openrouter` is preferred. -/
theorem availableProviders_order (env : Env) (provider : String)
    (h : provider ∈ ["groq", "openai", "perplexity", "gemini", "openrouter"]) :
    availableProviders env provider =
      (provider :: ["groq", "openai", "perplexity", "gemini"].erase provider).filter
        (fun p => isConfigured env (adapterOf p)) ∧
    (availableProviders env provider).Nodup ∧
    ("openrouter" ∈ availableProviders env provider → provider = "openrouter") := by
  have hcfg : (fun p => isApiKeyConfigured env p) = (fun p => isConfigured env (adapterOf p)) :=
    funext fun p => isApiKeyConfigured_eq env p
  have horder : providerOrder provider =
      provider :: ["groq", "openai", "perplexity", "gemini"].erase provider := by
    simp only [List.mem_cons, List.mem_singleton, List.not_mem_nil, or_false] at h
    rcases h with rfl | rfl | rfl | rfl | rfl <;> decide
  have hnodup : (providerOrder provider).Nodup := by
    simp only [List.mem_cons, List.mem_singleton, List.not_mem_nil, or_false] at h
    rcases h with rfl | rfl | rfl | rfl | rfl <;> decide
  refine ⟨?_, ?_, ?_⟩
  · unfold availableProviders
    rw [hcfg, horder]
  · unfold availableProviders
    exact hnodup.filter _
  · intro hmem
    unfold availableProviders at hmem
    have hmem1 := (List.mem_filter.mp hmem).1
    simp only [List.mem_cons, List.mem_singleton, List.not_mem_nil, or_false] at h
    rcases h with rfl | rfl | rfl | rfl | rfl <;> first | rfl | (exact absurd hmem1 (by decide))

/-- C7 at a concrete input: OpenAI preferred, keys for Groq and Gemini only. -/
theorem availableProviders_order_witness :
    availableProviders envGroqGemini "openai" =
      ("openai" :: ["groq", "openai", "perplexity", "gemini"].erase "openai").filter
        (fun p => isConfigured envGroqGemini (adapterOf p)) ∧
    (availableProviders envGroqGemini "openai").Nodup ∧
    ("openrouter" ∈ availableProviders envGroqGemini "openai" → "openai" = "openrouter") :=
  availableProviders_order envGroqGemini "openai" (by decide)

/-- C8: when no provider of the try-order is configured, `callAI` throws the
"No AI providers configured" error and makes no attempt: no adapter is invoked and no
request is sent. -/
theorem callAI_no_provider_configured (env : Env) (net : Network) (provider : String)
    (h : ∀ q ∈ providerOrder provider, isApiKeyConfigured env q = false) :
    (callAI env net provider).result =
      .error "No AI providers configured. Please add at least one API key to your .env file." ∧
    (callAI env net provider).attempts = [] := by
  have hnil : availableProviders env provider = [] := by
    unfold availableProviders
    rw [List.filter_eq_nil_iff]
    intro q hq
    simp [h q hq]
  unfold callAI
  simp [hnil]

/-- C8 at a concrete input: no usable key (one placeholder, one empty key). -/
theorem callAI_no_provider_configured_witness :
    (callAI envNoKeys netDown "groq").result =
      .error "No AI providers configured. Please add at least one API key to your .env file." ∧
    (callAI envNoKeys netDown "groq").attempts = [] :=
  callAI_no_provider_configured envNoKeys netDown "groq" (by decide)

/-- C9: when every provider of the try-order `init ++ [q]` fails, `callAI` attempts each
of them once, in order, and throws "All AI providers failed. Last error: " followed by
the message `m` of the failure of the last one, `q` (a non-empty message, as every
message the adapters build is). -/
theorem callAI_all_fail (env : Env) (net : Network) (provider : String)
    (init : List String) (q : String) (m : String)
    (horder : availableProviders env provider = init ++ [q])
    (hfail : ∀ i (hi : i < init.length),
      ∃ m1, (callProvider env net i (init.get ⟨i, hi⟩)).1 = .error m1)
    (hlast : (callProvider env net init.length q).1 = .error m)
    (hm : m ≠ "") :
    (callAI env net provider).result =
      .error ("All AI providers failed. Last error: " ++ m) ∧
    (callAI env net provider).attempts.map (fun a => a.provider) = init ++ [q] ∧
    (∀ a ∈ (callAI env net provider).attempts, a.fetched = true) := by
  have hcfg : ∀ x ∈ init ++ [q], isApiKeyConfigured env x = true := fun x hx =>
    availableProviders_configured env provider x (horder ▸ hx)
  obtain ⟨last1, h1, h2⟩ := callAILoop_skip env net init [q] 0 none
    (fun x hx => hcfg x (by simp [hx]))
    (fun i hi => by simpa using hfail i hi)
  have hq := callAILoop_error env net q [] (0 + init.length) last1 m (hcfg q (by simp))
    (by simpa using hlast)
  have hrun : callAI env net provider = callAILoop env net (init ++ [q]) 0 none := by
    unfold callAI
    simp [horder]
  rw [hrun, h1, h2, hq.1, hq.2]
  refine ⟨?_, ?_, ?_⟩
  · simp [callAILoop, orElse, hm]
  · simp [callAILoop, sentAttempt, Function.comp_def]
  · intro a ha
    simp only [callAILoop, List.mem_append, List.mem_map, List.mem_singleton] at ha
    rcases ha with ⟨x, _, rfl⟩ | rfl <;> rfl

/-- C9 at a concrete input: Groq preferred and rate limited, Gemini unreachable; the
error carries the message of Gemini, the last provider attempted. -/
theorem callAI_all_fail_witness :
    (callAI envGroqGemini netQuotaThenDown "groq").result =
      .error ("All AI providers failed. Last error: " ++ "fetch failed") ∧
    (callAI envGroqGemini netQuotaThenDown "groq").attempts.map (fun a => a.provider)
      = ["groq"] ++ ["gemini"] ∧
    (∀ a ∈ (callAI envGroqGemini netQuotaThenDown "groq").attempts, a.fetched = true) :=
  callAI_all_fail envGroqGemini netQuotaThenDown "groq" ["groq"] "gemini" "fetch failed"
    (by decide)
    (fun i hi => by
      have hi0 : i = 0 := by simpa using hi
      subst hi0
      exact ⟨"Rate limit reached", rfl⟩)
    rfl (by decide)

/-- C10: with the identifier `claude`, which `isApiKeyConfigured` and `callProvider` both
answer for Gemini, and only Gemini configured and failing, `callAI` sends two requests to
Gemini in one invocation. -/
theorem callAI_unknown_identifier_retries_gemini :
    (callAI envGeminiOnly netDown "claude").attempts =
      [⟨"claude", .gemini, true⟩, ⟨"gemini", .gemini, true⟩] ∧
    (callAI envGeminiOnly netDown "claude").result =
      .error "All AI providers failed. Last error: Service unavailable" :=
  ⟨by decide, rfl⟩

/-! ## Characters, fences and trimming -/

theorem toNat_ofNat_small (n : Nat) (h : n < 0xD800) : (Char.ofNat n).toNat = n := by
  have hv : n.isValidChar := Or.inl h
  unfold Char.ofNat
  rw [dif_pos hv]
  simp [Char.ofNatAux, Char.toNat, UInt32.toNat]

theorem char_eq_of_toNat_eq {c d : Char} (h : c.toNat = d.toNat) : c = d := by
  rw [← Char.ofNat_toNat c, ← Char.ofNat_toNat d, h]

theorem char_valid (c : Char) : c.toNat < 0xD800 ∨ (0xDFFF < c.toNat ∧ c.toNat < 0x110000) := by
  have := c.valid
  simp [UInt32.isValidChar, Nat.isValidChar, Char.toNat] at *
  exact this

theorem asciiLower_eq_backtick (c : Char) : asciiLower c = backtick ↔ c = backtick := by
  unfold asciiLower
  split
  · rename_i h
    constructor
    · intro h1
      have h2 := congrArg Char.toNat h1
      rw [toNat_ofNat_small _ (by omega)] at h2
      have h3 : backtick.toNat = 96 := by decide
      omega
    · intro h1
      subst h1
      exact absurd h (by decide)
  · exact Iff.rfl

theorem eqIgnoreCase_backtick (c : Char) : eqIgnoreCase c backtick = true ↔ c = backtick := by
  unfold eqIgnoreCase
  have h : asciiLower backtick = backtick := by decide
  rw [h, beq_iff_eq, asciiLower_eq_backtick]

theorem matchLiteral_head (ci : Bool) (p : Char) (ps : List Char) (s : List Char) (n : Nat)
    (h : matchLiteral ci (p :: ps) s = some n) :
    ∃ c cs m, s = c :: cs ∧ (if ci then eqIgnoreCase c p else c == p) = true ∧
      matchLiteral ci ps cs = some m ∧ n = m + 1 := by
  cases s with
  | nil => simp [matchLiteral] at h
  | cons c cs =>
    simp only [matchLiteral] at h
    by_cases hc : (if ci then eqIgnoreCase c p else c == p) = true
    · rw [if_pos hc] at h
      cases hm : matchLiteral ci ps cs with
      | none => simp [hm] at h
      | some m =>
        simp [hm] at h
        exact ⟨c, cs, m, rfl, hc, hm, h.symm⟩
    · rw [if_neg hc] at h
      cases h

theorem matchLiteral_backtick (ci : Bool) (ps : List Char) (s : List Char) (n : Nat)
    (h : matchLiteral ci (backtick :: ps) s = some n) :
    ∃ cs m, s = backtick :: cs ∧ matchLiteral ci ps cs = some m := by
  obtain ⟨c, cs, m, rfl, hc, hm, _⟩ := matchLiteral_head ci backtick ps s n h
  refine ⟨cs, m, ?_, hm⟩
  cases ci
  · simp at hc; rw [hc]
  · simp [eqIgnoreCase_backtick] at hc; rw [hc]

theorem matchFence_some_starts (tag s : List Char) (n : Nat) (h : matchFence tag s = some n) :
    ∃ r, s = backtick :: backtick :: backtick :: r := by
  unfold matchFence at h
  cases hm : matchLiteral true (backtick :: backtick :: backtick :: tag) s with
  | none => simp [hm] at h
  | some k =>
    obtain ⟨s1, m1, rfl, h1⟩ := matchLiteral_backtick _ _ _ _ hm
    obtain ⟨s2, m2, rfl, h2⟩ := matchLiteral_backtick _ _ _ _ h1
    obtain ⟨s3, m3, rfl, _⟩ := matchLiteral_backtick _ _ _ _ h2
    exact ⟨s3, rfl⟩

theorem stripFenceAux_cons_none (tag : List Char) (c : Char) (cs : List Char)
    (h : matchFence tag (c :: cs) = none) :
    stripFenceAux tag 0 (c :: cs) = c :: stripFenceAux tag 0 cs := by
  simp [stripFenceAux, h]

theorem stripFenceAux_append (tag : List Char) :
    ∀ (s t : List Char), hasFence s = false → (∀ c r, t = c :: r → c ≠ backtick) →
      stripFenceAux tag 0 (s ++ t) = s ++ stripFenceAux tag 0 t := by
  intro s
  induction s with
  | nil => intro t _ _; rfl
  | cons a s ih =>
    intro t hs ht
    have hnone : matchFence tag (a :: (s ++ t)) = none := by
      cases hm : matchFence tag (a :: (s ++ t)) with
      | none => rfl
      | some n =>
        exfalso
        obtain ⟨r, hr⟩ := matchFence_some_starts _ _ _ hm
        match s, hs, hr with
        | [], _, hr =>
          cases t with
          | nil => simp at hr
          | cons c r1 =>
            simp at hr
            exact ht c r1 rfl hr.2.1
        | [b], _, hr =>
          cases t with
          | nil => simp at hr
          | cons c r1 =>
            simp at hr
            exact ht c r1 rfl hr.2.2.1
        | b :: c :: r1, hs, hr =>
          simp at hr
          simp [hasFence, hr.1, hr.2.1, hr.2.2.1] at hs
    have hs1 : hasFence s = false := by
      match s, hs with
      | [], _ => rfl
      | [_], _ => rfl
      | b :: c :: r1, hs =>
        simp only [hasFence, Bool.or_eq_false_iff] at hs
        exact hs.2
    rw [List.cons_append, stripFenceAux_cons_none tag a (s ++ t) hnone, ih t hs1 ht]
    rfl

theorem stripFence_of_noFence (tag s : List Char) (h : hasFence s = false) :
    stripFence tag s = s := by
  have := stripFenceAux_append tag s [] h (by intro c r hc; cases hc)
  simpa [stripFence, stripFenceAux] using this

theorem dropWhile_append_of_ne_nil {p : Char → Bool} :
    ∀ (s t : List Char), s.dropWhile p ≠ [] → (s ++ t).dropWhile p = s.dropWhile p ++ t := by
  intro s
  induction s with
  | nil => intro t h; simp at h
  | cons a s ih =>
    intro t h
    by_cases ha : p a = true
    · simp only [List.cons_append, List.dropWhile_cons, ha, if_true] at h ⊢
      exact ih t h
    · simp [List.dropWhile_cons, ha]

theorem trimEnd_append_nonspace (s : List Char) (z : Char) (hz : isJsSpace z = false) :
    trimEnd (s ++ [z]) = s ++ [z] := by
  simp [trimEnd, List.dropWhile_cons, hz]

theorem trimEnd_append_space (s : List Char) (c : Char) (hc : isJsSpace c = true) :
    trimEnd (s ++ [c]) = trimEnd s := by
  simp [trimEnd, List.dropWhile_cons, hc]

theorem trim_of_ends (a z : Char) (mid : List Char)
    (ha : isJsSpace a = false) (hz : isJsSpace z = false) :
    trim (a :: (mid ++ [z])) = a :: (mid ++ [z]) := by
  unfold trim trimStart
  rw [List.dropWhile_cons, ha]
  simp only [Bool.false_eq_true, if_false]
  rw [← List.cons_append, trimEnd_append_nonspace _ _ hz]

theorem trim_append_space (s : List Char) (c : Char) (hc : isJsSpace c = true) :
    trim (s ++ [c]) = trim s := by
  unfold trim trimStart
  by_cases h : s.dropWhile isJsSpace = []
  · have h1 : (s ++ [c]).dropWhile isJsSpace = [] := by
      rw [List.dropWhile_eq_nil_iff] at h ⊢
      intro x hx
      simp only [List.mem_append, List.mem_singleton] at hx
      rcases hx with hx | rfl
      · exact h x hx
      · exact hc
    rw [h, h1]
  · rw [dropWhile_append_of_ne_nil s [c] h, trimEnd_append_space _ _ hc]

/-! ## The pattern extraction -/

theorem parseMultiFileResponse_eq_fallback (response : List Char)
    (h : ∀ r, structuredParse response ≠ .ok (some r)) :
    parseMultiFileResponse response = .ok (fallbackParse response) := by
  unfold parseMultiFileResponse
  rcases hs : structuredParse response with e | (_ | r)
  · rfl
  · rfl
  · exact absurd hs (h r)

theorem fallbackParse_cases (response : List Char) :
    fallbackParse response =
      ⟨.obj (match matchKey indexHtml response, matchKey styleCss response,
              matchKey scriptJs response with
        | none, none, none => [(indexHtml, .str (cleanCode response))]
        | h, c, j =>
          (h.toList.map fun x => (indexHtml, Json.str (unescapeContent x))) ++
          (c.toList.map fun x => (styleCss, Json.str (unescapeContent x))) ++
          (j.toList.map fun x => (scriptJs, Json.str (unescapeContent x)))),
        .str defaultSummary⟩ := by
  have h12 : indexHtml ≠ styleCss := by decide
  have h13 : indexHtml ≠ scriptJs := by decide
  have h23 : styleCss ≠ scriptJs := by decide
  unfold fallbackParse extractInto
  rcases matchKey indexHtml response with _ | c1 <;>
  rcases matchKey styleCss response with _ | c2 <;>
  rcases matchKey scriptJs response with _ | c3 <;>
  simp [setMember, h12, h13, h23]

/-- C5: whenever the `try` block yields no result, the returned file set is an object with
at least one key, all among `index.html`, `style.css`, `script.js`; each of the three
whose pattern matches the raw response is present with the unescaped capture as content;
`style.css` and `script.js` are absent when their pattern does not match; `index.html`
is present without a match exactly when no pattern matches, and then it is the only
entry; the summary is the default one. -/
theorem fallback_file_set (response : List Char)
    (h : ∀ r, structuredParse response ≠ .ok (some r)) :
    ∃ members, parseMultiFileResponse response = .ok ⟨.obj members, .str defaultSummary⟩ ∧
      members ≠ [] ∧
      (members.map Prod.fst).Nodup ∧
      (∀ k ∈ members.map Prod.fst, k ∈ [indexHtml, styleCss, scriptJs]) ∧
      (∀ name ∈ [indexHtml, styleCss, scriptJs], ∀ cap,
        matchKey name response = some cap →
          fileContent (.obj members) name = some (unescapeContent cap)) ∧
      (∀ name ∈ [styleCss, scriptJs],
        matchKey name response = none → name ∉ members.map Prod.fst) ∧
      (matchKey indexHtml response = none →
        (indexHtml ∈ members.map Prod.fst ↔
          matchKey styleCss response = none ∧ matchKey scriptJs response = none)) ∧
      (matchKey indexHtml response = none → matchKey styleCss response = none →
        matchKey scriptJs response = none →
          members = [(indexHtml, .str (cleanCode response))]) := by
  have h12 : indexHtml ≠ styleCss := by decide
  have h13 : indexHtml ≠ scriptJs := by decide
  have h23 : styleCss ≠ scriptJs := by decide
  have h21 : styleCss ≠ indexHtml := by decide
  have h31 : scriptJs ≠ indexHtml := by decide
  have h32 : scriptJs ≠ styleCss := by decide
  have b21 : (styleCss == indexHtml) = false := by decide
  have b31 : (scriptJs == indexHtml) = false := by decide
  have b32 : (scriptJs == styleCss) = false := by decide
  rw [parseMultiFileResponse_eq_fallback response h, fallbackParse_cases]
  refine ⟨_, rfl, ?_⟩
  rcases Option.eq_none_or_eq_some (matchKey indexHtml response) with h1 | ⟨c1, h1⟩ <;>
  rcases Option.eq_none_or_eq_some (matchKey styleCss response) with h2 | ⟨c2, h2⟩ <;>
  rcases Option.eq_none_or_eq_some (matchKey scriptJs response) with h3 | ⟨c3, h3⟩ <;>
  simp [h1, h2, h3, fileContent, List.lookup, h12, h13, h23, h21, h31, h32, b21, b31, b32]

/-! ## The single-file fallback -/

theorem stripFence_body (tag body tail1 : List Char) (h : hasFence body = false)
    (ht : stripFenceAux tag 0 fenceTail = tail1) :
    stripFenceAux tag 0 (body ++ fenceTail) = body ++ tail1 := by
  rw [← ht]
  exact stripFenceAux_append tag body _ h (by intro c r hc; cases hc; decide)

theorem stripFence_bare_body (body : List Char) (h : hasFence body = false) :
    stripFence [] (body ++ fenceTail) = body ++ ['\n'] :=
  stripFence_body _ _ _ h (by decide)

theorem cleanCode_of_stripped (response body : List Char) (h : hasFence body = false)
    (hs : stripFence "js".toList (stripFence "javascript".toList
      (stripFence "css".toList (stripFence "html".toList response))) = body ++ fenceTail) :
    cleanCode response = trim body := by
  unfold cleanCode
  rw [hs, stripFence_bare_body body h]
  exact trim_append_space body '\n' (by decide)

theorem cleanCode_fenced_html (body : List Char) (h : hasFence body = false) :
    cleanCode (fenced "html".toList body) = trim body := by
  apply cleanCode_of_stripped _ _ h
  have s1 : stripFence "html".toList (fenced "html".toList body) =
      stripFenceAux "html".toList 0 (body ++ fenceTail) := rfl
  rw [s1, stripFence_body _ _ fenceTail h (by decide)]
  have s2 : stripFence "css".toList (body ++ fenceTail) = body ++ fenceTail :=
    stripFence_body _ _ fenceTail h (by decide)
  have s3 : stripFence "javascript".toList (body ++ fenceTail) = body ++ fenceTail :=
    stripFence_body _ _ fenceTail h (by decide)
  have s4 : stripFence "js".toList (body ++ fenceTail) = body ++ fenceTail :=
    stripFence_body _ _ fenceTail h (by decide)
  rw [s2, s3, s4]

theorem cleanCode_fenced_css (body : List Char) (h : hasFence body = false) :
    cleanCode (fenced "css".toList body) = trim body := by
  apply cleanCode_of_stripped _ _ h
  have s1 : stripFence "html".toList (fenced "css".toList body) =
      backtick :: backtick :: backtick :: ("css".toList ++
        '\n' :: stripFenceAux "html".toList 0 (body ++ fenceTail)) := rfl
  have s1a : stripFence "html".toList (fenced "css".toList body) = fenced "css".toList body := by
    rw [s1, stripFence_body _ _ fenceTail h (by decide)]
    rfl
  have s2 : stripFence "css".toList (fenced "css".toList body) =
      stripFenceAux "css".toList 0 (body ++ fenceTail) := rfl
  rw [s1a, s2, stripFence_body _ _ fenceTail h (by decide)]
  have s3 : stripFence "javascript".toList (body ++ fenceTail) = body ++ fenceTail :=
    stripFence_body _ _ fenceTail h (by decide)
  have s4 : stripFence "js".toList (body ++ fenceTail) = body ++ fenceTail :=
    stripFence_body _ _ fenceTail h (by decide)
  rw [s3, s4]

theorem cleanCode_fenced_javascript (body : List Char) (h : hasFence body = false) :
    cleanCode (fenced "javascript".toList body) = trim body := by
  apply cleanCode_of_stripped _ _ h
  have s1 : stripFence "html".toList (fenced "javascript".toList body) =
      backtick :: backtick :: backtick :: ("javascript".toList ++
        '\n' :: stripFenceAux "html".toList 0 (body ++ fenceTail)) := rfl
  have s1a : stripFence "html".toList (fenced "javascript".toList body) =
      fenced "javascript".toList body := by
    rw [s1, stripFence_body _ _ fenceTail h (by decide)]
    rfl
  have s2 : stripFence "css".toList (fenced "javascript".toList body) =
      backtick :: backtick :: backtick :: ("javascript".toList ++
        '\n' :: stripFenceAux "css".toList 0 (body ++ fenceTail)) := rfl
  have s2a : stripFence "css".toList (fenced "javascript".toList body) =
      fenced "javascript".toList body := by
    rw [s2, stripFence_body _ _ fenceTail h (by decide)]
    rfl
  have s3 : stripFence "javascript".toList (fenced "javascript".toList body) =
      stripFenceAux "javascript".toList 0 (body ++ fenceTail) := rfl
  rw [s1a, s2a, s3, stripFence_body _ _ fenceTail h (by decide)]
  exact stripFence_body _ _ fenceTail h (by decide)

theorem cleanCode_fenced_js (body : List Char) (h : hasFence body = false) :
    cleanCode (fenced "js".toList body) = trim body := by
  apply cleanCode_of_stripped _ _ h
  have s1 : stripFence "html".toList (fenced "js".toList body) =
      backtick :: backtick :: backtick :: ("js".toList ++
        '\n' :: stripFenceAux "html".toList 0 (body ++ fenceTail)) := rfl
  have s1a : stripFence "html".toList (fenced "js".toList body) = fenced "js".toList body := by
    rw [s1, stripFence_body _ _ fenceTail h (by decide)]
    rfl
  have s2 : stripFence "css".toList (fenced "js".toList body) =
      backtick :: backtick :: backtick :: ("js".toList ++
        '\n' :: stripFenceAux "css".toList 0 (body ++ fenceTail)) := rfl
  have s2a : stripFence "css".toList (fenced "js".toList body) = fenced "js".toList body := by
    rw [s2, stripFence_body _ _ fenceTail h (by decide)]
    rfl
  have s3 : stripFence "javascript".toList (fenced "js".toList body) =
      backtick :: backtick :: backtick :: ("js".toList ++
        '\n' :: stripFenceAux "javascript".toList 0 (body ++ fenceTail)) := rfl
  have s3a : stripFence "javascript".toList (fenced "js".toList body) =
      fenced "js".toList body := by
    rw [s3, stripFence_body _ _ fenceTail h (by decide)]
    rfl
  have s4 : stripFence "js".toList (fenced "js".toList body) =
      stripFenceAux "js".toList 0 (body ++ fenceTail) := rfl
  rw [s1a, s2a, s3a, s4, stripFence_body _ _ fenceTail h (by decide)]

theorem structuredParse_of_syntaxError (response : List Char) (e : JsError)
    (h : jsonParse (cleanJsonResponse response) = .error e) (r : ParseResult) :
    structuredParse response ≠ .ok (some r) := by
  unfold structuredParse
  rw [h]
  simp

/-- C3, as the code has it: for a response that is not parseable as JSON after fence
stripping and matches none of the three patterns, the result is the single entry
`index.html` with the default summary; its content is the response with the fences
tagged `html`, `css`, `javascript` and `js` removed, then the bare fences removed, then
trimmed (`cleanCode`).  When the response is a text free of fences wrapped in a fence
tagged `html`, `css`, `javascript` or `js`, that content is the trimmed text. -/
theorem fallback_single_file (response : List Char) (e : JsError)
    (hjson : jsonParse (cleanJsonResponse response) = .error e)
    (h1 : matchKey indexHtml response = none)
    (h2 : matchKey styleCss response = none)
    (h3 : matchKey scriptJs response = none) :
    parseMultiFileResponse response =
      .ok ⟨.obj [(indexHtml, .str (cleanCode response))], .str defaultSummary⟩ ∧
    (∀ tag body, tag ∈ knownFenceTags → hasFence body = false →
      response = fenced tag body → cleanCode response = trim body) := by
  constructor
  · rw [parseMultiFileResponse_eq_fallback response
      (structuredParse_of_syntaxError response e hjson), fallbackParse_cases, h1, h2, h3]
  · intro tag body htag hbody hresp
    subst hresp
    simp only [knownFenceTags, List.mem_cons, List.mem_singleton, List.not_mem_nil,
      or_false] at htag
    rcases htag with rfl | rfl | rfl | rfl
    · exact cleanCode_fenced_html body hbody
    · exact cleanCode_fenced_css body hbody
    · exact cleanCode_fenced_javascript body hbody
    · exact cleanCode_fenced_js body hbody

/-- C3 at a concrete input: a paragraph in a fence tagged `html`. -/
theorem fallback_single_file_witness :
    parseMultiFileResponse (fenced "html".toList " <p>hi</p>".toList) =
      .ok ⟨.obj [(indexHtml, .str (cleanCode (fenced "html".toList " <p>hi</p>".toList)))],
        .str defaultSummary⟩ ∧
    cleanCode (fenced "html".toList " <p>hi</p>".toList) = trim " <p>hi</p>".toList :=
  have h := fallback_single_file (fenced "html".toList " <p>hi</p>".toList) .syntaxError
    rfl (by decide) (by decide) (by decide)
  ⟨h.1, h.2 "html".toList " <p>hi</p>".toList (by decide) (by decide) rfl⟩

/-- C3, refuted as stated: a text in a fence tagged `python` (or `json`) is not parseable
as JSON and matches no pattern, and the content returned is not the trimmed text: the
tag `python` stays in front of it (of `json` the letters `on` stay, the fence regular
expression for `js` having taken the rest). -/
theorem fallback_keeps_unknown_tag :
    jsonParse (cleanJsonResponse (fenced "python".toList "print(1)".toList))
      = .error .syntaxError ∧
    matchKey indexHtml (fenced "python".toList "print(1)".toList) = none ∧
    matchKey styleCss (fenced "python".toList "print(1)".toList) = none ∧
    matchKey scriptJs (fenced "python".toList "print(1)".toList) = none ∧
    returnedContent (fenced "python".toList "print(1)".toList) indexHtml
      = some "python\nprint(1)".toList ∧
    returnedContent (fenced "python".toList "print(1)".toList) indexHtml
      ≠ some (trim "print(1)".toList) ∧
    returnedContent (fenced "json".toList "hello".toList) indexHtml
      = some "on\nhello".toList :=
  ⟨rfl, by decide, by decide, by decide, by decide, by decide, by decide⟩

/-! ## The round trip through `JSON.stringify` and `JSON.parse` -/


theorem hex4_hexDigit : ∀ v, v < 32 →
    hex4 '0' '0' (hexDigit (v / 16)) (hexDigit (v % 16)) = some v := by
  decide

theorem parseStringUnits_quoteChar (c : Char) (rest : List Char) :
    parseStringUnits (quoteChar c ++ rest) =
      (parseStringUnits rest).map fun r => (c.toNat :: r.1, r.2) := by
  by_cases h1 : c = '"'
  · subst h1
    have : quoteChar '"' = ['\\', '"'] := by decide
    rw [this, List.cons_append, parseStringUnits.eq_def]
    simp [simpleEscape]
  by_cases h2 : c = '\\'
  · subst h2
    have : quoteChar '\\' = ['\\', '\\'] := by decide
    rw [this, List.cons_append, parseStringUnits.eq_def]
    simp [simpleEscape]
  by_cases h3 : c.toNat = 8
  · have : c = Char.ofNat 8 := char_eq_of_toNat_eq (by rw [h3]; rfl)
    subst this
    have : quoteChar (Char.ofNat 8) = ['\\', 'b'] := by decide
    rw [this, List.cons_append, parseStringUnits.eq_def]
    simp [simpleEscape]
  by_cases h4 : c.toNat = 12
  · have : c = Char.ofNat 12 := char_eq_of_toNat_eq (by rw [h4]; rfl)
    subst this
    have : quoteChar (Char.ofNat 12) = ['\\', 'f'] := by decide
    rw [this, List.cons_append, parseStringUnits.eq_def]
    simp [simpleEscape]
  by_cases h5 : c = '\n'
  · subst h5
    have : quoteChar '\n' = ['\\', 'n'] := by decide
    rw [this, List.cons_append, parseStringUnits.eq_def]
    simp [simpleEscape]
  by_cases h6 : c = '\r'
  · subst h6
    have : quoteChar '\r' = ['\\', 'r'] := by decide
    rw [this, List.cons_append, parseStringUnits.eq_def]
    simp [simpleEscape]
  by_cases h7 : c = '\t'
  · subst h7
    have : quoteChar '\t' = ['\\', 't'] := by decide
    rw [this, List.cons_append, parseStringUnits.eq_def]
    simp [simpleEscape]
  by_cases h8 : c.toNat < 0x20
  · have hq : quoteChar c =
        ['\\', 'u', '0', '0', hexDigit (c.toNat / 16), hexDigit (c.toNat % 16)] := by
      simp [quoteChar, h1, h2, h3, h4, h5, h6, h7, h8]
    have hh := hex4_hexDigit c.toNat h8
    rw [hq, parseStringUnits.eq_def]
    simp [hh]
  · have hq : quoteChar c = [c] := by
      simp [quoteChar, h1, h2, h3, h4, h5, h6, h7, h8]
    rw [hq, parseStringUnits.eq_def]
    simp [h1, h2, h8]

theorem parseStringUnits_quoteBody (s rest : List Char) :
    parseStringUnits (quoteBody s ++ '"' :: rest) = some (s.map Char.toNat, rest) := by
  induction s with
  | nil =>
    rw [parseStringUnits.eq_def]
    simp [quoteBody]
  | cons c s ih =>
    have : quoteBody (c :: s) = quoteChar c ++ quoteBody s := by simp [quoteBody]
    rw [this, List.append_assoc, parseStringUnits_quoteChar, ih]
    rfl

theorem not_surrogate_toNat (c : Char) :
    isHighSurrogate c.toNat = false ∧ isLowSurrogate c.toNat = false := by
  have h := char_valid c
  simp only [isHighSurrogate, isLowSurrogate, Bool.and_eq_false_iff, decide_eq_false_iff_not]
  constructor <;> omega

theorem unitToChar_toNat (c : Char) : unitToChar c.toNat = c := by
  have h := not_surrogate_toNat c
  simp [unitToChar, h.1, h.2]

theorem combineSurrogates_toNat (s : List Char) :
    combineSurrogates (s.map Char.toNat) = s := by
  induction s with
  | nil => rfl
  | cons c s ih =>
    cases s with
    | nil => simp [combineSurrogates, unitToChar_toNat]
    | cons d s =>
      have h := not_surrogate_toNat c
      simp only [List.map_cons] at ih ⊢
      simp only [combineSurrogates, h.1, Bool.false_eq_true, false_and, if_false,
        unitToChar_toNat]
      rw [ih]

theorem parseStringBody_quoteBody (s rest : List Char) :
    parseStringBody (quoteBody s ++ '"' :: rest) = some (s, rest) := by
  simp [parseStringBody, parseStringUnits_quoteBody, combineSurrogates_toNat]

theorem parseValue_string (fuel : Nat) (v rest : List Char) :
    parseValue (fuel + 1) (quoteJson v ++ rest) = some (.str v, rest) := by
  have h : quoteJson v ++ rest = '"' :: (quoteBody v ++ '"' :: rest) := by
    simp [quoteJson]
  rw [h, parseValue]
  simp [parseStringBody_quoteBody]

theorem skipWs_cons (c : Char) (s : List Char) (h : isJsonWs c = false) :
    skipWs (c :: s) = c :: s := by
  simp [skipWs, List.dropWhile_cons, h]

theorem skipWs_quoteJson (v rest : List Char) :
    skipWs (quoteJson v ++ rest) = quoteJson v ++ rest := by
  simp only [quoteJson, List.cons_append]
  exact skipWs_cons _ _ (by decide)

theorem parseMembers_step (fuel : Nat) (k v rest : List Char) (d : Char) (ds : List Char)
    (acc : List (List Char × Json)) (hrest : rest = d :: ds) (hd : isJsonWs d = false) :
    parseMembers (fuel + 2) (quoteJson k ++ ':' :: (quoteJson v ++ rest)) acc =
      if d = ',' then parseMembers (fuel + 1) (skipWs ds) (setMember k (.str v) acc)
      else if d = '}' then some (.obj (setMember k (.str v) acc), ds)
      else none := by
  have h : quoteJson k ++ ':' :: (quoteJson v ++ rest) =
      '"' :: (quoteBody k ++ '"' :: ':' :: (quoteJson v ++ rest)) := by
    simp [quoteJson]
  rw [h, parseMembers]
  simp only [if_true, parseStringBody_quoteBody]
  rw [skipWs_cons ':' _ (by decide)]
  simp only [if_true, skipWs_quoteJson, parseValue_string]
  subst hrest
  rw [skipWs_cons d ds hd]

theorem parseMembers_step_value (fuel : Nat) (k vt rest : List Char) (val : Json)
    (d : Char) (ds : List Char) (acc : List (List Char × Json))
    (hws : skipWs (vt ++ rest) = vt ++ rest)
    (hval : parseValue (fuel + 1) (vt ++ rest) = some (val, rest))
    (hrest : rest = d :: ds) (hd : isJsonWs d = false) :
    parseMembers (fuel + 2) (quoteJson k ++ ':' :: (vt ++ rest)) acc =
      if d = ',' then parseMembers (fuel + 1) (skipWs ds) (setMember k val acc)
      else if d = '}' then some (.obj (setMember k val acc), ds)
      else none := by
  have h : quoteJson k ++ ':' :: (vt ++ rest) =
      '"' :: (quoteBody k ++ '"' :: ':' :: (vt ++ rest)) := by
    simp [quoteJson]
  rw [h, parseMembers]
  simp only [if_true, parseStringBody_quoteBody]
  rw [skipWs_cons ':' _ (by decide)]
  simp only [if_true, hws, hval]
  subst hrest
  rw [skipWs_cons d ds hd]

theorem serialiseMembers_cons (m : List Char × List Char) (ms : List (List Char × List Char)) :
    ∃ tl, serialiseMembers (m :: ms) = quoteJson m.1 ++ tl := by
  cases ms with
  | nil => exact ⟨':' :: quoteJson m.2, rfl⟩
  | cons m2 ms => exact ⟨':' :: (quoteJson m.2 ++ ',' :: serialiseMembers (m2 :: ms)), rfl⟩

theorem skipWs_serialiseMembers (m : List Char × List Char)
    (ms : List (List Char × List Char)) (rest : List Char) :
    skipWs (serialiseMembers (m :: ms) ++ rest) = serialiseMembers (m :: ms) ++ rest := by
  obtain ⟨tl, h⟩ := serialiseMembers_cons m ms
  rw [h, List.append_assoc]
  exact skipWs_quoteJson _ _

theorem parseMembers_serialise :
    ∀ (ms : List (List Char × List Char)) (m : List Char × List Char) (fuel : Nat)
      (acc : List (List Char × Json)) (rest : List Char),
      ms.length + 2 ≤ fuel →
      parseMembers fuel (serialiseMembers (m :: ms) ++ '}' :: rest) acc =
        some (.obj ((m :: ms).foldl (fun a kv => setMember kv.1 (.str kv.2) a) acc), rest) := by
  intro ms
  induction ms with
  | nil =>
    intro m fuel acc rest hf
    obtain ⟨f, rfl⟩ : ∃ f, fuel = f + 2 := ⟨fuel - 2, by simp at hf; omega⟩
    have hs : serialiseMembers [m] ++ '}' :: rest =
        quoteJson m.1 ++ ':' :: (quoteJson m.2 ++ '}' :: rest) := by
      obtain ⟨k, v⟩ := m
      simp [serialiseMembers]
    rw [hs, parseMembers_step f m.1 m.2 _ '}' rest acc rfl (by decide)]
    simp
  | cons m2 ms ih =>
    intro m fuel acc rest hf
    obtain ⟨f, rfl⟩ : ∃ f, fuel = f + 2 := ⟨fuel - 2, by simp at hf; omega⟩
    have hs : serialiseMembers (m :: m2 :: ms) ++ '}' :: rest =
        quoteJson m.1 ++ ':' :: (quoteJson m.2 ++
          ',' :: (serialiseMembers (m2 :: ms) ++ '}' :: rest)) := by
      obtain ⟨k, v⟩ := m
      simp [serialiseMembers]
    rw [hs, parseMembers_step f m.1 m.2 _ ',' _ acc rfl (by decide)]
    simp only [if_true]
    rw [skipWs_serialiseMembers, ih m2 (f + 1) _ rest (by simp at hf ⊢; omega)]
    rfl

theorem setMember_of_not_mem (k : List Char) (v : Json) :
    ∀ (acc : List (List Char × Json)), k ∉ acc.map Prod.fst →
      setMember k v acc = acc ++ [(k, v)] := by
  intro acc
  induction acc with
  | nil => intro _; rfl
  | cons a acc ih =>
    intro h
    obtain ⟨k1, v1⟩ := a
    simp only [List.map_cons, List.mem_cons, not_or] at h
    have hne : ¬ k1 = k := fun e => h.1 e.symm
    simp [setMember, hne, ih h.2]

theorem foldl_setMember_nodup :
    ∀ (ms : List (List Char × List Char)) (acc : List (List Char × Json)),
      (ms.map Prod.fst).Nodup → (∀ k ∈ ms.map Prod.fst, k ∉ acc.map Prod.fst) →
      ms.foldl (fun a kv => setMember kv.1 (.str kv.2) a) acc =
        acc ++ ms.map fun kv => (kv.1, Json.str kv.2) := by
  intro ms
  induction ms with
  | nil => intro acc _ _; simp
  | cons m ms ih =>
    intro acc hnd hdis
    simp only [List.map_cons, List.nodup_cons] at hnd
    have hm : m.1 ∉ acc.map Prod.fst := hdis m.1 (by simp)
    simp only [List.foldl_cons]
    rw [setMember_of_not_mem m.1 _ acc hm, ih _ hnd.2]
    · simp
    · intro k hk
      simp only [List.map_append, List.map_cons, List.map_nil, List.mem_append,
        List.mem_singleton, not_or]
      refine ⟨hdis k (by simp [hk]), ?_⟩
      intro e
      subst e
      exact hnd.1 hk

theorem parseValue_files (fuel : Nat) (files : List (List Char × List Char))
    (rest : List Char) (hf : files.length + 1 ≤ fuel)
    (hnd : (files.map Prod.fst).Nodup) :
    parseValue (fuel + 1) ('{' :: (serialiseMembers files ++ '}' :: rest)) =
      some (filesObject files, rest) := by
  cases files with
  | nil =>
    rw [parseValue]
    simp [serialiseMembers, skipWs_cons '}' rest (by decide), filesObject]
  | cons m ms =>
    obtain ⟨tl, htl⟩ := serialiseMembers_cons m ms
    have hq : serialiseMembers (m :: ms) ++ '}' :: rest =
        '"' :: (quoteBody m.1 ++ '"' :: (tl ++ '}' :: rest)) := by
      rw [htl]; simp [quoteJson]
    have hp := parseMembers_serialise ms m fuel [] rest (by simpa using hf)
    rw [foldl_setMember_nodup (m :: ms) [] hnd (by simp)] at hp
    rw [parseValue]
    simp only [if_true]
    rw [skipWs_serialiseMembers, hq]
    simp only [Char.reduceEq, if_false]
    rw [← hq, hp]
    rfl

theorem length_le_serialiseMembers :
    ∀ (files : List (List Char × List Char)), files.length ≤ (serialiseMembers files).length := by
  intro files
  induction files with
  | nil => simp
  | cons m ms ih =>
    obtain ⟨k, v⟩ := m
    cases ms with
    | nil => simp [serialiseMembers, quoteJson]
    | cons m2 ms =>
      simp only [serialiseMembers, List.length_append, List.length_cons] at ih ⊢
      omega

theorem parseValue_serialiseProject (fuel : Nat) (files : List (List Char × List Char))
    (summary : List Char) (hf : files.length + 4 ≤ fuel)
    (hnd : (files.map Prod.fst).Nodup) :
    parseValue fuel (serialiseProject files summary) =
      some (.obj [("files".toList, filesObject files), ("summary".toList, .str summary)], []) := by
  obtain ⟨f, rfl⟩ : ∃ f, fuel = f + 4 := ⟨fuel - 4, by omega⟩
  have hfiles := parseValue_files (f + 1) files
    (',' :: (quoteJson "summary".toList ++ ':' :: (quoteJson summary ++ ['}'])))
    (by omega) hnd
  have h1 := parseMembers_step_value (f + 1) "files".toList
    ('{' :: (serialiseMembers files ++ ['}']))
    (',' :: (quoteJson "summary".toList ++ ':' :: (quoteJson summary ++ ['}'])))
    (filesObject files) ','
    (quoteJson "summary".toList ++ ':' :: (quoteJson summary ++ ['}'])) []
    (by simp only [List.cons_append]; exact skipWs_cons _ _ (by decide))
    (by simpa using hfiles) rfl (by decide)
  have h2 := parseMembers_step f "summary".toList summary ['}'] '}' []
    (setMember "files".toList (filesObject files) []) rfl (by decide)
  simp only [if_true] at h1
  rw [skipWs_quoteJson, h2] at h1
  have hs : setMember "summary".toList (Json.str summary)
      (setMember "files".toList (filesObject files) []) =
      [("files".toList, filesObject files), ("summary".toList, .str summary)] := by
    have : ¬ "files".toList = "summary".toList := by decide
    simp [setMember, this]
  rw [hs] at h1
  simp only [Char.reduceEq, if_false, if_true] at h1
  have htext : serialiseProject files summary =
      '{' :: (quoteJson "files".toList ++ ':' :: ('{' :: (serialiseMembers files ++ ['}']) ++
        ',' :: (quoteJson "summary".toList ++ ':' :: (quoteJson summary ++ ['}'])))) := by
    simp [serialiseProject]
  rw [htext, parseValue]
  simp only [if_true]
  rw [skipWs_quoteJson]
  have hq : quoteJson "files".toList ++ ':' :: ('{' :: (serialiseMembers files ++ ['}']) ++
        ',' :: (quoteJson "summary".toList ++ ':' :: (quoteJson summary ++ ['}']))) =
      '"' :: (quoteBody "files".toList ++ '"' :: ':' :: ('{' :: (serialiseMembers files ++ ['}']) ++
        ',' :: (quoteJson "summary".toList ++ ':' :: (quoteJson summary ++ ['}'])))) := by
    simp [quoteJson]
  rw [hq]
  simp only [Char.reduceEq, if_false]
  rw [← hq, h1]

theorem jsonParse_serialiseProject (files : List (List Char × List Char))
    (summary : List Char) (hnd : (files.map Prod.fst).Nodup) :
    jsonParse (serialiseProject files summary) =
      .ok (.obj [("files".toList, filesObject files), ("summary".toList, .str summary)]) := by
  have hlen : files.length + 4 ≤ 2 * (serialiseProject files summary).length + 2 := by
    have := length_le_serialiseMembers files
    simp only [serialiseProject, List.length_cons, List.length_append]
    omega
  have hws : skipWs (serialiseProject files summary) = serialiseProject files summary :=
    skipWs_cons _ _ (by decide)
  unfold jsonParse
  rw [hws, parseValue_serialiseProject _ files summary hlen hnd]
  rfl

/-! ## Properties of `parseMultiFileResponse` -/

/-- C1: for the non-empty response whose `files` field is the empty object, and for the
one whose `files` field is the empty array, `parseMultiFileResponse` returns that value
as the file set: a file set with no entry. -/
theorem parseMultiFileResponse_empty_files :
    returnedEntryCount "\x7b\"files\":\x7b\x7d\x7d".toList = .ok 0 ∧
    returnedEntryCount "\x7b\"files\":[]\x7d".toList = .ok 0 ∧
    returnedEntryCount "```json\n\x7b\"files\": \x7b\x7d, \"summary\": \"done\"\x7d\n```".toList
      = .ok 0 :=
  ⟨rfl, rfl, rfl⟩

/-- C4: `parseMultiFileResponse` returns a result, with its `files` and `summary`, for
every string: a `SyntaxError` of `JSON.parse` and the `TypeError` of reading `files` from
`null` are caught, and the statements after the `try` block do not throw. -/
theorem parseMultiFileResponse_never_raises (response : List Char) :
    ∃ r : ParseResult, parseMultiFileResponse response = .ok r ∧
      (structuredParse response = .ok (some r) ∨ r = fallbackParse response) := by
  unfold parseMultiFileResponse
  rcases h : structuredParse response with e | (_ | r)
  · exact ⟨_, rfl, Or.inr rfl⟩
  · exact ⟨_, rfl, Or.inr rfl⟩
  · exact ⟨r, rfl, Or.inl rfl⟩

theorem serialiseProject_ends (files : List (List Char × List Char)) (summary : List Char) :
    ∃ mid, serialiseProject files summary = '{' :: (mid ++ ['}']) :=
  ⟨quoteJson "files".toList ++ ':' :: '{' :: (serialiseMembers files ++
    '}' :: ',' :: (quoteJson "summary".toList ++ ':' :: quoteJson summary)), by
    simp [serialiseProject]⟩

theorem cleanJsonResponse_bare (text mid : List Char) (hends : text = '{' :: (mid ++ ['}']))
    (hfence : hasFence text = false) : cleanJsonResponse text = text := by
  unfold cleanJsonResponse
  rw [stripFence_of_noFence _ _ hfence, stripFence_of_noFence _ _ hfence, hends]
  exact trim_of_ends '{' '}' mid (by decide) (by decide)

theorem cleanJsonResponse_fenced (text mid : List Char) (hends : text = '{' :: (mid ++ ['}']))
    (hfence : hasFence text = false) : cleanJsonResponse (jsonFenced text) = text := by
  unfold cleanJsonResponse
  have s1 : stripFence "json".toList (jsonFenced text) =
      stripFenceAux "json".toList 0 (text ++ fenceTail) := rfl
  rw [s1, stripFence_body _ _ fenceTail hfence (by decide), stripFence_bare_body _ hfence,
    trim_append_space _ '\n' (by decide), hends]
  exact trim_of_ends '{' '}' mid (by decide) (by decide)

theorem structuredParse_of_project (response : List Char)
    (files : List (List Char × List Char)) (summary : List Char)
    (hsum : summary ≠ [])
    (hparse : jsonParse (cleanJsonResponse response) =
      .ok (.obj [("files".toList, filesObject files), ("summary".toList, .str summary)])) :
    structuredParse response = .ok (some ⟨filesObject files, .str summary⟩) := by
  have hk : ("summary".toList == "files".toList) = false := by decide
  have he : summary.isEmpty = false := by
    cases summary with
    | nil => exact absurd rfl hsum
    | cons _ _ => rfl
  unfold structuredParse
  rw [hparse]
  simp [getProperty, List.lookup, hk, truthy, isObjectType, filesObject, he]

/-- C2, as the code has it: for every non-empty mapping `files` from file names to
contents (the list of its entries, the keys distinct) and every non-empty summary whose
JSON serialisation holds no three backticks in a row, `parseMultiFileResponse` applied to
the serialisation, bare or wrapped in a fence tagged `json`, returns the files object with
the same keys and contents, which has at least one entry, and the same summary. -/
theorem parseMultiFileResponse_roundtrip (files : List (List Char × List Char))
    (summary : List Char) (hfiles : files ≠ []) (hkeys : (files.map Prod.fst).Nodup)
    (hsum : summary ≠ []) (hfence : hasFence (serialiseProject files summary) = false) :
    parseMultiFileResponse (serialiseProject files summary) =
      .ok ⟨filesObject files, .str summary⟩ ∧
    parseMultiFileResponse (jsonFenced (serialiseProject files summary)) =
      .ok ⟨filesObject files, .str summary⟩ ∧
    0 < entryCount (filesObject files) := by
  obtain ⟨mid, hmid⟩ := serialiseProject_ends files summary
  have hp := jsonParse_serialiseProject files summary hkeys
  refine ⟨?_, ?_, ?_⟩
  · have h := structuredParse_of_project (serialiseProject files summary) files summary hsum
      (by rw [cleanJsonResponse_bare _ mid hmid hfence]; exact hp)
    unfold parseMultiFileResponse
    rw [h]
  · have h := structuredParse_of_project (jsonFenced (serialiseProject files summary))
      files summary hsum
      (by rw [cleanJsonResponse_fenced _ mid hmid hfence]; exact hp)
    unfold parseMultiFileResponse
    rw [h]
  · cases files with
    | nil => exact absurd rfl hfiles
    | cons kv rest => simp [filesObject, entryCount]

/-- C2 at the input of the specification: the single file `index.html` with content
`<h1>x</h1>` and the summary `s`. -/
theorem parseMultiFileResponse_roundtrip_witness :
    parseMultiFileResponse (serialiseProject [(indexHtml, "<h1>x</h1>".toList)] "s".toList) =
      .ok ⟨filesObject [(indexHtml, "<h1>x</h1>".toList)], .str "s".toList⟩ ∧
    parseMultiFileResponse
        (jsonFenced (serialiseProject [(indexHtml, "<h1>x</h1>".toList)] "s".toList)) =
      .ok ⟨filesObject [(indexHtml, "<h1>x</h1>".toList)], .str "s".toList⟩ ∧
    0 < entryCount (filesObject [(indexHtml, "<h1>x</h1>".toList)]) :=
  parseMultiFileResponse_roundtrip [(indexHtml, "<h1>x</h1>".toList)] "s".toList
    (by decide) (by decide) (by decide) (by decide)

/-- C2, refuted as stated: a content that holds three backticks in a row does not come
back; the fence stripping of the `try` block removes them inside the JSON string too. -/
theorem parseMultiFileResponse_roundtrip_loses_fence :
    returnedContent (serialiseProject [(indexHtml, "a```b".toList)] "s".toList) indexHtml
      = some "ab".toList ∧
    returnedContent (serialiseProject [(indexHtml, "a```b".toList)] "s".toList) indexHtml
      ≠ some "a```b".toList ∧
    returnedContent (jsonFenced (serialiseProject [(indexHtml, "a```b".toList)] "s".toList))
      indexHtml ≠ some "a```b".toList := by
  decide

/-- C5 at a concrete input: a reply that is no JSON and names a style sheet. -/
theorem fallback_file_set_witness :
    ∃ members,
      parseMultiFileResponse "here is style.css: \"a\\nb\", enjoy".toList =
        .ok ⟨.obj members, .str defaultSummary⟩ ∧
      members ≠ [] ∧
      fileContent (.obj members) styleCss = some "a\nb".toList :=
  (fallback_file_set "here is style.css: \"a\\nb\", enjoy".toList
    (structuredParse_of_syntaxError _ .syntaxError rfl)).imp
    fun _ h => ⟨h.1, h.2.1, h.2.2.2.2.1 styleCss (by decide) "a\\nb".toList (by decide)⟩

/-! ## Failure classification -/

theorem callProvider_eq (env : Env) (n : Nat) (provider : String) :
    ∃ m1 m2, ∀ net : Network, callProvider env net n provider =
      adapterCall (isConfigured env (adapterOf provider)) m1 m2 (net n (adapterOf provider)) := by
  unfold callProvider
  cases adapterOf provider <;> exact ⟨_, _, fun _ => rfl⟩

theorem adapterCall_congr (configured : Bool) (m1 m2 : String) (r1 r2 : Reply)
    (h : r1.success = r2.success) :
    (adapterCall configured m1 m2 r1).2 = (adapterCall configured m1 m2 r2).2 ∧
    (adapterCall configured m1 m2 r1).1.toOption =
      (adapterCall configured m1 m2 r2).1.toOption := by
  cases configured <;> cases r1 <;> cases r2 <;>
    simp_all [adapterCall, Reply.success, Except.toOption]

theorem callProvider_congr (env : Env) (net1 net2 : Network) (n : Nat) (provider : String)
    (h : (net1 n (adapterOf provider)).success = (net2 n (adapterOf provider)).success) :
    (callProvider env net1 n provider).2 = (callProvider env net2 n provider).2 ∧
    (callProvider env net1 n provider).1.toOption =
      (callProvider env net2 n provider).1.toOption := by
  obtain ⟨m1, m2, hcp⟩ := callProvider_eq env n provider
  rw [hcp net1, hcp net2]
  exact adapterCall_congr _ m1 m2 _ _ h

theorem callAILoop_congr (env : Env) (net1 net2 : Network)
    (h : ∀ n a, (net1 n a).success = (net2 n a).success) :
    ∀ (ps : List String) (n : Nat) (l1 l2 : Option String),
      (callAILoop env net1 ps n l1).attempts = (callAILoop env net2 ps n l2).attempts ∧
      (callAILoop env net1 ps n l1).result.toOption =
        (callAILoop env net2 ps n l2).result.toOption := by
  intro ps
  induction ps with
  | nil => intro n l1 l2; exact ⟨rfl, rfl⟩
  | cons p ps ih =>
    intro n l1 l2
    have hc := callProvider_congr env net1 net2 n p (h n _)
    rcases h1 : callProvider env net1 n p with ⟨r1, f1⟩
    rcases h2 : callProvider env net2 n p with ⟨r2, f2⟩
    rw [h1, h2] at hc
    simp only at hc
    obtain ⟨hf, hr⟩ := hc
    subst hf
    cases r1 with
    | ok t1 =>
      cases r2 with
      | ok t2 =>
        simp only [Except.toOption, Option.some.injEq] at hr
        subst hr
        simp [callAILoop, h1, h2]
      | error m2 => simp [Except.toOption] at hr
    | error m1 =>
      cases r2 with
      | ok t2 => simp [Except.toOption] at hr
      | error m2 =>
        simp only [callAILoop, h1, h2, ite_self]
        have := ih (if f1 = true then n + 1 else n) (some m1) (some m2)
        exact ⟨by rw [this.1], this.2⟩

/-- C11: two runs of `callAI` with the same keys and the same preferred provider, whose
upstream replies agree on which requests succeed and with which text and differ only in
the messages of the failures, attempt the same providers in the same order and return the
same text, or both fail. -/
theorem callAI_classification_irrelevant (env : Env) (net1 net2 : Network)
    (provider : String)
    (h : ∀ n a, (net1 n a).success = (net2 n a).success) :
    (callAI env net1 provider).attempts = (callAI env net2 provider).attempts ∧
    (callAI env net1 provider).result.toOption =
      (callAI env net2 provider).result.toOption := by
  unfold callAI
  simp only
  split
  · exact ⟨rfl, rfl⟩
  · exact callAILoop_congr env net1 net2 h _ 0 none none

/-- C11 at a concrete input: every failure is classified as a quota error in the first
run and none in the second; Groq then Gemini are attempted in both, and both fail. -/
theorem callAI_classification_irrelevant_witness :
    isQuotaError "Quota exceeded" = true ∧ isQuotaError "Bad request" = false ∧
    (callAI envGroqGemini netQuotaEverywhere "groq").attempts =
      (callAI envGroqGemini netBadRequest "groq").attempts ∧
    (callAI envGroqGemini netQuotaEverywhere "groq").result.toOption =
      (callAI envGroqGemini netBadRequest "groq").result.toOption :=
  ⟨by decide, by decide,
    callAI_classification_irrelevant envGroqGemini netQuotaEverywhere netBadRequest "groq"
      (fun _ _ => rfl)⟩

/-! ## `isQuotaError` -/

theorem includes_iff (s pattern : List Char) :
    includes s pattern = true ↔ pattern <:+: s := by
  induction s with
  | nil =>
    simp only [includes, List.isPrefixOf_iff_prefix, List.prefix_nil, List.infix_nil]
  | cons c cs ih =>
    simp only [includes, Bool.or_eq_true, List.isPrefixOf_iff_prefix, ih, List.infix_cons_iff]

theorem asciiLower_toNat (c : Char) :
    (asciiLower c).toNat = if 65 ≤ c.toNat ∧ c.toNat ≤ 90 then c.toNat + 32 else c.toNat := by
  unfold asciiLower
  split
  · rename_i h
    exact toNat_ofNat_small _ (by omega)
  · rfl

theorem toLowerChar_congr (c d : Char) (h : asciiLower c = asciiLower d) :
    toLowerChar c = toLowerChar d := by
  have hn := congrArg Char.toNat h
  rw [asciiLower_toNat, asciiLower_toNat] at hn
  unfold toLowerChar
  by_cases h1 : c.toNat = 0x130
  · have : d.toNat = 0x130 := by
      split at hn <;> split at hn <;> omega
    simp [h1, this]
  · by_cases h2 : c.toNat = 0x212A
    · have : d.toNat = 0x212A := by
        split at hn <;> split at hn <;> omega
      simp [h2, this]
    · have hd1 : ¬ d.toNat = 0x130 := by
        split at hn <;> split at hn <;> omega
      have hd2 : ¬ d.toNat = 0x212A := by
        split at hn <;> split at hn <;> omega
      simp [h1, h2, hd1, hd2, h]

theorem toLowerCase_congr :
    ∀ (s t : List Char), s.map asciiLower = t.map asciiLower → toLowerCase s = toLowerCase t := by
  intro s
  induction s with
  | nil =>
    intro t h
    cases t with
    | nil => rfl
    | cons _ _ => simp at h
  | cons c s ih =>
    intro t h
    cases t with
    | nil => simp at h
    | cons d t =>
      simp only [List.map_cons, List.cons.injEq] at h
      simp only [toLowerCase, List.flatMap_cons] at ih ⊢
      rw [toLowerChar_congr c d h.1, ih t h.2]

/-- C12: `isQuotaError` is true exactly when the lower-cased message contains one of the
seven substrings; and two messages that differ only in the case of ASCII letters get the
same answer. -/
theorem isQuotaError_iff (msg : String) :
    (isQuotaError msg = true ↔
      ∃ p ∈ ["quota", "rate limit", "rate_limit", "exceeded", "too many requests", "429",
        "limit"], p.toList <:+: toLowerCase msg.toList) ∧
    (∀ other : String, other.toList.map asciiLower = msg.toList.map asciiLower →
      isQuotaError other = isQuotaError msg) := by
  constructor
  · unfold isQuotaError quotaPatterns
    simp only [List.any_eq_true, includes_iff]
  · intro other h
    unfold isQuotaError
    rw [toLowerCase_congr _ _ h]

/-- C12 at a concrete input: a message in upper case and its lower-case form. -/
theorem isQuotaError_iff_witness :
    isQuotaError "RATE LIMIT reached (429)" = isQuotaError "rate limit reached (429)" ∧
    isQuotaError "RATE LIMIT reached (429)" = true :=
  ⟨(isQuotaError_iff "rate limit reached (429)").2 "RATE LIMIT reached (429)" (by decide),
    by decide⟩

/-- C29: the patterns `rate limit` and `rate_limit` are redundant; `isQuotaError` gives
the answer of the classifier that looks for `quota`, `exceeded`, `too many requests`,
`429` and `limit` only. -/
theorem isQuotaError_eq_five_patterns (msg : String) :
    isQuotaError msg =
      ["quota", "exceeded", "too many requests", "429", "limit"].any
        fun pattern => includes (toLowerCase msg.toList) pattern.toList := by
  have h1 : includes (toLowerCase msg.toList) "rate limit".toList = true →
      includes (toLowerCase msg.toList) "limit".toList = true := by
    rw [includes_iff, includes_iff]
    exact fun h => List.IsInfix.trans (by decide) h
  have h2 : includes (toLowerCase msg.toList) "rate_limit".toList = true →
      includes (toLowerCase msg.toList) "limit".toList = true := by
    rw [includes_iff, includes_iff]
    exact fun h => List.IsInfix.trans (by decide) h
  unfold isQuotaError quotaPatterns
  simp only [List.any_cons, List.any_nil, Bool.or_false]
  revert h1 h2
  cases includes (toLowerCase msg.toList) "rate limit".toList <;>
    cases includes (toLowerCase msg.toList) "rate_limit".toList <;>
    cases includes (toLowerCase msg.toList) "limit".toList <;> simp

/-! ## Colour validation -/

theorem toLowerChar_of_plain (c : Char) (h1 : c.toNat ≠ 0x130) (h2 : c.toNat ≠ 0x212A) :
    toLowerChar c = [asciiLower c] := by
  simp [toLowerChar, h1, h2]

theorem toLowerCase_eq_of_ascii_image :
    ∀ (s kw : List Char), s.map asciiLower = kw → (∀ k ∈ kw, k.toNat < 128) →
      toLowerCase s = kw := by
  intro s
  induction s with
  | nil => intro kw h _; simpa [toLowerCase] using h
  | cons c s ih =>
    intro kw h hk
    cases kw with
    | nil => simp at h
    | cons k kw =>
      simp only [List.map_cons, List.cons.injEq] at h
      have hk0 : k.toNat < 128 := hk k (by simp)
      have hc : (asciiLower c).toNat < 128 := by rw [h.1]; exact hk0
      rw [asciiLower_toNat] at hc
      have h1 : c.toNat ≠ 0x130 := by split at hc <;> omega
      have h2 : c.toNat ≠ 0x212A := by split at hc <;> omega
      have := ih kw h.2 (fun x hx => hk x (by simp [hx]))
      simp only [toLowerCase, List.flatMap_cons] at this ⊢
      rw [toLowerChar_of_plain c h1 h2, this, h.1]
      rfl

theorem toLowerCase_append (a b : List Char) :
    toLowerCase (a ++ b) = toLowerCase a ++ toLowerCase b := by
  simp [toLowerCase]

theorem toLowerChar_of_space (c : Char) (h : isJsSpace c = true) : toLowerChar c = [c] := by
  have hn : c.toNat ≠ 0x130 ∧ c.toNat ≠ 0x212A ∧ ¬ (65 ≤ c.toNat ∧ c.toNat ≤ 90) := by
    simp only [isJsSpace, Bool.or_eq_true, Bool.and_eq_true, beq_iff_eq,
      decide_eq_true_eq] at h
    omega
  simp [toLowerChar, asciiLower, hn.1, hn.2.1, hn.2.2]

theorem toLowerCase_of_spaces :
    ∀ (ws : List Char), (∀ c ∈ ws, isJsSpace c = true) → toLowerCase ws = ws := by
  intro ws
  induction ws with
  | nil => intro _; rfl
  | cons c ws ih =>
    intro h
    have := ih (fun x hx => h x (by simp [hx]))
    simp only [toLowerCase, List.flatMap_cons] at this ⊢
    rw [toLowerChar_of_space c (h c (by simp)), this]
    rfl

theorem paren_not_mem_toLowerChar (c : Char) (h : c ≠ ')') : ')' ∉ toLowerChar c := by
  unfold toLowerChar
  split
  · decide
  · split
    · decide
    · simp only [List.mem_singleton]
      intro e
      have hn := congrArg Char.toNat e
      rw [asciiLower_toNat] at hn
      have h41 : (')' : Char).toNat = 41 := by decide
      rw [h41] at hn
      split at hn
      · omega
      · exact h (char_eq_of_toNat_eq (by rw [h41]; exact hn.symm))

theorem paren_not_mem_toLowerCase :
    ∀ (a : List Char), ')' ∉ a → ')' ∉ toLowerCase a := by
  intro a
  induction a with
  | nil => intro _; simp [toLowerCase]
  | cons c a ih =>
    intro h
    simp only [List.mem_cons, not_or] at h
    have h1 := paren_not_mem_toLowerChar c (fun e => h.1 e.symm)
    have h2 := ih h.2
    simp only [toLowerCase, List.flatMap_cons, List.mem_append, not_or] at h2 ⊢
    exact ⟨h1, h2⟩

theorem dropWhile_spaces_append (ws rest : List Char) (c : Char)
    (hws : ∀ x ∈ ws, isJsSpace x = true) (hc : isJsSpace c = false) :
    (ws ++ c :: rest).dropWhile isJsSpace = c :: rest := by
  induction ws with
  | nil => simp [List.dropWhile_cons, hc]
  | cons w ws ih =>
    simp only [List.cons_append, List.dropWhile_cons, hws w (by simp), if_true]
    exact ih (fun x hx => hws x (by simp [hx]))

theorem zeroTail_of_form (ws1 ws2 rest : List Char)
    (h1 : ∀ x ∈ ws1, isJsSpace x = true) (h2 : ∀ x ∈ ws2, isJsSpace x = true) :
    zeroTail (',' :: (ws1 ++ '0' :: (ws2 ++ ')' :: rest))) = true := by
  simp [zeroTail, dropWhile_spaces_append ws1 _ '0' h1 (by decide),
    dropWhile_spaces_append ws2 _ ')' h2 (by decide)]

theorem argsThenZero_append :
    ∀ (args tail : List Char), ')' ∉ args → zeroTail tail = true →
      argsThenZero (args ++ tail) = true := by
  intro args
  induction args with
  | nil =>
    intro tail _ ht
    cases tail with
    | nil => simp [zeroTail] at ht
    | cons c cs => simp [argsThenZero, ht]
  | cons a args ih =>
    intro tail h ht
    simp only [List.mem_cons, not_or] at h
    have ha : (a != ')') = true := by
      simp only [bne_iff_ne, ne_eq]
      exact fun e => h.1 e.symm
    simp [argsThenZero, ha, ih tail h.2 ht]

theorem searchRgba_of_rgba (rest : List Char) (h : argsThenZero rest = true) :
    searchRgba ("rgba(".toList ++ rest) = true := by
  have : "rgba(".toList ++ rest = 'r' :: 'g' :: 'b' :: 'a' :: '(' :: rest := rfl
  rw [this]
  simp [searchRgba, matchRgbaAt, matchLiteral, h]

theorem isValidColor_of_search (s : List Char) (h : searchRgba (toLowerCase (trim s)) = true) :
    isValidColor (some s) = false := by
  unfold isValidColor
  simp only [h]
  split <;> (try rfl)
  split <;> rfl

/-- C14: `isValidColor` is false for the empty string, for every string that after
trimming is one of the four keywords in any letter case, and for every string that after
trimming is `rgba(`, in any letter case, followed by components without a closing
parenthesis, a comma, whitespace, `0`, whitespace and the closing parenthesis; it is false
on the four inputs of the specification and true on `#3b82f6` and `rgb(10,10,10)`. -/
theorem isValidColor_rejects :
    isValidColor (some []) = false ∧
    (∀ s kw, kw ∈ ["transparent", "inherit", "initial", "unset"] →
      (trim s).map asciiLower = kw.toList → isValidColor (some s) = false) ∧
    (∀ s p args ws1 ws2,
      trim s = p ++ (args ++ ',' :: (ws1 ++ '0' :: (ws2 ++ [')']))) →
      p.map asciiLower = "rgba(".toList → ')' ∉ args →
      (∀ c ∈ ws1, isJsSpace c = true) → (∀ c ∈ ws2, isJsSpace c = true) →
      isValidColor (some s) = false) ∧
    isValidColor (some "".toList) = false ∧
    isValidColor (some "transparent".toList) = false ∧
    isValidColor (some "rgba(0,0,0,0)".toList) = false ∧
    isValidColor (some "RGBA( 0 , 0, 0 , 0)".toList) = false ∧
    isValidColor (some "#3b82f6".toList) = true ∧
    isValidColor (some "rgb(10,10,10)".toList) = true := by
  refine ⟨rfl, ?_, ?_, by decide, by decide, by decide, by decide, by decide, by decide⟩
  · intro s kw hkw h
    have hlow : toLowerCase (trim s) = kw.toList := by
      apply toLowerCase_eq_of_ascii_image _ _ h
      simp only [List.mem_cons, List.mem_singleton, List.not_mem_nil, or_false] at hkw
      rcases hkw with rfl | rfl | rfl | rfl <;> decide
    have hmem : invalidPatterns.contains kw.toList = true := by
      simp only [List.mem_cons, List.mem_singleton, List.not_mem_nil, or_false] at hkw
      rcases hkw with rfl | rfl | rfl | rfl <;> decide
    unfold isValidColor
    simp only [hlow, hmem]
    split <;> rfl
  · intro s p args ws1 ws2 hs hp hargs h1 h2
    apply isValidColor_of_search
    have hp1 : toLowerCase p = "rgba(".toList :=
      toLowerCase_eq_of_ascii_image _ _ hp (by decide)
    have htail : toLowerCase (',' :: (ws1 ++ '0' :: (ws2 ++ [')']))) =
        ',' :: (ws1 ++ '0' :: (ws2 ++ [')'])) := by
      have e : ',' :: (ws1 ++ '0' :: (ws2 ++ [')'])) =
          [','] ++ (ws1 ++ (['0'] ++ (ws2 ++ [')']))) := by simp
      rw [e]
      simp only [toLowerCase_append, toLowerCase_of_spaces ws1 h1,
        toLowerCase_of_spaces ws2 h2]
      rfl
    rw [hs, toLowerCase_append, toLowerCase_append, hp1, htail]
    apply searchRgba_of_rgba
    exact argsThenZero_append _ _ (paren_not_mem_toLowerCase args hargs)
      (zeroTail_of_form ws1 ws2 [] h1 h2)

/-- C15: the opaque colours `rgb(255, 255, 0)` and `rgb(0,0,0)`, three components and no
alpha channel, are rejected: the `a` of `rgba?` is optional in the regular expression, so
a last component `0` of `rgb(...)` is read as a zero alpha. -/
theorem isValidColor_rejects_opaque_rgb :
    isValidColor (some "rgb(255, 255, 0)".toList) = false ∧
    isValidColor (some "rgb(0,0,0)".toList) = false ∧
    "rgb(255, 255, 0)".toList ∉ invalidPatterns ∧
    searchRgba "rgb(255, 255, 0)".toList = true := by
  decide

/-! ## Theme lookup -/

theorem isKeyChar_toLowerChar (c : Char) (h : isKeyChar c = true) : toLowerChar c = [c] := by
  have hn : c.toNat ≠ 0x130 ∧ c.toNat ≠ 0x212A ∧ ¬ (65 ≤ c.toNat ∧ c.toNat ≤ 90) := by
    simp only [isKeyChar, Bool.or_eq_true, Bool.and_eq_true, decide_eq_true_eq,
      beq_iff_eq] at h
    rcases h with h | h
    · omega
    · subst h; decide
  simp [toLowerChar, asciiLower, hn.1, hn.2.1, hn.2.2]

theorem isKeyChar_of_mem_keyChar (c x : Char) (h : x ∈ keyChar c) : isKeyChar x = true := by
  unfold keyChar at h
  split at h
  · rename_i hc
    simp only [List.mem_singleton] at h
    rw [h]; exact hc
  · split at h
    · simp only [List.mem_cons, List.mem_singleton, List.not_mem_nil, or_false, or_self] at h
      rw [h]; decide
    · simp only [List.mem_singleton] at h
      rw [h]; decide

theorem isKeyChar_of_mem_hyphenateKey (k : List Char) (x : Char) (h : x ∈ hyphenateKey k) :
    isKeyChar x = true := by
  unfold hyphenateKey at h
  rw [List.mem_flatMap] at h
  obtain ⟨c, _, hc⟩ := h
  exact isKeyChar_of_mem_keyChar c x hc

theorem hyphenateKey_of_keyChars :
    ∀ (s : List Char), (∀ c ∈ s, isKeyChar c = true) → hyphenateKey s = s := by
  intro s
  induction s with
  | nil => intro _; rfl
  | cons c s ih =>
    intro h
    have hc := h c (by simp)
    have := ih (fun x hx => h x (by simp [hx]))
    simp only [hyphenateKey, toLowerCase, List.flatMap_cons, List.flatMap_append] at this ⊢
    rw [isKeyChar_toLowerChar c hc]
    simp only [List.flatMap_cons, List.flatMap_nil, List.append_nil, keyChar, hc, if_true]
    rw [this]
    rfl

theorem hyphenateKey_idem (k : List Char) : hyphenateKey (hyphenateKey k) = hyphenateKey k :=
  hyphenateKey_of_keyChars _ (fun c hc => isKeyChar_of_mem_hyphenateKey k c hc)

theorem isKeyChar_of_mem_normalizedKey (k : Option (List Char)) (x : Char)
    (h : x ∈ normalizedKey k) : isKeyChar x = true := by
  unfold normalizedKey at h
  cases k with
  | none =>
    simp only at h
    revert x
    decide
  | some k =>
    simp only at h
    split at h
    · revert x h
      decide
    · exact isKeyChar_of_mem_hyphenateKey k x h

theorem normalizedKey_idem (k : Option (List Char)) :
    normalizedKey (some (normalizedKey k)) = normalizedKey k := by
  have h := hyphenateKey_of_keyChars (normalizedKey k)
    (fun c hc => isKeyChar_of_mem_normalizedKey k c hc)
  have hne : (normalizedKey k).isEmpty = false := by
    unfold normalizedKey
    cases k with
    | none => rfl
    | some k =>
      simp only
      split
      · rfl
      · rename_i hk
        simpa using hk
  generalize hg : normalizedKey k = key at h hne
  simp [normalizedKey, h, hne]

theorem inherited_normalizedKey (k : Option (List Char))
    (h : inheritedKeys.contains (normalizedKey k) = true) :
    normalizedKey k = "constructor".toList := by
  have hall : ∀ c ∈ normalizedKey k, isKeyChar c = true :=
    fun c hc => isKeyChar_of_mem_normalizedKey k c hc
  have hmem : normalizedKey k ∈ inheritedKeys := by simpa using h
  generalize normalizedKey k = key at hall hmem
  simp only [inheritedKeys, List.mem_cons, List.mem_singleton, List.not_mem_nil,
    or_false] at hmem
  rcases hmem with rfl | rfl | rfl | rfl | rfl | rfl | rfl | rfl | rfl | rfl | rfl | rfl
  · rfl
  all_goals exact absurd hall (by decide)

theorem getColorThemeConfig_theme (k : Option (List Char))
    (h : normalizedKey k ≠ "constructor".toList) :
    ∃ t, t ∈ COLOR_THEME_CONFIG.map Prod.snd ∧ getColorThemeConfig k = .theme t := by
  unfold getColorThemeConfig themeProperty
  cases hl : COLOR_THEME_CONFIG.lookup (normalizedKey k) with
  | some t =>
    refine ⟨t, ?_, rfl⟩
    obtain ⟨l1, l2, hsplit, _⟩ := List.lookup_eq_some_iff.mp hl
    exact List.mem_map.mpr ⟨(normalizedKey k, t), by rw [hsplit]; simp, rfl⟩
  | none =>
    have hi : inheritedKeys.contains (normalizedKey k) = false := by
      cases hc : inheritedKeys.contains (normalizedKey k) with
      | false => rfl
      | true => exact absurd (inherited_normalizedKey k hc) h
    simp only [hi]
    exact ⟨themeDarkBluePurple, by decide, rfl⟩

/-! ## Themes and palettes -/

theorem theme_colors_valid :
    ∀ t ∈ COLOR_THEME_CONFIG.map Prod.snd,
      isValidColor (some t.background) = true ∧ isValidColor (some t.surface) = true ∧
      isValidColor (some t.primary) = true ∧ isValidColor (some t.secondary) = true ∧
      isValidColor (some t.accent) = true ∧ isValidColor (some t.text) = true ∧
      isValidColor (some t.textMuted) = true := by
  decide

theorem validDetected_valid (d : Option DetectedColors) (v : Option (List Char))
    (h : v ∈ validDetected d) : isValidColor v = true := by
  unfold validDetected filterValidColors at h
  exact (List.mem_filter.mp h).2

theorem truthyText_of_valid (v : Option (List Char)) (h : isValidColor v = true) :
    truthyText v = true := by
  cases v with
  | none => simp [isValidColor] at h
  | some s =>
    cases s with
    | nil => simp [isValidColor] at h
    | cons _ _ => rfl

theorem generateColorPalette_valid_of_theme (d : Option DetectedColors)
    (themeKey : Option (List Char)) (h : normalizedKey themeKey ≠ "constructor".toList) :
    isValidColor (generateColorPalette d themeKey).primary = true ∧
    isValidColor (generateColorPalette d themeKey).secondary = true ∧
    isValidColor (generateColorPalette d themeKey).accent = true ∧
    isValidColor (generateColorPalette d themeKey).background = true ∧
    isValidColor (generateColorPalette d themeKey).text = true := by
  obtain ⟨t, ht, hcfg⟩ := getColorThemeConfig_theme themeKey h
  have hv := theme_colors_valid t ht
  unfold generateColorPalette
  rw [hcfg]
  simp only [ThemeValue.get]
  rcases hV : validDetected d with _ | ⟨v0, _ | ⟨v1, rest⟩⟩
  · simp [hv]
  · simp [hv]
  · have h0 := validDetected_valid d v0 (by rw [hV]; simp)
    have h1 := validDetected_valid d v1 (by rw [hV]; simp)
    refine ⟨h0, h1, ?_, ?_, ?_⟩
    · cases rest with
      | nil => exact hv.2.2.2.2.1
      | cons v2 _ =>
        have h2 := validDetected_valid d v2 (by rw [hV]; simp)
        simp [truthyText_of_valid v2 h2, h2]
    · simp only
      split
      · assumption
      · exact hv.1
    · simp only
      split
      · assumption
      · exact hv.2.2.2.2.2.1

/-- C16: for every detected-colours input and every theme key whose normal form is not
`constructor` (the one call of `generateColorPalette`, in the analyze-url handler, passes
`dark-blue-purple`), the fields primary, secondary, accent, background and text of the
palette satisfy `isValidColor`; and every colour field of the six built-in themes
satisfies `isValidColor`. -/
theorem generateColorPalette_valid (d : Option DetectedColors)
    (themeKey : Option (List Char)) (h : normalizedKey themeKey ≠ "constructor".toList) :
    (isValidColor (generateColorPalette d themeKey).primary = true ∧
      isValidColor (generateColorPalette d themeKey).secondary = true ∧
      isValidColor (generateColorPalette d themeKey).accent = true ∧
      isValidColor (generateColorPalette d themeKey).background = true ∧
      isValidColor (generateColorPalette d themeKey).text = true) ∧
    COLOR_THEME_CONFIG.length = 6 ∧
    ∀ t ∈ COLOR_THEME_CONFIG.map Prod.snd,
      isValidColor (some t.background) = true ∧ isValidColor (some t.surface) = true ∧
      isValidColor (some t.primary) = true ∧ isValidColor (some t.secondary) = true ∧
      isValidColor (some t.accent) = true ∧ isValidColor (some t.text) = true ∧
      isValidColor (some t.textMuted) = true :=
  ⟨generateColorPalette_valid_of_theme d themeKey h, rfl, theme_colors_valid⟩

/-- C16 at the call of the analyze-url handler, for a page with a transparent body
background, a text colour and one accent: the palette is the theme with the text colour
of the page. -/
theorem generateColorPalette_valid_witness :
    normalizedKey (some "dark-blue-purple".toList) ≠ "constructor".toList ∧
    isValidColor (generateColorPalette (some colorsTransparentBody)
      (some "dark-blue-purple".toList)).primary = true ∧
    isValidColor (generateColorPalette (some colorsTransparentBody)
      (some "dark-blue-purple".toList)).background = true ∧
    (generateColorPalette (some colorsTransparentBody)
      (some "dark-blue-purple".toList)).background = some themeDarkBluePurple.background :=
  have h := (generateColorPalette_valid (some colorsTransparentBody)
    (some "dark-blue-purple".toList) (by decide)).1
  ⟨by decide, h.1, h.2.2.2.1, by decide⟩

/-- With the theme key `constructor`, which no call in the module passes and which
`COLOR_THEME_CONFIG[...]` answers with the inherited function `Object`, the palette has no
colour at all: with no detected colours every field is `undefined`, and with two valid
accents the accent is `undefined`; `isValidColor` is false on it. -/
theorem generateColorPalette_constructor_invalid :
    (generateColorPalette none (some "constructor".toList)).primary = none ∧
    isValidColor (generateColorPalette none (some "constructor".toList)).primary = false ∧
    isValidColor (generateColorPalette none (some "constructor".toList)).background = false ∧
    isValidColor (generateColorPalette
      (some ⟨none, none, some [some "#111111".toList, some "#222222".toList]⟩)
      (some "Constructor".toList)).accent = false := by
  decide

/-- C17: for a page with a transparent body background, a text colour and one accent,
`hasValidColors` holds and the prompt embeds the three raw colours, the transparent
background among them. -/
theorem promptDetectedColors_embeds_invalid :
    hasValidColors colorsTransparentBody = true ∧
    promptDetectedColors colorsTransparentBody =
      [some "rgba(0, 0, 0, 0)".toList, some "rgb(33, 37, 41)".toList,
        some "rgb(13, 110, 253)".toList] ∧
    isValidColor (some "rgba(0, 0, 0, 0)".toList) = false := by
  decide

/-- C18: when the valid detected accents are `v0 :: v1 :: rest`, the palette has primary
`v0`, secondary `v1`, as accent the head of `rest` or the accent of the theme when `rest`
is empty, as background the detected background when it is valid and the background of
the theme otherwise, and the same for the text. -/
theorem generateColorPalette_synthesis (d : DetectedColors) (themeKey : Option (List Char))
    (v0 v1 : Option (List Char)) (rest : List (Option (List Char)))
    (hV : filterValidColors (d.accents.getD []) = v0 :: v1 :: rest) :
    (generateColorPalette (some d) themeKey).primary = v0 ∧
    (generateColorPalette (some d) themeKey).secondary = v1 ∧
    (generateColorPalette (some d) themeKey).accent =
      (match rest with
        | v2 :: _ => v2
        | [] => (getColorThemeConfig themeKey).get (·.accent)) ∧
    (generateColorPalette (some d) themeKey).background =
      (if isValidColor d.background then d.background
        else (getColorThemeConfig themeKey).get (·.background)) ∧
    (generateColorPalette (some d) themeKey).text =
      (if isValidColor d.text then d.text
        else (getColorThemeConfig themeKey).get (·.text)) := by
  have hV1 : validDetected (some d) = v0 :: v1 :: rest := by
    simpa [validDetected] using hV
  unfold generateColorPalette
  rw [hV1]
  refine ⟨rfl, rfl, ?_, rfl, rfl⟩
  cases rest with
  | nil => rfl
  | cons v2 _ =>
    have h2 := validDetected_valid (some d) v2 (by rw [hV1]; simp)
    simp [truthyText_of_valid v2 h2]

/-- C18 at a concrete input: four accent candidates of which the first and the last are
valid, a valid background and a transparent text colour. -/
theorem generateColorPalette_synthesis_witness :
    (generateColorPalette (some colorsFourAccents) none).primary = some "#111111".toList ∧
    (generateColorPalette (some colorsFourAccents) none).secondary = some "#222222".toList ∧
    (generateColorPalette (some colorsFourAccents) none).accent =
      (getColorThemeConfig none).get (·.accent) ∧
    (generateColorPalette (some colorsFourAccents) none).background =
      (if isValidColor colorsFourAccents.background then colorsFourAccents.background
        else (getColorThemeConfig none).get (·.background)) ∧
    (generateColorPalette (some colorsFourAccents) none).text =
      (if isValidColor colorsFourAccents.text then colorsFourAccents.text
        else (getColorThemeConfig none).get (·.text)) :=
  generateColorPalette_synthesis colorsFourAccents none (some "#111111".toList)
    (some "#222222".toList) [] (by decide)

/-- C19, as the code has it: with at least two valid detected accents the background of
the palette is the detected background when it is valid and the background of the theme
otherwise, and the same for the text; with fewer than two valid accents the background
and the text are those of the theme, whatever was detected. -/
theorem generateColorPalette_background_text (d : Option DetectedColors)
    (themeKey : Option (List Char)) :
    (2 ≤ (validDetected d).length →
      (generateColorPalette d themeKey).background =
        (if isValidColor (d.bind fun x => x.background) then d.bind fun x => x.background
          else (getColorThemeConfig themeKey).get (·.background)) ∧
      (generateColorPalette d themeKey).text =
        (if isValidColor (d.bind fun x => x.text) then d.bind fun x => x.text
          else (getColorThemeConfig themeKey).get (·.text))) ∧
    ((validDetected d).length < 2 →
      (generateColorPalette d themeKey).background =
        (getColorThemeConfig themeKey).get (·.background) ∧
      (generateColorPalette d themeKey).text =
        (getColorThemeConfig themeKey).get (·.text)) := by
  unfold generateColorPalette
  rcases hV : validDetected d with _ | ⟨v0, _ | ⟨v1, rest⟩⟩
  · simp
  · simp
  · simp

/-- C19 at a concrete input: no accent, so the theme decides. -/
theorem generateColorPalette_background_text_witness :
    (generateColorPalette (some colorsNoAccent) none).background =
      (getColorThemeConfig none).get (·.background) ∧
    (generateColorPalette (some colorsNoAccent) none).text =
      (getColorThemeConfig none).get (·.text) :=
  (generateColorPalette_background_text (some colorsNoAccent) none).2 (by decide)

/-- C19, refuted as stated: a valid white background and a valid black text are detected
but no accent; the palette has the background and the text of the theme. -/
theorem generateColorPalette_ignores_background :
    isValidColor colorsNoAccent.background = true ∧
    isValidColor colorsNoAccent.text = true ∧
    (generateColorPalette (some colorsNoAccent) none).background = some "#0f172a".toList ∧
    (generateColorPalette (some colorsNoAccent) none).background ≠ colorsNoAccent.background ∧
    (generateColorPalette (some colorsNoAccent) none).text ≠ colorsNoAccent.text := by
  decide

/-- C20: the key `constructor` (in any letter case) is no key of the table, and
`getColorThemeConfig` does not return the default theme for it but the value inherited
from `Object.prototype`. -/
theorem getColorThemeConfig_constructor :
    normalizedKey (some "constructor".toList) ∉ themeKeys ∧
    getColorThemeConfig (some "constructor".toList) = .inherited "constructor".toList ∧
    getColorThemeConfig (some "Constructor".toList) ≠ .theme themeDarkBluePurple ∧
    (getColorThemeConfig (some "constructor".toList)).get (·.background) = none := by
  decide

theorem getColorThemeConfig_default (k : Option (List Char))
    (h1 : normalizedKey k ∉ themeKeys) (h2 : normalizedKey k ≠ "constructor".toList) :
    getColorThemeConfig k = .theme themeDarkBluePurple := by
  unfold getColorThemeConfig themeProperty
  cases hl : COLOR_THEME_CONFIG.lookup (normalizedKey k) with
  | some t =>
    exfalso
    obtain ⟨l1, l2, hsplit, _⟩ := List.lookup_eq_some_iff.mp hl
    apply h1
    unfold themeKeys
    rw [hsplit]
    simp
  | none =>
    have hi : inheritedKeys.contains (normalizedKey k) = false := by
      cases hc : inheritedKeys.contains (normalizedKey k) with
      | false => rfl
      | true => exact absurd (inherited_normalizedKey k hc) h2
    simp only [hi]
    rfl

/-- C21: the normalised key holds only lower-case letters and hyphens; on a label of
ASCII characters it is the label with every letter lower-cased and every other character
that is no hyphen replaced by a hyphen; normalising is idempotent; and a label whose
normalised form is a key of the table gets the theme stored under that key. -/
theorem normalizedKey_lookup :
    (∀ k : List Char, ∀ c ∈ hyphenateKey k, isKeyChar c = true) ∧
    (∀ k : List Char, (∀ c ∈ k, c.toNat < 128) →
      hyphenateKey k = k.map fun c => if isKeyChar (asciiLower c) then asciiLower c else '-') ∧
    (∀ k : List Char, hyphenateKey (hyphenateKey k) = hyphenateKey k) ∧
    (∀ k : Option (List Char), normalizedKey (some (normalizedKey k)) = normalizedKey k) ∧
    (∀ (s : List Char) (key : List Char) (t : ThemeConfig),
      (key, t) ∈ COLOR_THEME_CONFIG → normalizedKey (some s) = key →
        getColorThemeConfig (some s) = .theme t) := by
  refine ⟨fun k c hc => isKeyChar_of_mem_hyphenateKey k c hc, ?_, hyphenateKey_idem,
    normalizedKey_idem, ?_⟩
  · intro k
    induction k with
    | nil => intro _; rfl
    | cons c k ih =>
      intro h
      have hc : c.toNat < 128 := h c (by simp)
      have hk := ih (fun x hx => h x (by simp [hx]))
      have hl : toLowerChar c = [asciiLower c] :=
        toLowerChar_of_plain c (by omega) (by omega)
      have hn : (asciiLower c).toNat < 0x10000 := by
        rw [asciiLower_toNat]; split <;> omega
      simp only [hyphenateKey, toLowerCase, List.flatMap_cons, List.flatMap_append,
        List.map_cons] at hk ⊢
      rw [hl, hk]
      simp only [List.flatMap_cons, List.flatMap_nil, List.append_nil, keyChar]
      split
      · rfl
      · rw [if_neg (by omega)]
        rfl
  · intro s key t hmem hkey
    unfold getColorThemeConfig
    rw [hkey]
    simp only [COLOR_THEME_CONFIG, List.mem_cons, List.mem_singleton, Prod.mk.injEq,
      List.not_mem_nil, or_false] at hmem
    rcases hmem with ⟨rfl, rfl⟩ | ⟨rfl, rfl⟩ | ⟨rfl, rfl⟩ | ⟨rfl, rfl⟩ | ⟨rfl, rfl⟩ | ⟨rfl, rfl⟩ <;>
      rfl

/-- C21 at concrete inputs: labels in other letter cases, with a space, underscores or a
digit where the key has hyphens. -/
theorem normalizedKey_lookup_witness :
    getColorThemeConfig (some "Dark Blue_Purple".toList) = .theme themeDarkBluePurple ∧
    getColorThemeConfig (some "LIGHT9BLUE".toList) = .theme themeLightBlue ∧
    getColorThemeConfig (some "dark_pink_rose".toList) = .theme themeDarkPinkRose :=
  ⟨normalizedKey_lookup.2.2.2.2 "Dark Blue_Purple".toList "dark-blue-purple".toList
      themeDarkBluePurple (by decide) (by decide),
    normalizedKey_lookup.2.2.2.2 "LIGHT9BLUE".toList "light-blue".toList
      themeLightBlue (by decide) (by decide),
    normalizedKey_lookup.2.2.2.2 "dark_pink_rose".toList "dark-pink-rose".toList
      themeDarkPinkRose (by decide) (by decide)⟩

/-! ## The generate-project handler -/

theorem availableProviders_head (env : Env) (provider : String)
    (h : isApiKeyConfigured env provider = true) :
    ∃ rest, availableProviders env provider = provider :: rest := by
  unfold availableProviders providerOrder
  rw [List.filter_cons_of_pos (by simpa using h)]
  exact ⟨_, rfl⟩

theorem callProvider_empty_body (env : Env) (net : Network) (n : Nat) (provider : String)
    (h : isApiKeyConfigured env provider = true)
    (hreply : net n (adapterOf provider) = .ok none) :
    (callProvider env net n provider).1 = .ok "" := by
  obtain ⟨m1, m2, hcp⟩ := callProvider_eq env n provider
  rw [hcp net, hreply, ← isApiKeyConfigured_eq, h]
  rfl

/-- C13, as the code has it: when the requested provider (`gemini` if none is named) has
no usable key, the handler answers 400 with the "API key not configured" message and no
provider is attempted, whatever other keys are configured; when it has one and a prompt
is given, the attempts are those of `callAI`. -/
theorem generateProject_provider_gate (env : Env) (net : Network) (prompt : Option String)
    (provider : Option String) :
    (isApiKeyConfigured env (provider.getD "gemini") = false →
      (generateProject env net prompt provider).response = .failure 400
        (toUpperCase (provider.getD "gemini") ++
          " API key not configured. Please add your API key to the .env file.") ∧
      (generateProject env net prompt provider).attempts = []) ∧
    (isApiKeyConfigured env (provider.getD "gemini") = true → orElse prompt "" ≠ "" →
      (generateProject env net prompt provider).attempts =
        (callAI env net (provider.getD "gemini")).attempts) := by
  constructor
  · intro h
    simp [generateProject, h]
  · intro h hp
    simp only [generateProject, h, hp]
    simp only [Bool.not_true, Bool.false_eq_true, if_false]
    split
    · rfl
    · split <;> rfl

/-- C13 at concrete inputs: Groq and OpenAI have keys; a request that names no provider
asks for Gemini, and a request that names `gémini`, which is no known identifier, is
checked against the Gemini key too and is answered with the upper case of that name. -/
theorem generateProject_provider_gate_witness :
    (generateProject envGroqOpenAI netQuotaThenText (some "a shop") none).response =
      .failure 400 "GEMINI API key not configured. Please add your API key to the .env file." ∧
    (generateProject envGroqOpenAI netQuotaThenText (some "a shop") none).attempts = [] ∧
    (generateProject envGroqOpenAI netQuotaThenText (some "a shop") (some "gémini")).response =
      .failure 400 "GÉMINI API key not configured. Please add your API key to the .env file." :=
  have h1 := (generateProject_provider_gate envGroqOpenAI netQuotaThenText (some "a shop")
    none).1 (by decide)
  have h2 := (generateProject_provider_gate envGroqOpenAI netQuotaThenText (some "a shop")
    (some "gémini")).1 (by decide)
  ⟨h1.1.trans (congrArg (HttpResponse.failure 400) (by decide)), h1.2,
    h2.1.trans (congrArg (HttpResponse.failure 400) (by decide))⟩

/-- C13, refuted as stated: Groq and OpenAI are configured and `callAI` would try them
for the preferred provider `gemini`, but the handler rejects the request with status 400
and attempts none of them. -/
theorem generateProject_rejects_despite_fallback :
    availableProviders envGroqOpenAI "gemini" = ["groq", "openai"] ∧
    (callAI envGroqOpenAI netQuotaThenText "gemini").attempts.map (fun a => a.provider)
      = ["groq", "openai"] ∧
    (generateProject envGroqOpenAI netQuotaThenText (some "a shop") (some "gemini")).attempts
      = [] ∧
    (match (generateProject envGroqOpenAI netQuotaThenText (some "a shop")
        (some "gemini")).response with
      | .failure status _ => status
      | .project _ _ _ => 200) = 400 := by
  decide

/-- C28: when the preferred provider is configured and its service answers the first
request with a success status and no text, `callAI` returns the empty string after that
one attempt, `parseMultiFileResponse` of the empty string is the single file `index.html`
with empty content and the default summary, and the generate-project handler reports
success with these files and `filesCount` 1. -/
theorem generateProject_empty_text (env : Env) (net : Network) (prompt provider : String)
    (hcfg : isApiKeyConfigured env provider = true) (hprompt : prompt ≠ "")
    (hreply : net 0 (adapterOf provider) = .ok none) :
    (callAI env net provider).result = .ok "" ∧
    (callAI env net provider).attempts = [sentAttempt provider] ∧
    parseMultiFileResponse "".toList =
      .ok ⟨.obj [(indexHtml, .str [])], .str defaultSummary⟩ ∧
    (generateProject env net (some prompt) (some provider)).response =
      .project (.obj [(indexHtml, .str [])]) (.str defaultSummary) 1 ∧
    (generateProject env net (some prompt) (some provider)).attempts =
      [sentAttempt provider] := by
  obtain ⟨rest, hrest⟩ := availableProviders_head env provider hcfg
  have hok := callAILoop_ok env net provider rest 0 none "" hcfg
    (callProvider_empty_body env net 0 provider hcfg hreply)
  have hrun : callAI env net provider = callAILoop env net (provider :: rest) 0 none := by
    unfold callAI
    simp [hrest]
  have hparse : parseMultiFileResponse "".toList =
      .ok ⟨.obj [(indexHtml, .str [])], .str defaultSummary⟩ := rfl
  have hp : orElse (some prompt) "" ≠ "" := by simp [orElse, hprompt]
  refine ⟨by rw [hrun]; exact hok.1, by rw [hrun]; exact hok.2, hparse, ?_, ?_⟩
  · simp only [generateProject, Option.getD_some, hcfg, hp, Bool.not_true,
      Bool.false_eq_true, if_false, hrun, hok.1]
    rfl
  · simp only [generateProject, Option.getD_some, hcfg, hp, Bool.not_true,
      Bool.false_eq_true, if_false, hrun, hok.1, hok.2]
    rfl

/-- C28 at a concrete input: only Gemini has a key and its reply has no text. -/
theorem generateProject_empty_text_witness :
    (callAI envGeminiOnly netEmptyBody "gemini").result = .ok "" ∧
    (callAI envGeminiOnly netEmptyBody "gemini").attempts = [sentAttempt "gemini"] ∧
    parseMultiFileResponse "".toList =
      .ok ⟨.obj [(indexHtml, .str [])], .str defaultSummary⟩ ∧
    (generateProject envGeminiOnly netEmptyBody (some "a shop") (some "gemini")).response =
      .project (.obj [(indexHtml, .str [])]) (.str defaultSummary) 1 ∧
    (generateProject envGeminiOnly netEmptyBody (some "a shop") (some "gemini")).attempts =
      [sentAttempt "gemini"] :=
  generateProject_empty_text envGeminiOnly netEmptyBody "a shop" "gemini"
    (by decide) (by decide) rfl

/-! ## The explain handler -/

/-- C25: code of at most 3000 code units is embedded unchanged; longer code is cut to its
first 3000 code units followed by the marker; the embedded code has at most 3021 code
units. -/
theorem truncatedCode_spec (code : List Nat) :
    (code.length ≤ 3000 → truncatedCode code = code) ∧
    (3000 < code.length →
      truncatedCode code = code.take 3000 ++ utf16 "\n... (code truncated)".toList) ∧
    (truncatedCode code).length ≤ 3021 := by
  have hm : truncationMarker.length = 21 := by decide
  refine ⟨?_, ?_, ?_⟩
  · intro h
    simp [truncatedCode, Nat.not_lt.mpr h]
  · intro h
    simp [truncatedCode, h, truncationMarker]
  · unfold truncatedCode
    split
    · simp only [List.length_append, List.length_take, hm]
      omega
    · omega

/-- C25 at a concrete input: 3001 code units are cut to 3000 and the marker. -/
theorem truncatedCode_spec_witness :
    truncatedCode (List.replicate 3001 97) =
      (List.replicate 3001 97).take 3000 ++ utf16 "\n... (code truncated)".toList :=
  (truncatedCode_spec (List.replicate 3001 97)).2.1 (by rw [List.length_replicate]; omega)

/-- C26: the explain handler never throws on the provider text: when the cleaned text
does not parse as JSON the explanation is the raw-text object with the first 200 code
units as summary, the whole text as only highlight and `isRawText` true; when it parses,
the explanation is the parsed value. -/
theorem parseExplanation_spec (text : List Char) :
    (∀ e, jsonParse (cleanJsonResponse text) = .error e →
      parseExplanation text = .rawText ((utf16 text).take 200) [text] true) ∧
    (∀ value, jsonParse (cleanJsonResponse text) = .ok value →
      parseExplanation text = .parsed value) ∧
    ((∃ e, jsonParse (cleanJsonResponse text) = .error e) ∨
      (∃ value, jsonParse (cleanJsonResponse text) = .ok value)) := by
  refine ⟨?_, ?_, ?_⟩
  · intro e h
    simp [parseExplanation, h]
  · intro v h
    simp [parseExplanation, h]
  · cases h : jsonParse (cleanJsonResponse text) with
    | error e => exact Or.inl ⟨e, rfl⟩
    | ok v => exact Or.inr ⟨v, rfl⟩

/-- C26 at concrete inputs: a plain sentence, and a JSON object in a fence. -/
theorem parseExplanation_spec_witness :
    parseExplanation "This code draws a page.".toList =
      .rawText ((utf16 "This code draws a page.".toList).take 200)
        ["This code draws a page.".toList] true ∧
    parseExplanation (jsonFenced "\x7b\"summary\":\"ok\"\x7d".toList) =
      .parsed (.obj [("summary".toList, .str "ok".toList)]) :=
  ⟨(parseExplanation_spec "This code draws a page.".toList).1 .syntaxError rfl,
    (parseExplanation_spec (jsonFenced "\x7b\"summary\":\"ok\"\x7d".toList)).2.1 _ rfl⟩

/-! ## The cleaning of generated code -/

theorem hasFence_tail (c : Char) (t : List Char) (h : hasFence (c :: t) = false) :
    hasFence t = false := by
  match t, h with
  | [], _ => rfl
  | [_], _ => rfl
  | x :: y :: r, h =>
    simp only [hasFence, Bool.or_eq_false_iff] at h
    exact h.2

theorem hasFence_cons_of_ne (c : Char) (t : List Char) (hc : c ≠ backtick)
    (h : hasFence t = false) : hasFence (c :: t) = false := by
  match t, h with
  | [], _ => rfl
  | [_], _ => rfl
  | x :: y :: r, h =>
    simp [hasFence, hc, h]

theorem hasFence_cons_of_lead (t : List Char) (hl : leadingBackticks t ≤ 1)
    (h : hasFence t = false) : hasFence (backtick :: t) = false := by
  match t, hl, h with
  | [], _, _ => rfl
  | [_], _, _ => rfl
  | x :: y :: r, hl, h =>
    have : ¬ (x = backtick ∧ y = backtick) := by
      intro ⟨hx, hy⟩
      simp [leadingBackticks, hx, hy] at hl
    simp only [hasFence, h, Bool.or_false, Bool.and_eq_false_iff, beq_eq_false_iff_ne, ne_eq]
    by_cases hx : x = backtick
    · exact Or.inr (fun hy => this ⟨hx, hy⟩)
    · exact Or.inl (Or.inr hx)

theorem matchFence_bare_of_fence (r : List Char) :
    ∃ n, matchFence [] (backtick :: backtick :: backtick :: r) = some n := by
  have hl : matchLiteral true [backtick, backtick, backtick]
      (backtick :: backtick :: backtick :: r) = some 3 := by
    simp [matchLiteral, eqIgnoreCase]
  unfold matchFence
  rw [hl]
  simp only [List.drop_succ_cons, List.drop_zero]
  cases r with
  | nil => exact ⟨_, rfl⟩
  | cons c _ =>
    by_cases hc : c = '\n'
    · exact ⟨4, by simp [hc]⟩
    · exact ⟨3, by simp [hc]⟩

theorem leadingBackticks_of_no_match (cs : List Char)
    (h : matchFence [] (backtick :: cs) = none) : leadingBackticks cs ≤ 1 := by
  match cs, h with
  | [], _ => simp [leadingBackticks]
  | [x], _ => simp only [leadingBackticks]; split <;> simp
  | x :: y :: r, h =>
    simp only [leadingBackticks]
    split
    · rename_i hx
      split
      · rename_i hy
        subst hx hy
        obtain ⟨n, hn⟩ := matchFence_bare_of_fence r
        rw [hn] at h
        cases h
      · simp
    · simp

theorem stripFenceAux_bare_noFence :
    ∀ (s : List Char) (k : Nat),
      hasFence (stripFenceAux [] k s) = false ∧
      (k = 0 → matchFence [] s = none →
        leadingBackticks (stripFenceAux [] 0 s) ≤ leadingBackticks s) := by
  intro s
  induction s with
  | nil => intro k; cases k <;> exact ⟨rfl, fun _ _ => Nat.le_refl _⟩
  | cons c cs ih =>
    intro k
    cases k with
    | succ k => exact ⟨(ih k).1, fun h => by cases h⟩
    | zero =>
      cases hm : matchFence [] (c :: cs) with
      | some n =>
        refine ⟨?_, fun _ h => by cases h⟩
        simp only [stripFenceAux, hm]
        exact (ih (n - 1)).1
      | none =>
        have hout : stripFenceAux [] 0 (c :: cs) = c :: stripFenceAux [] 0 cs :=
          stripFenceAux_cons_none [] c cs hm
        rw [hout]
        have ih0 := ih 0
        by_cases hc : c = backtick
        · subst hc
          have hlead := leadingBackticks_of_no_match cs hm
          have hcs : matchFence [] cs = none := by
            cases hmc : matchFence [] cs with
            | none => rfl
            | some n =>
              exfalso
              obtain ⟨r, hr⟩ := matchFence_some_starts _ _ _ hmc
              subst hr
              simp [leadingBackticks] at hlead
          have hle := ih0.2 rfl hcs
          refine ⟨hasFence_cons_of_lead _ (Nat.le_trans hle hlead) ih0.1, fun _ _ => ?_⟩
          simp only [leadingBackticks, if_true]
          omega
        · refine ⟨hasFence_cons_of_ne c _ hc ih0.1, fun _ _ => ?_⟩
          simp [leadingBackticks, hc]

theorem hasFence_append_right (a b : List Char) (h : hasFence (a ++ b) = false) :
    hasFence b = false := by
  induction a with
  | nil => exact h
  | cons c a ih => exact ih (hasFence_tail c _ h)

theorem hasFence_append_left :
    ∀ (a b : List Char), hasFence (a ++ b) = false → hasFence a = false := by
  intro a
  induction a with
  | nil => intro _ _; rfl
  | cons c a ih =>
    intro b h
    have ha := ih b (hasFence_tail c _ h)
    match a, h, ha with
    | [], _, _ => rfl
    | [_], _, _ => rfl
    | x :: y :: r, h, ha =>
      simp only [List.cons_append, hasFence, Bool.or_eq_false_iff] at h
      simp only [hasFence, Bool.or_eq_false_iff]
      exact ⟨h.1, ha⟩

theorem trimStart_suffix (s : List Char) : ∃ a, s = a ++ trimStart s :=
  ⟨s.takeWhile isJsSpace, (List.takeWhile_append_dropWhile isJsSpace s).symm⟩

theorem trimEnd_prefix (s : List Char) : ∃ b, s = trimEnd s ++ b := by
  refine ⟨(s.reverse.takeWhile isJsSpace).reverse, ?_⟩
  unfold trimEnd
  rw [← List.reverse_append, List.takeWhile_append_dropWhile, List.reverse_reverse]

theorem hasFence_trim (s : List Char) (h : hasFence s = false) : hasFence (trim s) = false := by
  obtain ⟨a, ha⟩ := trimStart_suffix s
  obtain ⟨b, hb⟩ := trimEnd_prefix (trimStart s)
  have h1 : hasFence (trimStart s) = false := by
    rw [ha] at h
    exact hasFence_append_right a _ h
  rw [hb] at h1
  exact hasFence_append_left _ b h1

theorem trimStart_of_head (s : List Char) (h : ∀ c ∈ s.head?, isJsSpace c = false) :
    trimStart s = s := by
  cases s with
  | nil => rfl
  | cons c cs =>
    have := h c (by simp)
    simp [trimStart, List.dropWhile_cons, this]

theorem trimEnd_of_last (s : List Char) (h : ∀ c ∈ s.getLast?, isJsSpace c = false) :
    trimEnd s = s := by
  unfold trimEnd
  have h1 : ∀ c ∈ s.reverse.head?, isJsSpace c = false := by
    simpa [List.head?_reverse] using h
  have := trimStart_of_head s.reverse h1
  unfold trimStart at this
  rw [this, List.reverse_reverse]

theorem head_trimStart (s : List Char) : ∀ c ∈ (trimStart s).head?, isJsSpace c = false := by
  intro c hc
  unfold trimStart at hc
  induction s with
  | nil => simp at hc
  | cons a s ih =>
    rw [List.dropWhile_cons] at hc
    by_cases ha : isJsSpace a = true
    · simp only [ha, if_true] at hc
      exact ih hc
    · simp only [ha, Bool.false_eq_true, if_false, List.head?_cons, Option.mem_def,
        Option.some.injEq] at hc
      rw [← hc]
      simpa using ha

theorem last_trimEnd (s : List Char) : ∀ c ∈ (trimEnd s).getLast?, isJsSpace c = false := by
  intro c hc
  unfold trimEnd at hc
  rw [List.getLast?_reverse] at hc
  exact head_trimStart s.reverse c hc

theorem head_trimEnd (s : List Char) (h : ∀ c ∈ s.head?, isJsSpace c = false) :
    ∀ c ∈ (trimEnd s).head?, isJsSpace c = false := by
  intro c hc
  obtain ⟨b, hb⟩ := trimEnd_prefix s
  cases ht : trimEnd s with
  | nil => rw [ht] at hc; simp at hc
  | cons x xs =>
    rw [ht] at hc hb
    simp only [List.head?_cons, Option.mem_def, Option.some.injEq] at hc
    subst hc
    apply h
    rw [hb]
    simp

theorem trim_ends (s : List Char) :
    (∀ c ∈ (trim s).head?, isJsSpace c = false) ∧
    (∀ c ∈ (trim s).getLast?, isJsSpace c = false) :=
  ⟨head_trimEnd _ (head_trimStart s), last_trimEnd _⟩

theorem trim_idem (s : List Char) : trim (trim s) = trim s := by
  have h := trim_ends s
  generalize trim s = t at h
  unfold trim
  rw [trimStart_of_head _ h.1, trimEnd_of_last _ h.2]

theorem hasFence_cleanCode (response : List Char) : hasFence (cleanCode response) = false := by
  unfold cleanCode
  apply hasFence_trim
  exact (stripFenceAux_bare_noFence _ 0).1

/-- C27: the cleaned code holds no three backticks in a row, neither starts nor ends with
whitespace, and cleaning it again returns it unchanged. -/
theorem cleanCode_clean (response : List Char) :
    hasFence (cleanCode response) = false ∧
    (∀ c ∈ (cleanCode response).head?, isJsSpace c = false) ∧
    (∀ c ∈ (cleanCode response).getLast?, isJsSpace c = false) ∧
    cleanCode (cleanCode response) = cleanCode response := by
  have hf := hasFence_cleanCode response
  have he : (∀ c ∈ (cleanCode response).head?, isJsSpace c = false) ∧
      (∀ c ∈ (cleanCode response).getLast?, isJsSpace c = false) := by
    unfold cleanCode
    exact trim_ends _
  refine ⟨hf, he.1, he.2, ?_⟩
  generalize cleanCode response = cleaned at hf he
  unfold cleanCode
  rw [stripFence_of_noFence _ _ hf, stripFence_of_noFence _ _ hf,
    stripFence_of_noFence _ _ hf, stripFence_of_noFence _ _ hf,
    stripFence_of_noFence _ _ hf]
  unfold trim
  rw [trimStart_of_head _ he.1, trimEnd_of_last _ he.2]

/-! ## Token deduction -/

/-- C30: the route and the helper accept a negative amount: with a balance of 100 and the
amount -50 the balance stored afterwards is 150, and the helper lowers `tokens_used`. -/
theorem deductTokens_negative_amount :
    deductTokensRoute true (-50) (some subscriptionHundred) =
      (.deducted (-50) 150, some { subscriptionHundred with tokens_remaining := 150 }) ∧
    (deductTokens (-50) (some subscriptionHundred)).2 =
      some { subscriptionHundred with tokens_remaining := 150, tokens_used := some (-30) } ∧
    (deductTokens (-50) (some subscriptionHundred)).1.success = true := by
  decide

theorem deductTokens_positive_amount (tokens : Int) (subscription : Subscription)
    (hpos : 0 < tokens) (hbal : 0 ≤ subscription.tokens_remaining) :
    (∀ after, (deductTokensRoute true tokens (some subscription)).2 = some after →
      after.tokens_remaining ≤ subscription.tokens_remaining ∧ 0 ≤ after.tokens_remaining) ∧
    (∀ after, (deductTokens tokens (some subscription)).2 = some after →
      after.tokens_remaining ≤ subscription.tokens_remaining ∧ 0 ≤ after.tokens_remaining) ∧
    ((deductTokens tokens (some subscription)).1.success = true →
      (deductTokens tokens (some subscription)).2 =
        some { subscription with
          tokens_remaining := subscription.tokens_remaining - tokens,
          tokens_used := some (subscription.tokens_used.getD 0 + tokens) }) ∧
    (subscription.tokens_remaining < tokens →
      (deductTokens tokens (some subscription)).2 = some subscription ∧
      (deductTokensRoute true tokens (some subscription)).2 = some subscription) := by
  have hne : (tokens == 0) = false := by
    simp only [beq_eq_false_iff_ne, ne_eq]
    omega
  refine ⟨?_, ?_, ?_, ?_⟩
  · intro after h
    simp only [deductTokensRoute, Bool.not_true, hne, Bool.or_false, Bool.false_eq_true,
      if_false] at h
    split at h
    · simp only [Option.some.injEq] at h
      subst h
      exact ⟨Int.le_refl _, hbal⟩
    · simp only [Option.some.injEq] at h
      subst h
      simp only
      omega
  · intro after h
    simp only [deductTokens] at h
    split at h
    · simp only [Option.some.injEq] at h
      subst h
      exact ⟨Int.le_refl _, hbal⟩
    · simp only [Option.some.injEq] at h
      subst h
      simp only
      omega
  · intro h
    simp only [deductTokens] at h ⊢
    split
    · rename_i hlt
      simp [hlt] at h
    · rfl
  · intro hlt
    simp [deductTokens, deductTokensRoute, hlt, hne]

/-! ## Image extraction -/

theorem filenameIndex_imageFilename (i : Nat) (hi : i < 10) (ext : List Char) :
    filenameIndex (imageFilename i ext) = i + 1 := by
  interval_cases i <;> rfl

theorem imageEntry_index (i : Nat) (hi : i < 10) (img : PageImage) (key : List Char)
    (d : ImageData) (h : imageEntry i img = some (key, d)) : filenameIndex key = i + 1 := by
  unfold imageEntry at h
  split at h
  · simp only [Option.some.injEq, Prod.mk.injEq] at h
    rw [← h.1]
    exact filenameIndex_imageFilename i hi _
  · cases h

theorem setImage_of_not_mem (k : List Char) (v : ImageData) :
    ∀ (acc : List (List Char × ImageData)), k ∉ acc.map Prod.fst →
      setImage k v acc = acc ++ [(k, v)] := by
  intro acc
  induction acc with
  | nil => intro _; rfl
  | cons a acc ih =>
    intro h
    obtain ⟨k1, v1⟩ := a
    simp only [List.map_cons, List.mem_cons, not_or] at h
    have hne : ¬ k1 = k := fun e => h.1 e.symm
    simp [setImage, hne, ih h.2]

theorem extractStep_eq (i : Nat) (hi : i < 10) (img : PageImage) (state : Extraction)
    (hkeys : ∀ key ∈ state.stored.map Prod.fst, filenameIndex key ≤ i) :
    extractStep i img state =
      ⟨state.stored ++ (imageEntry i img).toList,
        state.fetched ++ (if img.pathname.isSome then [img.src] else [])⟩ := by
  unfold extractStep imageEntry
  cases hp : img.pathname with
  | none => simp
  | some urlPath =>
    cases hf : img.fetch with
    | ok bytes =>
      have hnot : imageFilename i (imageExt urlPath) ∉ state.stored.map Prod.fst := by
        intro hmem
        have := hkeys _ hmem
        rw [filenameIndex_imageFilename i hi] at this
        omega
      simp [setImage_of_not_mem _ _ _ hnot]
    | notOk => simp
    | threw => simp

theorem extractLoop_eq :
    ∀ (imgs : List PageImage) (i : Nat) (state : Extraction),
      i + imgs.length ≤ 10 →
      (∀ key ∈ state.stored.map Prod.fst, filenameIndex key ≤ i) →
      extractLoop imgs i state =
        ⟨state.stored ++ (imgs.enumFrom i).filterMap (fun p => imageEntry p.1 p.2),
          state.fetched ++ (imgs.filter fun img => img.pathname.isSome).map (·.src)⟩ := by
  intro imgs
  induction imgs with
  | nil => intro i state _ _; simp [extractLoop]
  | cons img rest ih =>
    intro i state hlen hkeys
    simp only [List.length_cons] at hlen
    have hi : i < 10 := by omega
    have hstep := extractStep_eq i hi img state hkeys
    have hkeys1 : ∀ key ∈ (extractStep i img state).stored.map Prod.fst,
        filenameIndex key ≤ i + 1 := by
      intro key hk
      rw [hstep] at hk
      simp only [List.map_append, List.mem_append] at hk
      rcases hk with hk | hk
      · exact Nat.le_succ_of_le (hkeys key hk)
      · cases he : imageEntry i img with
        | none => rw [he] at hk; simp at hk
        | some e =>
          rw [he] at hk
          simp only [Option.toList_some, List.map_cons, List.map_nil, List.mem_singleton] at hk
          have := imageEntry_index i hi img e.1 e.2 he
          rw [hk, this]
    rw [extractLoop, ih (i + 1) _ (by omega) hkeys1, hstep]
    cases he : imageEntry i img <;> cases hp : img.pathname <;>
      simp [List.enumFrom_cons, he, hp, List.filter_cons]

theorem extractImages_eq (qualifying : List PageImage) :
    extractImages qualifying =
      ⟨((qualifying.take 10).enumFrom 0).filterMap (fun p => imageEntry p.1 p.2),
        ((qualifying.take 10).filter fun img => img.pathname.isSome).map (·.src)⟩ := by
  unfold extractImages
  rw [extractLoop_eq _ 0 _ (by simp [List.length_take]) (by simp)]
  simp

theorem lookup_entries_below :
    ∀ (imgs : List PageImage) (i k : Nat) (ext : List Char),
      i + imgs.length ≤ 10 → k < i →
      ((imgs.enumFrom i).filterMap (fun p => imageEntry p.1 p.2)).lookup
        (imageFilename k ext) = none := by
  intro imgs
  induction imgs with
  | nil => intro i k ext _ _; rfl
  | cons img rest ih =>
    intro i k ext hlen hk
    simp only [List.length_cons] at hlen
    have hrest := ih (i + 1) k ext (by omega) (by omega)
    simp only [List.enumFrom_cons, List.filterMap_cons]
    cases he : imageEntry i img with
    | none => exact hrest
    | some e =>
      obtain ⟨key, d⟩ := e
      have hidx := imageEntry_index i (by omega) img key d he
      have hne : (imageFilename k ext == key) = false := by
        rw [beq_eq_false_iff_ne]
        intro heq
        have := filenameIndex_imageFilename k (by omega) ext
        rw [heq, hidx] at this
        omega
      simp only [List.lookup_cons, hne]
      exact hrest

theorem lookup_entries :
    ∀ (imgs : List PageImage) (i k : Nat) (img : PageImage),
      i + imgs.length ≤ 10 → imgs[k]? = some img →
      (∀ key d, imageEntry (i + k) img = some (key, d) →
        ((imgs.enumFrom i).filterMap (fun p => imageEntry p.1 p.2)).lookup key = some d) ∧
      (imageEntry (i + k) img = none → ∀ ext,
        ((imgs.enumFrom i).filterMap (fun p => imageEntry p.1 p.2)).lookup
          (imageFilename (i + k) ext) = none) := by
  intro imgs
  induction imgs with
  | nil => intro i k img _ h; simp at h
  | cons img0 rest ih =>
    intro i k img hlen hget
    simp only [List.length_cons] at hlen
    cases k with
    | zero =>
      simp only [List.getElem?_cons_zero, Option.some.injEq] at hget
      subst hget
      simp only [Nat.add_zero, List.enumFrom_cons, List.filterMap_cons]
      constructor
      · intro key d he
        simp [he]
      · intro he ext
        simp only [he]
        exact lookup_entries_below rest (i + 1) i ext (by omega) (by omega)
    | succ k =>
      simp only [List.getElem?_cons_succ] at hget
      have hk : k < rest.length := by
        rcases Nat.lt_or_ge k rest.length with h | h
        · exact h
        · rw [List.getElem?_eq_none h] at hget; cases hget
      have hrest := ih (i + 1) k img (by omega) hget
      have hidx : i + 1 + k = i + (k + 1) := by omega
      rw [hidx] at hrest
      simp only [List.enumFrom_cons, List.filterMap_cons]
      cases he0 : imageEntry i img0 with
      | none => exact hrest
      | some e0 =>
        obtain ⟨key0, d0⟩ := e0
        have hidx0 := imageEntry_index i (by omega) img0 key0 d0 he0
        constructor
        · intro key d he
          have hidx1 := imageEntry_index (i + (k + 1)) (by omega) img key d he
          have hne : (key == key0) = false := by
            rw [beq_eq_false_iff_ne]
            intro heq
            rw [heq, hidx0] at hidx1
            omega
          simp only [List.lookup_cons, hne]
          exact hrest.1 key d he
        · intro he ext
          have hne : (imageFilename (i + (k + 1)) ext == key0) = false := by
            rw [beq_eq_false_iff_ne]
            intro heq
            have := filenameIndex_imageFilename (i + (k + 1)) (by omega) ext
            rw [heq, hidx0] at this
            omega
          simp only [List.lookup_cons, hne]
          exact hrest.2 he ext

/-- C22: at most ten images are fetched and at most ten entries stored; the navigations
go to the first ten qualifying images (those whose URL parses), in order, and to no later
one; for `k < 10` the image at index `k` is stored under `images/image-(k+1).ext` with its
bytes exactly when its fetch succeeds, whatever happens to the other images; and when all
of fifteen images are fetched successfully the keys are those of the first ten, numbered
1 to 10. -/
theorem extractImages_spec (qualifying : List PageImage) :
    (extractImages qualifying).fetched.length ≤ 10 ∧
    (extractImages qualifying).stored.length ≤ 10 ∧
    (extractImages qualifying).fetched =
      ((qualifying.take 10).filter fun img => img.pathname.isSome).map (·.src) ∧
    (∀ k img, k < 10 → qualifying[k]? = some img →
      (∀ urlPath bytes, img.pathname = some urlPath → img.fetch = .ok bytes →
        (extractImages qualifying).stored.lookup (imageFilename k (imageExt urlPath)) =
          some ⟨imageMimeType (imageExt urlPath), bytes⟩) ∧
      (imageEntry k img = none → ∀ ext,
        (extractImages qualifying).stored.lookup (imageFilename k ext) = none)) ∧
    (qualifying.length = 15 →
      (∀ img ∈ qualifying, ∃ urlPath bytes, img.pathname = some urlPath ∧ img.fetch = .ok bytes) →
      (extractImages qualifying).stored.map Prod.fst =
        ((qualifying.take 10).enumFrom 0).map
          (fun p => imageFilename p.1 (imageExt (p.2.pathname.getD []))) ∧
      (extractImages qualifying).stored.length = 10) := by
  rw [extractImages_eq]
  have hlen : (qualifying.take 10).length ≤ 10 := by simp [List.length_take]
  refine ⟨?_, ?_, rfl, ?_, ?_⟩
  · simp only [List.length_map]
    exact Nat.le_trans (List.length_filter_le _ _) hlen
  · exact Nat.le_trans (List.length_filterMap_le _ _) (by simp [List.length_take])
  · intro k img hk hget
    have hget1 : (qualifying.take 10)[k]? = some img := by
      rw [List.getElem?_take]
      simp [hk, hget]
    have h := lookup_entries (qualifying.take 10) 0 k img (by omega) hget1
    simp only [Nat.zero_add] at h
    refine ⟨?_, h.2⟩
    intro urlPath bytes hp hf
    apply h.1
    simp [imageEntry, hp, hf]
  · intro h15 hall
    have hall1 : ∀ p ∈ (qualifying.take 10).enumFrom 0,
        imageEntry p.1 p.2 = some (imageFilename p.1 (imageExt (p.2.pathname.getD [])),
          ⟨imageMimeType (imageExt (p.2.pathname.getD [])),
            match p.2.fetch with | .ok b => b | _ => []⟩) := by
      intro p hp
      have hmem : p.2 ∈ qualifying := by
        have h3 := (List.mem_enumFrom (show (p.1, p.2) ∈ _ from hp)).2.2
        exact List.mem_of_mem_take (h3 ▸ List.getElem_mem _)
      obtain ⟨urlPath, bytes, h1, h2⟩ := hall p.2 hmem
      simp [imageEntry, h1, h2]
    have hfm : ((qualifying.take 10).enumFrom 0).filterMap (fun p => imageEntry p.1 p.2) =
        ((qualifying.take 10).enumFrom 0).map (fun p =>
          (imageFilename p.1 (imageExt (p.2.pathname.getD [])),
            (⟨imageMimeType (imageExt (p.2.pathname.getD [])),
              match p.2.fetch with | .ok b => b | _ => []⟩ : ImageData))) := by
      generalize (qualifying.take 10).enumFrom 0 = l at hall1
      induction l with
      | nil => rfl
      | cons a l ih =>
        rw [List.filterMap_cons, hall1 a (by simp), List.map_cons,
          ih (fun p hp => hall1 p (by simp [hp]))]
    simp only [hfm, List.map_map, List.length_map, List.enumFrom_length, List.length_take, h15]
    exact ⟨rfl, rfl⟩

/-- C22 at a concrete input: fifteen pictures, all fetched. -/
theorem extractImages_spec_witness :
    (extractImages ((List.range 15).map imageOk)).stored.map Prod.fst =
      ["images/image-1.png".toList, "images/image-2.png".toList, "images/image-3.png".toList,
        "images/image-4.png".toList, "images/image-5.png".toList, "images/image-6.png".toList,
        "images/image-7.png".toList, "images/image-8.png".toList, "images/image-9.png".toList,
        "images/image-10.png".toList] ∧
    (extractImages ((List.range 15).map imageOk)).fetched.length = 10 ∧
    (extractImages ((List.range 15).map imageOk)).stored.length ≤ 10 :=
  ⟨by decide, by decide, (extractImages_spec ((List.range 15).map imageOk)).2.1⟩

/-! ## The browser session of analyze-url -/

theorem closeCount_append (s t : List Event) :
    closeCount (s ++ t) = closeCount s + closeCount t := by
  simp [closeCount, List.count_append]

theorem closeCount_attempts (attempts : List Attempt) :
    closeCount (attempts.map .attempt) = 0 := by
  induction attempts with
  | nil => rfl
  | cons a rest ih =>
    simp only [closeCount] at ih
    simp [closeCount, List.count_cons, ih]

theorem closeCount_fetches (srcs : List (List Char)) :
    closeCount (srcs.map .fetchImage) = 0 := by
  induction srcs with
  | nil => rfl
  | cons a rest ih =>
    simp only [closeCount] at ih
    simp [closeCount, List.count_cons, ih]

theorem closeCount_loadPage (script : PageScript) : closeCount (loadPage script).2 = 0 := by
  unfold loadPage
  cases script.primaryNavigation with
  | none => rfl
  | some e1 =>
    cases script.fallbackNavigation with
    | none => rfl
    | some e2 => rfl

theorem generateSimilar_trace (env : Env) (net : Network) (provider : String)
    (analysis : PageAnalysis) (extractedImages : List (List Char × ImageData)) :
    (generateSimilar env net provider analysis extractedImages).2 =
      (callAI env net provider).attempts.map .attempt := by
  simp only [generateSimilar]
  split
  · rfl
  · split <;> rfl

theorem generateSimilar_ok (env : Env) (net : Network) (provider : String)
    (analysis : PageAnalysis) (extractedImages : List (List Char × ImageData)) :
    (generateSimilar env net provider analysis extractedImages).1.toBool =
      generated env net provider := by
  simp only [generateSimilar, generated]
  split
  · rfl
  · split <;> rename_i h <;> simp only [String.toList] at h <;> simp [h, Except.toBool]

theorem scrapeAndGenerate_closeCount (env : Env) (net : Network) (script : PageScript)
    (provider : String) :
    closeCount (scrapeAndGenerate env net script provider).2 =
      (if scraped script then 1 else 0) ∧
    (scrapeAndGenerate env net script provider).1.toBool =
      (scraped script && generated env net provider) := by
  have hload := closeCount_loadPage script
  unfold scrapeAndGenerate scraped
  rcases hl : loadPage script with ⟨e, navigations⟩
  rw [hl] at hload
  simp only at hload
  cases e with
  | some e => exact ⟨by simpa using hload, rfl⟩
  | none =>
    cases script.analysis with
    | error e =>
      simp only [closeCount_append, hload]
      exact ⟨rfl, rfl⟩
    | ok analysis =>
      cases script.images with
      | error e =>
        simp only [closeCount_append, hload]
        exact ⟨rfl, rfl⟩
      | ok qualifying =>
        simp only [closeCount_append, hload, generateSimilar_trace, closeCount_attempts,
          closeCount_fetches, generateSimilar_ok]
        refine ⟨?_, by simp [Except.toBool]⟩
        have hret : closeCount
            (if (qualifying.take 10).length > 0 then [Event.returnNavigation] else []) = 0 := by
          split <;> rfl
        rw [hret]
        simp [closeCount, Except.toBool]

/-- C23: with a configured provider, a URL and a browser whose page opens, when the
network-idle navigation and the DOM-content-loaded navigation both fail the handler does
launch, two navigations and one `browser.close()`, calls no provider, and answers 500 with
the message of the second navigation error; when the first navigation fails and the
second one and its settle delay complete, the page is evaluated and the response is the
one of a request whose first navigation succeeded. -/
theorem analyzeUrl_page_load_failure (env : Env) (net : Network) (script : PageScript)
    (url provider : Option String) (e1 : String)
    (hkey : isApiKeyConfigured env (provider.getD "gemini") = true)
    (hurl : orElse url "" ≠ "") (hlaunch : script.launch = none)
    (hsetup : script.setup = none) (hprimary : script.primaryNavigation = some e1) :
    (∀ e2, script.fallbackNavigation = some e2 →
      (analyzeUrl env net script url provider).trace =
        [.launched, .primaryNavigation, .fallbackNavigation, .close] ∧
      closeCount (analyzeUrl env net script url provider).trace = 1 ∧
      (∀ a, Event.attempt a ∉ (analyzeUrl env net script url provider).trace) ∧
      (analyzeUrl env net script url provider).response =
        .failure 500 ("Failed to analyze URL: " ++ e2)) ∧
    (script.fallbackNavigation = none → script.settle = none →
      Event.evaluate ∈ (analyzeUrl env net script url provider).trace ∧
      (analyzeUrl env net script url provider).response =
        (analyzeUrl env net { script with primaryNavigation := none } url provider).response) := by
  constructor
  · intro e2 hfallback
    have hrun : analyzeUrl env net script url provider =
        ⟨.failure 500 ("Failed to analyze URL: " ++ e2),
          [.launched, .primaryNavigation, .fallbackNavigation, .close]⟩ := by
      simp [analyzeUrl, hkey, hurl, hlaunch, hsetup, scrapeAndGenerate, loadPage, hprimary,
        hfallback]
    rw [hrun]
    exact ⟨rfl, rfl, by simp, rfl⟩
  · intro hfallback hsettle
    simp only [analyzeUrl, hkey, hurl, hlaunch, hsetup, scrapeAndGenerate, loadPage, hprimary,
      hfallback, hsettle, Bool.not_true, Bool.false_eq_true, if_false]
    cases script.analysis with
    | error e => exact ⟨by simp, rfl⟩
    | ok analysis =>
      cases script.images with
      | error e => exact ⟨by simp, rfl⟩
      | ok qualifying =>
        simp only
        rcases generateSimilar env net (provider.getD "gemini") analysis
          (extractImages qualifying).stored with ⟨r, t⟩
        cases r with
        | error e => exact ⟨by simp, rfl⟩
        | ok response => exact ⟨by simp, rfl⟩

/-- C23 at concrete requests: an unreachable page, and a page that loads on the second
navigation. -/
theorem analyzeUrl_page_load_failure_witness :
    (analyzeUrl envGeminiOnly netDown scriptUnreachable (some "https://a.example")
        (some "gemini")).trace =
      [.launched, .primaryNavigation, .fallbackNavigation, .close] ∧
    (analyzeUrl envGeminiOnly netDown scriptUnreachable (some "https://a.example")
        (some "gemini")).response =
      .failure 500 "Failed to analyze URL: net::ERR_NAME_NOT_RESOLVED" ∧
    Event.evaluate ∈ (analyzeUrl envGeminiOnly netEmptyBody scriptSlow
      (some "https://a.example") none).trace :=
  have h1 := (analyzeUrl_page_load_failure envGeminiOnly netDown scriptUnreachable
    (some "https://a.example") (some "gemini") "Navigation timeout of 60000 ms exceeded"
    (by decide) (by decide) rfl rfl rfl).1 "net::ERR_NAME_NOT_RESOLVED" rfl
  have h2 := (analyzeUrl_page_load_failure envGeminiOnly netEmptyBody scriptSlow
    (some "https://a.example") none "Navigation timeout of 60000 ms exceeded"
    (by decide) (by decide) rfl rfl rfl).2 rfl rfl
  ⟨h1.1, h1.2.2.2, h2.1⟩

/-- C24: for a request that passes the two checks and whose browser launches, the number
of calls of `browser.close()` is 0 when opening or configuring the page fails, 2 when the
page was scraped and then no provider gave a text the parser accepts, and 1 on every other
path (success, page-load failure, failure of an evaluation). -/
theorem analyzeUrl_close_count (env : Env) (net : Network) (script : PageScript)
    (url provider : Option String)
    (hkey : isApiKeyConfigured env (provider.getD "gemini") = true)
    (hurl : orElse url "" ≠ "") (hlaunch : script.launch = none) :
    closeCount (analyzeUrl env net script url provider).trace =
      if script.setup.isSome then 0
      else if scraped script && !generated env net (provider.getD "gemini") then 2
      else 1 := by
  have h := scrapeAndGenerate_closeCount env net script (provider.getD "gemini")
  simp only [analyzeUrl, hkey, hurl, hlaunch, Bool.not_true, Bool.false_eq_true, if_false]
  cases script.setup with
  | some e => rfl
  | none =>
    simp only [Option.isSome_none, Bool.false_eq_true, if_false]
    rcases hs : scrapeAndGenerate env net script (provider.getD "gemini") with ⟨r, t⟩
    rw [hs] at h
    simp only at h
    obtain ⟨hcount, hok⟩ := h
    have hcons : ∀ l : List Event, closeCount (.launched :: l) = closeCount l := by
      intro l; simp [closeCount, List.count_cons]
    cases r with
    | error e =>
      simp only [hcons, closeCount_append, hcount]
      have hg : (scraped script && generated env net (provider.getD "gemini")) = false := by
        rw [← hok]; rfl
      cases hsc : scraped script <;> cases hgen : generated env net (provider.getD "gemini") <;>
        simp [hsc, hgen, closeCount] at hg ⊢
    | ok response =>
      simp only [hcons, hcount]
      have hg : (scraped script && generated env net (provider.getD "gemini")) = true := by
        rw [← hok]; rfl
      cases hsc : scraped script <;> cases hgen : generated env net (provider.getD "gemini") <;>
        simp [hsc, hgen] at hg ⊢

/-- C24 at concrete requests: the page cannot be opened (no close), and the page is
scraped but the only provider is down (two closes). -/
theorem analyzeUrl_close_count_witness :
    closeCount (analyzeUrl envGeminiOnly netDown scriptNoPage (some "https://a.example")
      (some "gemini")).trace = 0 ∧
    (analyzeUrl envGeminiOnly netDown scriptNoPage (some "https://a.example")
      (some "gemini")).trace = [.launched] ∧
    closeCount (analyzeUrl envGeminiOnly netDown scriptFine (some "https://a.example")
      (some "gemini")).trace = 2 :=
  ⟨(analyzeUrl_close_count envGeminiOnly netDown scriptNoPage (some "https://a.example")
      (some "gemini") (by decide) (by decide) rfl).trans rfl,
    by decide,
   (analyzeUrl_close_count envGeminiOnly netDown scriptFine (some "https://a.example")
      (some "gemini") (by decide) (by decide) rfl).trans (by decide)⟩

end CodeAI
